import Mathlib

/-!
# Finding filter of the scanner: OpenVEX suppression and the report filter

A shallow embedding of `pkg/vex/openvex.go` (the OpenVEX backend of the VEX
filter) and of the report filter that `pkg/result/filter_test.go` exercises.

Go slices are Lean lists, Go strings are Lean strings (both compare
lexicographically), pointers that may be nil are `Option`s, and a Go method
that mutates `*types.Result` in place is a function from the old record to the
new one.
-/

namespace Trivy

/-! ## Data model (`pkg/types`, `pkg/fanal/types`) -/

/-- Package URL of `packageurl-go`, the fields a finding carries. -/
structure PackageURL where
  Typ : String
  Namespace : String
  Name : String
  Version : String
  Qualifiers : List (String × String)
  Subpath : String
deriving DecidableEq, Repr

/-- Modelled from the spec: `ftypes.PkgIdentifier` is declared outside the
sources; section 3 gives an optional package identifier carrying a PURL and a
BOM-ref, and openvex.go tests `PkgIdentifier.PURL` against nil. -/
structure PkgIdentifier where
  PURL : Option PackageURL
  BOMRef : String
deriving DecidableEq, Repr

/-- Distro-assigned status of a vulnerability (`dbTypes.Status` of trivy-db),
with the values section 4.4 of the spec lists. -/
inductive Status where
  | unknown
  | affected
  | fixed
  | under_investigation
  | will_not_fix
  | end_of_life
deriving DecidableEq, Repr

/-- Severity levels `dbTypes.Severity`, in increasing order. -/
inductive Severity where
  | Unknown
  | Low
  | Medium
  | High
  | Critical
deriving DecidableEq, Repr

/-- The name `dbTypes.Severity.String()` prints. -/
def Severity.String : Severity → String
  | .Unknown => "UNKNOWN"
  | .Low => "LOW"
  | .Medium => "MEDIUM"
  | .High => "HIGH"
  | .Critical => "CRITICAL"

/-- Modelled from the spec: `types.DetectedVulnerability` is declared outside
the sources; the fields are those of section 3 and of the literals of
`filter_test.go` (`Severity` is the embedded `Vulnerability.Severity`). -/
structure DetectedVulnerability where
  VulnerabilityID : String
  PkgName : String
  PkgPath : String
  PkgIdentifier : PkgIdentifier
  InstalledVersion : String
  FixedVersion : String
  Status : Status
  Severity : String
deriving DecidableEq, Repr

/-- Modelled from the spec: `types.MisconfStatus`, declared outside the
sources, with the three values of section 3. -/
inductive MisconfStatus where
  | passed
  | failure
  | exception
deriving DecidableEq, Repr

/-- Modelled from the spec: `types.DetectedMisconfiguration`, declared outside
the sources, with the fields of section 3 and of the literals of
`filter_test.go`. -/
structure DetectedMisconfiguration where
  Typ : String
  ID : String
  AVDID : String
  Title : String
  Message : String
  Severity : String
  Status : MisconfStatus
deriving DecidableEq, Repr

/-- Modelled from the spec: `types.DetectedSecret`, declared outside the
sources, with the fields of section 3 and of the literals of `filter_test.go`. -/
structure DetectedSecret where
  RuleID : String
  Severity : String
  Title : String
  StartLine : Int
  EndLine : Int
  Match : String
deriving DecidableEq, Repr

/-- Modelled from the spec: `types.DetectedLicense`, declared outside the
sources, with the fields of section 3 (the floating-point `Confidence`, which
no filter reads, is left out). -/
structure DetectedLicense where
  Name : String
  Severity : String
  FilePath : String
  Category : String
deriving DecidableEq, Repr

/-- Modelled from the spec: the four finding variants of section 3, which
`types.NewModifiedFinding` accepts and a modified finding stores. -/
inductive Finding where
  | vuln (v : DetectedVulnerability)
  | misconf (m : DetectedMisconfiguration)
  | secret (s : DetectedSecret)
  | license (l : DetectedLicense)
deriving DecidableEq, Repr

/-- Modelled from the spec: `types.FindingType`, declared outside the sources:
the kind tag of a modified finding (constants `FindingTypeVulnerability`,
`FindingTypeMisconfiguration`, `FindingTypeSecret`, `FindingTypeLicense` of
`filter_test.go`). -/
inductive FindingType where
  | vulnerability
  | misconfiguration
  | secret
  | license
deriving DecidableEq, Repr

/-- Modelled from the spec: `types.FindingStatus`, declared outside the
sources, with the six values section 3 gives for the status of a modified
finding. -/
inductive FindingStatus where
  | ignored
  | unknown
  | not_affected
  | affected
  | fixed
  | under_investigation
deriving DecidableEq, Repr

/-- Modelled from the spec: the kind of a finding, which the constructor of a
modified finding records as its type. -/
def Finding.findingType : Finding → FindingType
  | .vuln _ => .vulnerability
  | .misconf _ => .misconfiguration
  | .secret _ => .secret
  | .license _ => .license

/-- Modelled from the spec: `types.ModifiedFinding`, declared outside the
sources: `{type, status, statement, source, finding}` of section 3. -/
structure ModifiedFinding where
  Typ : FindingType
  Status : FindingStatus
  Statement : String
  Source : String
  Finding : Finding
deriving DecidableEq, Repr

/-- Modelled from the spec: the constructor `types.NewModifiedFinding` is not
among the sources; the data model gives the record
`{type, status, statement, source, finding}` and the expected values of
`TestFilter` show the arguments stored field by field with the type taken
from the finding's kind. -/
def NewModifiedFinding (f : Finding) (status : FindingStatus) (statement source : String) :
    ModifiedFinding :=
  { Typ := f.findingType, Status := status, Statement := statement, Source := source,
    Finding := f }

/-- Modelled from the spec: the counters `types.MisconfSummary`, declared
outside the sources. -/
structure MisconfSummary where
  Successes : Nat
  Failures : Nat
  Exceptions : Nat
deriving DecidableEq, Repr

/-- Modelled from the spec: one target-scoped result `types.Result`, declared
outside the sources, with the parts section 3 names; `Class` is the string
type `types.ResultClass`. -/
structure Result where
  Target : String
  Class : String
  Vulnerabilities : List DetectedVulnerability
  Misconfigurations : List DetectedMisconfiguration
  Secrets : List DetectedSecret
  Licenses : List DetectedLicense
  MisconfSummary : Option MisconfSummary
  ModifiedFindings : List ModifiedFinding
deriving DecidableEq, Repr

/-! ## OpenVEX documents (`github.com/openvex/go-vex`) -/

namespace openvex

/-- OpenVEX status: a string type in go-vex. -/
abbrev Status := String

/-- Constant `openvex.StatusNotAffected`. -/
def StatusNotAffected : Status := "not_affected"

/-- Constant `openvex.StatusAffected`. -/
def StatusAffected : Status := "affected"

/-- Constant `openvex.StatusFixed`. -/
def StatusFixed : Status := "fixed"

/-- Constant `openvex.StatusUnderInvestigation`. -/
def StatusUnderInvestigation : Status := "under_investigation"

/-- A VEX statement: the two fields `OpenVEX.Filter` reads. -/
structure Statement where
  Status : Status
  Justification : String
deriving DecidableEq, Repr

/-- An OpenVEX document, seen through its query method
`Matches(vulnID, product, subcomponents)`, which belongs to the go-vex
library and returns the matching statements in document order. -/
structure VEX where
  Matches : String → String → List String → List Statement

end openvex

/-! ## `pkg/vex/openvex.go` -/

/-- The Go struct `OpenVEX`, a wrapper of the parsed document. -/
structure OpenVEX where
  vex : openvex.VEX

/-- `findingStatus` of openvex.go: the finding status for an OpenVEX status. -/
def findingStatus (status : openvex.Status) : FindingStatus :=
  if status = openvex.StatusNotAffected then FindingStatus.not_affected
  else if status = openvex.StatusFixed then FindingStatus.fixed
  else if status = openvex.StatusUnderInvestigation then FindingStatus.under_investigation
  else FindingStatus.unknown

namespace lo

/-- `lo.Filter` of samber/lo: one pass over the collection in index order that
keeps the items the predicate accepts. The predicate of `OpenVEX.Filter` is a
closure that also appends to `result.ModifiedFindings`, so the state `σ` it
mutates is threaded through the calls. -/
def Filter {V σ : Type} (predicate : V → Nat → σ → Bool × σ) : List V → Nat → σ → List V × σ
  | [], _, s => ([], s)
  | item :: rest, i, s =>
    let r := predicate item i s
    let out := Filter predicate rest (i + 1) r.2
    (if r.1 then item :: out.1 else out.1, out.2)

end lo

/-- The closure `OpenVEX.Filter` passes to `lo.Filter`: the keep/drop decision
for one vulnerability, together with the effect on `result.ModifiedFindings`.
`purlString` is `PackageURL.String()` of packageurl-go. -/
def OpenVEX.predicate (purlString : PackageURL → String) (v : OpenVEX)
    (vuln : DetectedVulnerability) (_ : Nat) (modified : List ModifiedFinding) :
    Bool × List ModifiedFinding :=
  match vuln.PkgIdentifier.PURL with
  | none => (true, modified)
  | some purl =>
    let stmts := v.vex.Matches vuln.VulnerabilityID (purlString purl) []
    if h : stmts.length = 0 then (true, modified)
    else
      let stmt := stmts.get ⟨stmts.length - 1, by omega⟩
      if stmt.Status = openvex.StatusNotAffected ∨ stmt.Status = openvex.StatusFixed then
        (false, modified ++ [NewModifiedFinding (Finding.vuln vuln) (findingStatus stmt.Status)
          stmt.Justification "OpenVEX"])
      else (true, modified)

/-- The method `(*OpenVEX).Filter` of openvex.go. -/
def OpenVEX.Filter (purlString : PackageURL → String) (v : OpenVEX) (result : Result) : Result :=
  let out := lo.Filter (OpenVEX.predicate purlString v) result.Vulnerabilities 0
    result.ModifiedFindings
  { result with Vulnerabilities := out.1, ModifiedFindings := out.2 }

/-! ## The report filter `result.Filter` (`pkg/result`) -/

/-- Modelled from the spec: a scan report `types.Report`, declared outside the
sources: the ordered list of results. -/
structure Report where
  Results : List Result
deriving DecidableEq, Repr

/-- Modelled from the spec: the options `result.FilterOption` of section 6,
with the field names `TestFilter` uses. An empty path disables the
corresponding phase. -/
structure FilterOption where
  Severities : List Severity
  IgnoreStatuses : List Status
  IgnoreFile : String
  PolicyFile : String
  VEXPath : String
  IncludeNonFailures : Bool

/-- Modelled from the spec: the collaborators of one call of the filter that
section 1 puts out of scope, already loaded: the
OpenVEX document at `VEXPath` and the PURL printer, the ignore rules at
`IgnoreFile` as they apply at the instant of the call (`ignoreMatch finding
target` is the statement of the rule that matches, if one does), and the policy
engine's answer to `data.trivy.ignore` (which may fail). -/
structure Documents where
  purlString : PackageURL → String
  vex : OpenVEX
  ignoreMatch : Finding → String → Option String
  policyEval : Finding → Except String Bool

/-- Comparison `a < b` of two Go strings: lexicographic, character by
character (for valid UTF-8 the byte-wise order of Go). -/
def strLess (a b : String) : Bool := decide (a.toList < b.toList)

/-- Modelled from the spec: severity normalisation of section 4.1 (the filter
source `pkg/result/filter.go` is absent): the empty string becomes `UNKNOWN`. -/
def normalizeSeverity (s : String) : String :=
  if s = "" then Severity.Unknown.String else s

/-- Modelled from the spec: phase 1 of section 2, the VEX filter, present when
a VEX path is given; the backend is the OpenVEX one of `pkg/vex/openvex.go`. -/
def vexPhase (d : Documents) (opt : FilterOption) (r : Result) : Result :=
  if opt.VEXPath = "" then r else d.vex.Filter d.purlString r

/-- Modelled from the spec: phase 2, the severity gate of section 4.1. Every
finding's empty severity is normalised first, then a finding is retained iff
its severity is the name of a member of `options.severities`. The expected
summary `{0,1,0}` of the case "severities" of `TestFilter` shows that the gate
applies to passed misconfigurations as well. -/
def severityPhase (opt : FilterOption) (r : Result) : Result :=
  let sevs := opt.Severities.map Severity.String
  { r with
    Vulnerabilities :=
      (r.Vulnerabilities.map fun v => { v with Severity := normalizeSeverity v.Severity }).filter
        fun v => decide (v.Severity ∈ sevs)
    Misconfigurations :=
      (r.Misconfigurations.map fun m => { m with Severity := normalizeSeverity m.Severity }).filter
        fun m => decide (m.Severity ∈ sevs)
    Secrets :=
      (r.Secrets.map fun s => { s with Severity := normalizeSeverity s.Severity }).filter
        fun s => decide (s.Severity ∈ sevs)
    Licenses :=
      (r.Licenses.map fun l => { l with Severity := normalizeSeverity l.Severity }).filter
        fun l => decide (l.Severity ∈ sevs) }

/-- Modelled from the spec: the identifiers of a finding that the id of an
ignore rule is compared with (section 4.3, point 2; the ignore-file code of
`pkg/result` is not among the sources): the vulnerability ID, the rule ID of a
secret, the name of a license, and for a misconfiguration both the ID and the
AVD ID: the case "ignore file" of `TestFilter` expects `misconf3` (ID `ID300`,
AVD ID `AVD-ID300`) ignored by the line `ID300`. -/
def flatIdentifiers : Finding → List String
  | Finding.vuln v => [v.VulnerabilityID]
  | Finding.misconf m => [m.ID, m.AVDID]
  | Finding.secret s => [s.RuleID]
  | Finding.license l => [l.Name]

/-- Modelled from the spec: matching by a flat ignore file (sections 3 and
4.3), given by its identifiers, one per line: a line matches a finding of any
kind whose identifier it equals; a flat rule has no paths, no expiry and no
statement, so the statement of the match is empty. -/
def flatIgnoreMatch (ids : List String) (f : Finding) (_ : String) : Option String :=
  if (flatIdentifiers f).any fun id => decide (id ∈ ids) then some "" else none

/-- Modelled from the spec: the findings of one kind that no ignore rule
matches (section 4.3). -/
def ignoreKept {α : Type} (inj : α → Finding) (ignoreMatch : Finding → String → Option String)
    (target : String) (xs : List α) : List α :=
  xs.filter fun x => (ignoreMatch (inj x) target).isNone

/-- Modelled from the spec: the modified findings recorded for the findings of
one kind that an ignore rule matches: status ignored, the ignore file as
source, the rule's statement (section 4.3). -/
def ignoreRecords {α : Type} (inj : α → Finding)
    (ignoreMatch : Finding → String → Option String) (target file : String) (xs : List α) :
    List ModifiedFinding :=
  xs.filterMap fun x =>
    (ignoreMatch (inj x) target).map fun statement =>
      NewModifiedFinding (inj x) FindingStatus.ignored statement file

/-- Modelled from the spec: phase 3, the ignore-rule filter of section 4.3,
over the four kinds in the order vulnerabilities, misconfigurations, secrets,
licenses. -/
def ignorePhase (d : Documents) (opt : FilterOption) (r : Result) : Result :=
  if opt.IgnoreFile = "" then r
  else
    { r with
      Vulnerabilities := ignoreKept Finding.vuln d.ignoreMatch r.Target r.Vulnerabilities
      Misconfigurations := ignoreKept Finding.misconf d.ignoreMatch r.Target r.Misconfigurations
      Secrets := ignoreKept Finding.secret d.ignoreMatch r.Target r.Secrets
      Licenses := ignoreKept Finding.license d.ignoreMatch r.Target r.Licenses
      ModifiedFindings := r.ModifiedFindings
        ++ ignoreRecords Finding.vuln d.ignoreMatch r.Target opt.IgnoreFile r.Vulnerabilities
        ++ ignoreRecords Finding.misconf d.ignoreMatch r.Target opt.IgnoreFile r.Misconfigurations
        ++ ignoreRecords Finding.secret d.ignoreMatch r.Target opt.IgnoreFile r.Secrets
        ++ ignoreRecords Finding.license d.ignoreMatch r.Target opt.IgnoreFile r.Licenses }

/-- Modelled from the spec: phase 4, the status filter of section 4.4:
vulnerabilities whose distro status is in the ignore set are dropped and no
modified finding is recorded. -/
def statusPhase (opt : FilterOption) (r : Result) : Result :=
  { r with
    Vulnerabilities := r.Vulnerabilities.filter fun v => decide (v.Status ∉ opt.IgnoreStatuses) }

/-- Modelled from the spec: the policy filter of section 4.5 over the findings
of one kind, in order: a truthy answer drops the finding and records it with
status ignored and the statement "Filtered by Rego"; an engine error aborts. -/
def policyPass {α : Type} (inj : α → Finding) (eval : Finding → Except String Bool)
    (source : String) : List α → Except String (List α × List ModifiedFinding)
  | [] => Except.ok ([], [])
  | x :: xs =>
    match eval (inj x) with
    | Except.error e => Except.error e
    | Except.ok ignored =>
      match policyPass inj eval source xs with
      | Except.error e => Except.error e
      | Except.ok rest =>
        if ignored then
          Except.ok (rest.1,
            NewModifiedFinding (inj x) FindingStatus.ignored "Filtered by Rego" source :: rest.2)
        else Except.ok (x :: rest.1, rest.2)

/-- Modelled from the spec: the source recorded for a finding the policy drops
(section 4.5: the policy-file path). The two policy cases of `TestFilter` pass
`./testdata/ignore-vuln.rego` and `./testdata/ignore-misconf.rego` and expect
the sources `testdata/ignore-vuln.rego` and `testdata/ignore-misconf.rego`: a
leading `./` is removed, and nothing else of the path is changed. -/
def policySource (path : String) : String :=
  match path.toList with
  | '.' :: '/' :: rest => String.mk rest
  | _ => path

/-- Modelled from the spec: phase 5, the policy filter of section 4.5, present
when a policy path is given, over the four kinds in order; the source of the
records is the policy path as `policySource` gives it. -/
def policyPhase (d : Documents) (opt : FilterOption) (r : Result) : Except String Result :=
  if opt.PolicyFile = "" then Except.ok r
  else
    let source := policySource opt.PolicyFile
    match policyPass Finding.vuln d.policyEval source r.Vulnerabilities with
    | Except.error e => Except.error e
    | Except.ok pv =>
      match policyPass Finding.misconf d.policyEval source r.Misconfigurations with
      | Except.error e => Except.error e
      | Except.ok pm =>
        match policyPass Finding.secret d.policyEval source r.Secrets with
        | Except.error e => Except.error e
        | Except.ok ps =>
          match policyPass Finding.license d.policyEval source r.Licenses with
          | Except.error e => Except.error e
          | Except.ok pl =>
            Except.ok { r with
              Vulnerabilities := pv.1
              Misconfigurations := pm.1
              Secrets := ps.1
              Licenses := pl.1
              ModifiedFindings := r.ModifiedFindings ++ pv.2 ++ pm.2 ++ ps.2 ++ pl.2 }

/-- Modelled from the spec: the suppression phases 1 to 5 of section 2 in
their fixed order VEX, severity, ignore rules, status, policy. -/
def suppress (d : Documents) (opt : FilterOption) (r : Result) : Except String Result :=
  policyPhase d opt (statusPhase opt (ignorePhase d opt (severityPhase opt (vexPhase d opt r))))

/-- Modelled from the spec: the dedup key of section 4.6. -/
def dedupKey (v : DetectedVulnerability) : String × String × String × String :=
  (v.VulnerabilityID, v.PkgName, v.PkgPath, v.InstalledVersion)

/-- Modelled from the spec: the choice of section 4.6 between the record a
group holds and a new record of the group: a non-empty fixed version is
preferred over an empty one, and among non-empty ones the greater string. -/
def shouldOverwrite (old new : DetectedVulnerability) : Bool :=
  if old.FixedVersion = "" then decide (new.FixedVersion ≠ "")
  else if new.FixedVersion = "" then false
  else strLess old.FixedVersion new.FixedVersion

/-- Modelled from the spec: one record enters the groups built so far. -/
def uniqInsert (v : DetectedVulnerability) : List DetectedVulnerability →
    List DetectedVulnerability
  | [] => [v]
  | old :: rest =>
    if dedupKey old = dedupKey v then
      (if shouldOverwrite old v then v :: rest else old :: rest)
    else old :: uniqInsert v rest

/-- Modelled from the spec: vulnerability dedup of section 4.6: one record per
key, empty severities normalised during the pass. -/
def dedup (vs : List DetectedVulnerability) : List DetectedVulnerability :=
  vs.foldl (fun acc v => uniqInsert { v with Severity := normalizeSeverity v.Severity } acc) []

/-- Modelled from the spec: phase 6, vulnerability dedup. -/
def dedupPhase (r : Result) : Result :=
  { r with Vulnerabilities := dedup r.Vulnerabilities }

/-- Modelled from the spec: the counters of section 4.8 over the
misconfigurations that survived suppression and the modified findings. -/
def summarize (ms : List DetectedMisconfiguration) (modified : List ModifiedFinding) :
    MisconfSummary :=
  { Successes := ms.countP fun m => decide (m.Status = MisconfStatus.passed)
    Failures := ms.countP fun m => decide (m.Status = MisconfStatus.failure)
    Exceptions := modified.countP fun f => decide (f.Typ = FindingType.misconfiguration) }

/-- Modelled from the spec: phase 7, summary recomputation of section 4.8 for a
result that had misconfigurations, and the removal of the non-failures from the
returned list unless `includeNonFailures` is set (sections 4.1 and 6). The
cases "ignore file" and "policy file for misconfigurations" of `TestFilter`
expect a passed misconfiguration counted in `Successes` and absent from the
list, so the counting precedes the removal. -/
def summaryPhase (opt : FilterOption) (hadMisconfigurations : Bool) (r : Result) : Result :=
  { r with
    MisconfSummary :=
      if hadMisconfigurations then some (summarize r.Misconfigurations r.ModifiedFindings)
      else r.MisconfSummary
    Misconfigurations :=
      if opt.IncludeNonFailures then r.Misconfigurations
      else r.Misconfigurations.filter fun m => decide (m.Status = MisconfStatus.failure) }

/-- Modelled from the spec: position of a severity name in the descending
order CRITICAL to UNKNOWN of section 4.7; a string that names no level counts
as UNKNOWN. -/
def severityPosition (s : String) : Nat :=
  if s = "CRITICAL" then 0
  else if s = "HIGH" then 1
  else if s = "MEDIUM" then 2
  else if s = "LOW" then 3
  else 4

/-- Modelled from the spec: the order of vulnerabilities of section 4.7, with
the package name as first key: the expected lists of the two dedup cases of
`TestFilter` put `bar`/UNKNOWN before `baz`/HIGH, so the package name is
compared before the severity. -/
def vulnLess (a b : DetectedVulnerability) : Bool :=
  if a.PkgName ≠ b.PkgName then strLess a.PkgName b.PkgName
  else if severityPosition a.Severity ≠ severityPosition b.Severity then
    decide (severityPosition a.Severity < severityPosition b.Severity)
  else if a.VulnerabilityID ≠ b.VulnerabilityID then strLess a.VulnerabilityID b.VulnerabilityID
  else if a.PkgPath ≠ b.PkgPath then strLess a.PkgPath b.PkgPath
  else strLess a.InstalledVersion b.InstalledVersion

/-- Modelled from the spec: the order of misconfigurations of section 4.7. -/
def misconfLess (a b : DetectedMisconfiguration) : Bool :=
  if severityPosition a.Severity ≠ severityPosition b.Severity then
    decide (severityPosition a.Severity < severityPosition b.Severity)
  else if a.Typ ≠ b.Typ then strLess a.Typ b.Typ
  else strLess a.AVDID b.AVDID

/-- Modelled from the spec: the order of secrets of section 4.7. -/
def secretLess (a b : DetectedSecret) : Bool :=
  if a.RuleID ≠ b.RuleID then strLess a.RuleID b.RuleID
  else decide (a.StartLine < b.StartLine)

/-- Modelled from the spec: the order of licenses of section 4.7. -/
def licenseLess (a b : DetectedLicense) : Bool :=
  if severityPosition a.Severity ≠ severityPosition b.Severity then
    decide (severityPosition a.Severity < severityPosition b.Severity)
  else if a.Category ≠ b.Category then strLess a.Category b.Category
  else if a.FilePath ≠ b.FilePath then strLess a.FilePath b.FilePath
  else strLess a.Name b.Name

/-- Modelled from the spec: the stable sort of section 4.7 by a strict
comparison `less`, as an insertion sort: `a` stays before `b` unless
`less b a`. -/
def sortBy {α : Type} (less : α → α → Bool) (xs : List α) : List α :=
  xs.insertionSort fun a b => less b a = false

/-- Modelled from the spec: phase 8, ordering of the four lists (section 4.7). -/
def orderPhase (r : Result) : Result :=
  { r with
    Vulnerabilities := sortBy vulnLess r.Vulnerabilities
    Misconfigurations := sortBy misconfLess r.Misconfigurations
    Secrets := sortBy secretLess r.Secrets
    Licenses := sortBy licenseLess r.Licenses }

/-- Modelled from the spec: the phases after suppression: dedup, summary,
ordering (`r0` is the result as it entered the filter). -/
def finish (opt : FilterOption) (r0 s : Result) : Result :=
  orderPhase (summaryPhase opt (!r0.Misconfigurations.isEmpty) (dedupPhase s))

/-- Modelled from the spec: the filter pipeline of section 2 on one result. -/
def FilterResult (d : Documents) (opt : FilterOption) (r : Result) : Except String Result :=
  match suppress d opt r with
  | Except.error e => Except.error e
  | Except.ok s => Except.ok (finish opt r s)

/-- Modelled from the spec: the pipeline over the results of a report in
order; the first policy error aborts. -/
def filterResults (d : Documents) (opt : FilterOption) : List Result → Except String (List Result)
  | [] => Except.ok []
  | r :: rs =>
    match FilterResult d opt r with
    | Except.error e => Except.error e
    | Except.ok r1 =>
      match filterResults d opt rs with
      | Except.error e => Except.error e
      | Except.ok rs1 => Except.ok (r1 :: rs1)

/-- Modelled from the spec: the public operation `Filter(ctx, report, options)`
of section 6; `pkg/result/filter.go` is not among the sources, only its test
`pkg/result/filter_test.go` is. The pipeline follows sections 2 and 4 of the
spec; where the expected reports of `TestFilter` decide a point differently
from the prose (the position of the package name in the order of
vulnerabilities, the counting of passed misconfigurations, the leading `./` of
the policy path), the test is followed. The documents are passed in loaded, so load errors, which abort
before any mutation, are outside the model. -/
def Filter (d : Documents) (opt : FilterOption) (report : Report) : Except String Report :=
  match filterResults d opt report.Results with
  | Except.error e => Except.error e
  | Except.ok rs => Except.ok { report with Results := rs }

/-! ## `pkg/iac/adapters/cloudformation/aws/sam/tables.go` -/

namespace defsecTypes

/-- Metadata of defsec (`defsecTypes.Metadata`): where a value comes from,
reduced to the reference that names the place. -/
structure Metadata where
  Reference : String
deriving DecidableEq, Repr

/-- A boolean of defsec with its metadata; the mark of a default value, which
defsec keeps in the value's copy of the metadata, is a field of its own. -/
structure BoolValue where
  value : Bool
  metadata : Metadata
  isDefault : Bool
deriving DecidableEq, Repr

/-- A string of defsec with its metadata and the mark of a default value. -/
structure StringValue where
  value : String
  metadata : Metadata
  isDefault : Bool
deriving DecidableEq, Repr

/-- Constructor `defsecTypes.BoolDefault(value, metadata)`. -/
def BoolDefault (value : Bool) (metadata : Metadata) : BoolValue :=
  { value := value, metadata := metadata, isDefault := true }

/-- Constructor `defsecTypes.StringDefault(value, metadata)`. -/
def StringDefault (value : String) (metadata : Metadata) : StringValue :=
  { value := value, metadata := metadata, isDefault := true }

end defsecTypes

namespace parser2

/-- A property of a CloudFormation resource (`*parser2.Property`, declared
outside the sources), seen through the methods tables.go calls on it:
`IsNotNil()`, `Metadata()`, `GetBoolProperty(path)`, `GetStringProperty(path)`. -/
structure Property where
  IsNotNil : Bool
  Metadata : defsecTypes.Metadata
  GetBoolProperty : String → defsecTypes.BoolValue
  GetStringProperty : String → defsecTypes.StringValue

/-- A CloudFormation resource (`*parser2.Resource`, declared outside the
sources), seen through the methods tables.go calls on it: `Metadata()`,
`GetProperty(path)`, `GetStringProperty(path)`. -/
structure Resource where
  Metadata : defsecTypes.Metadata
  GetProperty : String → Property
  GetStringProperty : String → defsecTypes.StringValue

/-- A parsed CloudFormation file (`parser2.FileContext`, declared outside the
sources), seen through its query `GetResourcesByType(names...)`. -/
structure FileContext where
  GetResourcesByType : List String → List Resource

end parser2

namespace sam

/-- The provider type `sam.SSESpecification` of defsec. -/
structure SSESpecification where
  Metadata : defsecTypes.Metadata
  Enabled : defsecTypes.BoolValue
  KMSMasterKeyID : defsecTypes.StringValue
deriving DecidableEq, Repr

/-- The provider type `sam.SimpleTable` of defsec. -/
structure SimpleTable where
  Metadata : defsecTypes.Metadata
  TableName : defsecTypes.StringValue
  SSESpecification : SSESpecification
deriving DecidableEq, Repr

/-- The function `getSSESpecification` of tables.go. -/
def getSSESpecification (r : parser2.Resource) : SSESpecification :=
  let spec : SSESpecification :=
    { Metadata := r.Metadata
      Enabled := defsecTypes.BoolDefault false r.Metadata
      KMSMasterKeyID := defsecTypes.StringDefault "" r.Metadata }
  let sse := r.GetProperty "SSESpecification"
  if sse.IsNotNil then
    { Metadata := sse.Metadata
      Enabled := sse.GetBoolProperty "SSEEnabled"
      KMSMasterKeyID := sse.GetStringProperty "KMSMasterKeyID" }
  else spec

/-- The function `getSimpleTables` of tables.go: the loop over the resources of
type `AWS::Serverless::SimpleTable` appends one table per resource. -/
def getSimpleTables (cfFile : parser2.FileContext) : List SimpleTable :=
  let tableResources := cfFile.GetResourcesByType ["AWS::Serverless::SimpleTable"]
  tableResources.foldl
    (fun tables r =>
      tables ++ [{ Metadata := r.Metadata
                   TableName := r.GetStringProperty "TableName"
                   SSESpecification := getSSESpecification r }])
    []

end sam

/-! ## Auxiliary definitions used by the statements and proofs -/

/-- The statement that decides the fate of a vulnerability under an OpenVEX
document, in the words of the spec: none without a PURL, otherwise the last
of the statements matching `(vulnerability-id, purl)`, if any. -/
def OpenVEX.deciding (purlString : PackageURL → String) (v : OpenVEX)
    (vuln : DetectedVulnerability) : Option openvex.Statement :=
  match vuln.PkgIdentifier.PURL with
  | none => none
  | some purl => (v.vex.Matches vuln.VulnerabilityID (purlString purl) []).getLast?

/-- The modified finding section 4.2 of the spec prescribes for a
vulnerability, if it is to be dropped: the deciding statement has status
not_affected or fixed. -/
def OpenVEX.record (purlString : PackageURL → String) (v : OpenVEX)
    (vuln : DetectedVulnerability) : Option ModifiedFinding :=
  match OpenVEX.deciding purlString v vuln with
  | none => none
  | some stmt =>
    if stmt.Status = openvex.StatusNotAffected ∨ stmt.Status = openvex.StatusFixed then
      some (NewModifiedFinding (Finding.vuln vuln) (findingStatus stmt.Status)
        stmt.Justification "OpenVEX")
    else none

/-- Every finding list of `a` is a sublist of the corresponding list of `b`:
what a phase that only drops findings does. -/
def Result.within (a b : Result) : Prop :=
  a.Vulnerabilities.Sublist b.Vulnerabilities ∧
  a.Misconfigurations.Sublist b.Misconfigurations ∧
  a.Secrets.Sublist b.Secrets ∧
  a.Licenses.Sublist b.Licenses

/-- The number of modified findings of type misconfiguration in a list. -/
def misconfRecords (modified : List ModifiedFinding) : Nat :=
  modified.countP fun f => decide (f.Typ = FindingType.misconfiguration)

/-- The number of misconfigurations of a list with the given status. -/
def countStatus (status : MisconfStatus) (ms : List DetectedMisconfiguration) : Nat :=
  ms.countP fun m => decide (m.Status = status)

/-- The number of misconfigurations of a list that pass the severity gate:
the normalised severity is the name of a member of `severities`. -/
def countGated (severities : List Severity) (ms : List DetectedMisconfiguration) : Nat :=
  ms.countP fun m => decide (normalizeSeverity m.Severity ∈ severities.map Severity.String)

/-- Equality of `Except` values is decidable when it is for errors and results. -/
instance exceptDecEq {ε α : Type} [DecidableEq ε] [DecidableEq α] : DecidableEq (Except ε α)
  | Except.ok a, Except.ok b =>
    if h : a = b then isTrue (by rw [h]) else isFalse (fun e => h (Except.ok.inj e))
  | Except.error a, Except.error b =>
    if h : a = b then isTrue (by rw [h]) else isFalse (fun e => h (Except.error.inj e))
  | Except.ok _, Except.error _ => isFalse (fun e => Except.noConfusion e)
  | Except.error _, Except.ok _ => isFalse (fun e => Except.noConfusion e)

/-- The record section 4.5 of the spec prescribes for a finding the policy
drops. -/
def policyRecord (source : String) (f : Finding) : ModifiedFinding :=
  NewModifiedFinding f FindingStatus.ignored "Filtered by Rego" source

/-- The severity gate, the ignore rules and the policy all let the finding `f`
of severity `severity` through, in a result of the given target. -/
def passes (d : Documents) (opt : FilterOption) (target severity : String) (f : Finding) :
    Prop :=
  severity ∈ opt.Severities.map Severity.String ∧
  (opt.IgnoreFile = "" ∨ d.ignoreMatch f target = none) ∧
  (opt.PolicyFile = "" ∨ d.policyEval f = Except.ok false)

/-- No suppression phase of the filter drops a finding of the result `t`. -/
def Result.settled (d : Documents) (opt : FilterOption) (t : Result) : Prop :=
  (∀ x ∈ t.Vulnerabilities,
    (opt.VEXPath = "" ∨ OpenVEX.record d.purlString d.vex x = none) ∧
    x.Status ∉ opt.IgnoreStatuses ∧
    passes d opt t.Target x.Severity (Finding.vuln x)) ∧
  (∀ m ∈ t.Misconfigurations, passes d opt t.Target m.Severity (Finding.misconf m)) ∧
  (∀ s ∈ t.Secrets, passes d opt t.Target s.Severity (Finding.secret s)) ∧
  (∀ l ∈ t.Licenses, passes d opt t.Target l.Severity (Finding.license l))

/-- The sort key of the order of misconfigurations, compared
lexicographically. -/
def misconfSortKey (m : DetectedMisconfiguration) : ℕ ×ₗ String ×ₗ String :=
  toLex (severityPosition m.Severity, toLex (m.Typ, m.AVDID))

/-- The sort key of the order of secrets, compared lexicographically. -/
def secretSortKey (s : DetectedSecret) : String ×ₗ ℤ :=
  toLex (s.RuleID, s.StartLine)

/-- The sort key of the order of licenses, compared lexicographically. -/
def licenseSortKey (l : DetectedLicense) : ℕ ×ₗ String ×ₗ String ×ₗ String :=
  toLex (severityPosition l.Severity, toLex (l.Category, toLex (l.FilePath, l.Name)))

/-- The summary a run of the filter on the result `r2` computes: recounted when
`r2` holds misconfigurations, kept otherwise. -/
def recount (r2 : Result) : Result :=
  { r2 with
    MisconfSummary :=
      if (!r2.Misconfigurations.isEmpty) then
        some (summarize r2.Misconfigurations r2.ModifiedFindings)
      else r2.MisconfSummary }

/-! ## Concrete inputs for the examples -/

/-- A document given by its statements, each tagged with the vulnerability and
the product it names; `Matches` selects by equality, in document order. -/
def exampleVEX (entries : List (String × String × openvex.Statement)) : openvex.VEX :=
  { Matches := fun vulnID product _ =>
      (entries.filter fun e => decide (e.1 = vulnID ∧ e.2.1 = product)).map fun e => e.2.2 }

/-- A PURL printer for the examples: `pkg:type/namespace/name@version`. -/
def examplePurlString (p : PackageURL) : String :=
  "pkg:" ++ p.Typ ++ "/" ++ p.Namespace ++ "/" ++ p.Name ++ "@" ++ p.Version

/-- The PURL of the vulnerabilities of `TestVEX_Filter`. -/
def springBootPurl : PackageURL :=
  { Typ := "maven", Namespace := "org.springframework.boot", Name := "spring-boot",
    Version := "2.6.0", Qualifiers := [], Subpath := "" }

/-- A vulnerability record with the given identity and severity and nothing else. -/
def exampleVuln (id pkg path installed fixed severity : String) (purl : Option PackageURL) :
    DetectedVulnerability :=
  { VulnerabilityID := id, PkgName := pkg, PkgPath := path,
    PkgIdentifier := { PURL := purl, BOMRef := "" }, InstalledVersion := installed,
    FixedVersion := fixed, Status := Status.unknown, Severity := severity }

/-- First vulnerability of the case "OpenVEX, multiple statements". -/
def log4shell : DetectedVulnerability :=
  exampleVuln "CVE-2021-44228" "spring-boot" "" "2.6.0" "" "" (some springBootPurl)

/-- Second vulnerability of the case "OpenVEX, multiple statements". -/
def otherVuln : DetectedVulnerability :=
  exampleVuln "CVE-2021-0001" "spring-boot" "" "2.6.0" "" "" (some springBootPurl)

/-- A vulnerability without a PURL. -/
def bareVuln : DetectedVulnerability :=
  exampleVuln "CVE-2021-44228" "spring-boot" "" "2.6.0" "" "" none

/-- A document with two statements per vulnerability: the later one overrides. -/
def exampleOpenVEX : OpenVEX :=
  { vex := exampleVEX
      [("CVE-2021-44228", "pkg:maven/org.springframework.boot/spring-boot@2.6.0",
          { Status := "affected", Justification := "" }),
        ("CVE-2021-44228", "pkg:maven/org.springframework.boot/spring-boot@2.6.0",
          { Status := "not_affected", Justification := "vulnerable_code_not_in_execute_path" }),
        ("CVE-2021-0001", "pkg:maven/org.springframework.boot/spring-boot@2.6.0",
          { Status := "not_affected", Justification := "vulnerable_code_not_in_execute_path" }),
        ("CVE-2021-0001", "pkg:maven/org.springframework.boot/spring-boot@2.6.0",
          { Status := "affected", Justification := "" })] }

/-- The empty result. -/
def emptyResult : Result :=
  { Target := "", Class := "", Vulnerabilities := [], Misconfigurations := [], Secrets := [],
    Licenses := [], MisconfSummary := none, ModifiedFindings := [] }

/-- A result holding the three example vulnerabilities. -/
def vexResult : Result :=
  { emptyResult with Vulnerabilities := [log4shell, otherVuln, bareVuln] }

/-- The sort key of the order of vulnerabilities, compared lexicographically:
package name, position of the severity from CRITICAL down, vulnerability ID,
package path, installed version. -/
def vulnSortKey (v : DetectedVulnerability) : String ×ₗ ℕ ×ₗ String ×ₗ String ×ₗ String :=
  toLex (v.PkgName, toLex (severityPosition v.Severity, toLex (v.VulnerabilityID,
    toLex (v.PkgPath, v.InstalledVersion))))

/-- In words: `a` may stand before `b` in a list sorted by package name
ascending, then severity descending, then vulnerability ID, package path and
installed version ascending. -/
def vulnOrdered (a b : DetectedVulnerability) : Prop :=
  a.PkgName < b.PkgName ∨ (a.PkgName = b.PkgName ∧
    (severityPosition a.Severity < severityPosition b.Severity ∨
      (severityPosition a.Severity = severityPosition b.Severity ∧
        (a.VulnerabilityID < b.VulnerabilityID ∨ (a.VulnerabilityID = b.VulnerabilityID ∧
          (a.PkgPath < b.PkgPath ∨
            (a.PkgPath = b.PkgPath ∧ a.InstalledVersion ≤ b.InstalledVersion)))))))

/-- The order as section 4.7 of the spec words it: `a` may stand before `b` in
a list sorted by severity descending first, then package name, vulnerability
ID, package path and installed version ascending. -/
def specVulnOrdered (a b : DetectedVulnerability) : Prop :=
  severityPosition a.Severity < severityPosition b.Severity ∨
    (severityPosition a.Severity = severityPosition b.Severity ∧
      (a.PkgName < b.PkgName ∨ (a.PkgName = b.PkgName ∧
        (a.VulnerabilityID < b.VulnerabilityID ∨ (a.VulnerabilityID = b.VulnerabilityID ∧
          (a.PkgPath < b.PkgPath ∨
            (a.PkgPath = b.PkgPath ∧ a.InstalledVersion ≤ b.InstalledVersion)))))))

/-- Collaborators of a call without VEX document, ignore file and policy. -/
def exampleDocuments : Documents :=
  { purlString := examplePurlString
    vex := { vex := exampleVEX [] }
    ignoreMatch := fun _ _ => none
    policyEval := fun _ => Except.ok false }

/-- Options with the given severities and every other phase disabled. -/
def severityOptions (severities : List Severity) : FilterOption :=
  { Severities := severities, IgnoreStatuses := [], IgnoreFile := "", PolicyFile := "",
    VEXPath := "", IncludeNonFailures := false }

/-- The PURL `pkg:golang/github.com/aquasecurity/foo@version` of `TestFilter`. -/
def fooPurl (version : String) : PackageURL :=
  { Typ := "golang", Namespace := "github.com/aquasecurity", Name := "foo", Version := version,
    Qualifiers := [], Subpath := "" }

/-- Value `vuln1` of `TestFilter`. -/
def vuln1 : DetectedVulnerability :=
  exampleVuln "CVE-2019-0001" "foo" "" "1.2.3" "1.2.4" "LOW" (some (fooPurl "1.2.3"))

/-- Value `vuln2` of `TestFilter`. -/
def vuln2 : DetectedVulnerability :=
  exampleVuln "CVE-2019-0002" "foo" "" "1.2.3" "1.2.4" "CRITICAL" (some (fooPurl "4.5.6"))

/-- Value `misconf1` of `TestFilter`. -/
def misconf1 : DetectedMisconfiguration :=
  { Typ := "Kubernetes Security Check", ID := "ID100", AVDID := "AVD-ID100",
    Title := "Bad Deployment", Message := "something bad", Severity := "HIGH",
    Status := MisconfStatus.failure }

/-- Value `misconf2` of `TestFilter`. -/
def misconf2 : DetectedMisconfiguration :=
  { Typ := "Kubernetes Security Check", ID := "ID200", AVDID := "AVD-ID200",
    Title := "Bad Pod", Message := "something bad", Severity := "LOW",
    Status := MisconfStatus.passed }

/-- Value `misconf3` of `TestFilter`. -/
def misconf3 : DetectedMisconfiguration :=
  { Typ := "Kubernetes Security Check", ID := "ID300", AVDID := "AVD-ID300",
    Title := "Bad Job", Message := "something bad", Severity := "LOW",
    Status := MisconfStatus.failure }

/-- The critical secret of the case "severities". -/
def criticalSecret : DetectedSecret :=
  { RuleID := "generic-critical-rule", Severity := "CRITICAL",
    Title := "Critical Secret should pass filter", StartLine := 1, EndLine := 2,
    Match := "*****" }

/-- The low secret of the case "severities". -/
def lowSecret : DetectedSecret :=
  { RuleID := "generic-low-rule", Severity := "LOW", Title := "Low Secret should be ignored",
    StartLine := 3, EndLine := 4, Match := "*****" }

/-- Input result of the case "severities" of `TestFilter`. -/
def severitiesInput : Result :=
  { emptyResult with
    Vulnerabilities := [vuln1, vuln2]
    Misconfigurations := [misconf1, misconf2]
    Secrets := [criticalSecret, lowSecret] }

/-- Expected result of the case "severities" of `TestFilter`. -/
def severitiesOutput : Result :=
  { emptyResult with
    Vulnerabilities := [vuln2]
    MisconfSummary := some { Successes := 0, Failures := 1, Exceptions := 0 }
    Misconfigurations := [misconf1]
    Secrets := [criticalSecret] }

/-- Options of the case "severities" of `TestFilter`. -/
def severitiesOptions : FilterOption :=
  severityOptions [Severity.Critical, Severity.High]

/-- Input result of the case "happy path with duplicates, one with empty fixed
version" of `TestFilter`. -/
def duplicatesResult : Result :=
  { emptyResult with Vulnerabilities :=
      [exampleVuln "CVE-2019-0001" "foo" "" "1.2.3" "" "LOW" none,
        exampleVuln "CVE-2019-0001" "foo" "" "1.2.3" "1.2.4" "LOW" none,
        exampleVuln "CVE-2019-0002" "bar" "" "1.2.3" "1.2.4" "CRITICAL" none,
        exampleVuln "CVE-2019-0002" "bar" "" "1.2.3" "1.2.5" "CRITICAL" none,
        exampleVuln "CVE-2018-0001" "baz" "" "1.2.3" "" "HIGH" none,
        exampleVuln "CVE-2018-0001" "bar" "" "1.2.3" "" "CRITICAL" none,
        exampleVuln "CVE-2018-0002" "bar" "" "1.2.3" "" "" none,
        exampleVuln "CVE-2018-0002" "bar" "" "2.0.0" "" "" none] }

/-- Expected result of the same case. -/
def duplicatesWant : Result :=
  { emptyResult with Vulnerabilities :=
      [exampleVuln "CVE-2018-0001" "bar" "" "1.2.3" "" "CRITICAL" none,
        exampleVuln "CVE-2019-0002" "bar" "" "1.2.3" "1.2.5" "CRITICAL" none,
        exampleVuln "CVE-2018-0002" "bar" "" "1.2.3" "" "UNKNOWN" none,
        exampleVuln "CVE-2018-0002" "bar" "" "2.0.0" "" "UNKNOWN" none,
        exampleVuln "CVE-2018-0001" "baz" "" "1.2.3" "" "HIGH" none] }

/-- Input result of the case "happy path with duplicates and different package
paths" of `TestFilter`. -/
def pathsResult : Result :=
  { emptyResult with Vulnerabilities :=
      [exampleVuln "CVE-2019-0001" "bar" "some/path/a.jar" "1.2.3" "1.2.4" "CRITICAL" none,
        exampleVuln "CVE-2019-0001" "bar" "some/other/path/a.jar" "1.2.3" "1.2.4" "CRITICAL" none,
        exampleVuln "CVE-2019-0002" "baz" "some/path/b.jar" "1.2.3" "" "HIGH" none,
        exampleVuln "CVE-2019-0002" "baz" "some/path/b.jar" "1.2.3" "1.2.4" "HIGH" none,
        exampleVuln "CVE-2019-0003" "bar" "some/path/c.jar" "1.2.3" "" "" none,
        exampleVuln "CVE-2019-0003" "bar" "some/path/c.jar" "1.2.3" "1.2.4" "" none,
        exampleVuln "CVE-2019-0003" "bar" "some/other/path/c.jar" "1.2.3" "" "" none] }

/-- Expected result of the same case. -/
def pathsWant : Result :=
  { emptyResult with Vulnerabilities :=
      [exampleVuln "CVE-2019-0001" "bar" "some/other/path/a.jar" "1.2.3" "1.2.4" "CRITICAL" none,
        exampleVuln "CVE-2019-0001" "bar" "some/path/a.jar" "1.2.3" "1.2.4" "CRITICAL" none,
        exampleVuln "CVE-2019-0003" "bar" "some/other/path/c.jar" "1.2.3" "" "UNKNOWN" none,
        exampleVuln "CVE-2019-0003" "bar" "some/path/c.jar" "1.2.3" "1.2.4" "UNKNOWN" none,
        exampleVuln "CVE-2019-0002" "baz" "some/path/b.jar" "1.2.3" "1.2.4" "HIGH" none] }

/-- The severities of the two dedup cases. -/
def duplicatesOptions : FilterOption :=
  severityOptions [Severity.Critical, Severity.High, Severity.Unknown]

/-- Collaborators of the case "policy file for misconfigurations": the policy
`ignore-misconf.rego` answers true on `misconf3` alone among the inputs. -/
def policyDocuments : Documents :=
  { exampleDocuments with
    policyEval := fun f => Except.ok (decide (f = Finding.misconf misconf3)) }

/-- Options of the case "policy file for misconfigurations". -/
def policyOptions : FilterOption :=
  { severityOptions [Severity.Low, Severity.High] with
    PolicyFile := "./testdata/ignore-misconf.rego" }

/-- Input result of the case "policy file for misconfigurations". -/
def policyInput : Result :=
  { emptyResult with Misconfigurations := [misconf1, misconf2, misconf3] }

/-- Expected result of the case "policy file for misconfigurations". -/
def policyOutput : Result :=
  { emptyResult with
    MisconfSummary := some { Successes := 1, Failures := 1, Exceptions := 1 }
    Misconfigurations := [misconf1]
    ModifiedFindings := [
      { Typ := FindingType.misconfiguration
        Status := FindingStatus.ignored
        Statement := "Filtered by Rego"
        Source := "testdata/ignore-misconf.rego"
        Finding := Finding.misconf misconf3 }] }

/-- Value `vuln3` of `TestFilter`. -/
def vuln3 : DetectedVulnerability :=
  exampleVuln "CVE-2019-0003" "foo" "" "1.2.3" "1.2.4" "LOW" none

/-- Value `vuln4` of `TestFilter`. -/
def vuln4 : DetectedVulnerability :=
  exampleVuln "CVE-2019-0004" "foo" "" "1.2.3" "1.2.4" "LOW" none

/-- Value `vuln5` of `TestFilter`. -/
def vuln5 : DetectedVulnerability :=
  exampleVuln "CVE-2019-0005" "foo" "" "1.2.3" "1.2.4" "LOW" none

/-- Value `vuln6` of `TestFilter`. -/
def vuln6 : DetectedVulnerability :=
  exampleVuln "CVE-2019-0006" "foo" "" "1.2.3" "1.2.4" "LOW" none

/-- Value `secret1` of `TestFilter`. -/
def secret1 : DetectedSecret :=
  { RuleID := "generic-wanted-rule", Severity := "LOW",
    Title := "Secret that should pass filter on rule id", StartLine := 1, EndLine := 2,
    Match := "*****" }

/-- Value `secret2` of `TestFilter`. -/
def secret2 : DetectedSecret :=
  { RuleID := "generic-unwanted-rule", Severity := "LOW",
    Title := "Secret that should not pass filter on rule id", StartLine := 3, EndLine := 4,
    Match := "*****" }

/-- All five severities, as the case "filter by VEX" passes them. -/
def allSeverities : List Severity :=
  [Severity.Critical, Severity.High, Severity.Medium, Severity.Low, Severity.Unknown]

/-- Collaborators of the case "filter by VEX": the document `openvex.json`
declares `vuln1` not affected for the PURL of `vuln1`. -/
def vexDocuments : Documents :=
  { exampleDocuments with
    vex :=
      { vex := exampleVEX [("CVE-2019-0001", "pkg:golang/github.com/aquasecurity/foo@1.2.3",
          { Status := "not_affected",
            Justification := "vulnerable_code_not_in_execute_path" })] } }

/-- Options of the case "filter by VEX". -/
def vexOptions : FilterOption :=
  { severityOptions allSeverities with VEXPath := "testdata/openvex.json" }

/-- Input result of the cases "filter by VEX" and "ignore unfixed" (the latter
with a target). -/
def vexInput : Result :=
  { emptyResult with Vulnerabilities := [vuln1, vuln2] }

/-- Expected result of the case "filter by VEX". -/
def vexOutput : Result :=
  { emptyResult with
    Vulnerabilities := [vuln2]
    ModifiedFindings := [
      { Typ := FindingType.vulnerability
        Status := FindingStatus.not_affected
        Statement := "vulnerable_code_not_in_execute_path"
        Source := "OpenVEX"
        Finding := Finding.vuln vuln1 }] }

/-- Options of the case "ignore unfixed". -/
def unfixedOptions : FilterOption :=
  { severityOptions [Severity.High] with
    IgnoreStatuses := [Status.will_not_fix, Status.end_of_life] }

/-- The identifier of a misconfiguration as point 2 of section 4.3 of the spec
words it: the AVD ID, or the ID if the AVD ID is missing. -/
def specMisconfIdentifier (m : DetectedMisconfiguration) : String :=
  if m.AVDID = "" then m.ID else m.AVDID

/-- The identifiers of `testdata/.trivyignore` as section 8 of the spec lists
them. -/
def trivyignore : List String :=
  ["CVE-2019-0001", "CVE-2019-0005", "CVE-2019-0006", "ID300", "generic-unwanted-rule"]

/-- Collaborators of the case "ignore file": the lines of `testdata/.trivyignore`
as section 8 of the spec lists them; a flat rule carries no statement. -/
def ignoreDocuments : Documents :=
  { exampleDocuments with
    ignoreMatch := fun f _ =>
      if (flatIdentifiers f).any fun id =>
          decide (id ∈ ["CVE-2019-0001", "CVE-2019-0005", "CVE-2019-0006", "ID300",
            "generic-unwanted-rule"]) then
        some ""
      else none }

/-- Options of the case "ignore file". -/
def ignoreOptions : FilterOption :=
  { severityOptions [Severity.Low] with IgnoreFile := "testdata/.trivyignore" }

/-- Input report of the case "ignore file". -/
def ignoreReport : Report :=
  { Results := [
      { emptyResult with
        Target := "package-lock.json"
        Class := "langpkg"
        Vulnerabilities := [vuln1, vuln2, vuln3, vuln4, vuln5, vuln6] },
      { emptyResult with
        Target := "deployment.yaml"
        Class := "config"
        Misconfigurations := [misconf1, misconf2, misconf3] },
      { emptyResult with
        Target := "config.yaml"
        Secrets := [secret1, secret2] }] }

/-- The record the case "ignore file" expects for an ignored finding. -/
def ignoredRecord (f : Finding) : ModifiedFinding :=
  { Typ := f.findingType, Status := FindingStatus.ignored, Statement := "",
    Source := "testdata/.trivyignore", Finding := f }

/-- Expected report of the case "ignore file". -/
def ignoreWant : Report :=
  { Results := [
      { emptyResult with
        Target := "package-lock.json"
        Class := "langpkg"
        Vulnerabilities := [vuln3, vuln4]
        ModifiedFindings := [ignoredRecord (Finding.vuln vuln1),
          ignoredRecord (Finding.vuln vuln5), ignoredRecord (Finding.vuln vuln6)] },
      { emptyResult with
        Target := "deployment.yaml"
        Class := "config"
        MisconfSummary := some { Successes := 1, Failures := 0, Exceptions := 1 }
        ModifiedFindings := [ignoredRecord (Finding.misconf misconf3)] },
      { emptyResult with
        Target := "config.yaml"
        Secrets := [secret1]
        ModifiedFindings := [ignoredRecord (Finding.secret secret2)] }] }

/-- Collaborators of the case "policy file for vulnerabilities": the policy
`ignore-vuln.rego` answers true on `vuln3` alone among the inputs. -/
def vulnPolicyDocuments : Documents :=
  { exampleDocuments with
    policyEval := fun f => Except.ok (decide (f = Finding.vuln vuln3)) }

/-- Options of the case "policy file for vulnerabilities". -/
def vulnPolicyOptions : FilterOption :=
  { severityOptions [Severity.Low] with PolicyFile := "./testdata/ignore-vuln.rego" }

/-- Expected result of the case "policy file for vulnerabilities". -/
def vulnPolicyOutput : Result :=
  { emptyResult with
    Vulnerabilities := [vuln1]
    ModifiedFindings := [
      { Typ := FindingType.vulnerability
        Status := FindingStatus.ignored
        Statement := "Filtered by Rego"
        Source := "testdata/ignore-vuln.rego"
        Finding := Finding.vuln vuln3 }] }

/-- The first example vulnerability with another severity, fixed version,
package path and BOM-ref: the same vulnerability ID and PURL. -/
def log4shellVariant : DetectedVulnerability :=
  { log4shell with
    PkgPath := "lib/spring-boot.jar"
    PkgIdentifier := { PURL := some springBootPurl, BOMRef := "bom-ref-7" }
    FixedVersion := "2.6.2"
    Severity := "CRITICAL" }

/-- A property that is absent: `IsNotNil()` is false. -/
def absentProperty (metadata : defsecTypes.Metadata) : parser2.Property :=
  { IsNotNil := false
    Metadata := metadata
    GetBoolProperty := fun _ => defsecTypes.BoolDefault false metadata
    GetStringProperty := fun _ => defsecTypes.StringDefault "" metadata }

/-- An `SSESpecification` property with `SSEEnabled: true` and a key. -/
def sseProperty : parser2.Property :=
  { IsNotNil := true
    Metadata := { Reference := "Table1.SSESpecification" }
    GetBoolProperty := fun path =>
      if path = "SSEEnabled" then
        { value := true, metadata := { Reference := "Table1.SSESpecification.SSEEnabled" },
          isDefault := false }
      else defsecTypes.BoolDefault false { Reference := "Table1.SSESpecification" }
    GetStringProperty := fun path =>
      if path = "KMSMasterKeyID" then
        { value := "alias/key", metadata := { Reference := "Table1.SSESpecification.KMSMasterKeyID" },
          isDefault := false }
      else defsecTypes.StringDefault "" { Reference := "Table1.SSESpecification" } }

/-- A table resource with an `SSESpecification` property. -/
def encryptedTable : parser2.Resource :=
  { Metadata := { Reference := "Table1" }
    GetProperty := fun path =>
      if path = "SSESpecification" then sseProperty
      else absentProperty { Reference := "Table1" }
    GetStringProperty := fun _ => defsecTypes.StringDefault "" { Reference := "Table1" } }

/-- A table resource without properties. -/
def plainTable : parser2.Resource :=
  { Metadata := { Reference := "Table2" }
    GetProperty := fun _ => absentProperty { Reference := "Table2" }
    GetStringProperty := fun _ => defsecTypes.StringDefault "" { Reference := "Table2" } }

/-- A file with the two example tables. -/
def tablesFile : parser2.FileContext :=
  { GetResourcesByType := fun names =>
      if names = ["AWS::Serverless::SimpleTable"] then [encryptedTable, plainTable] else [] }

/-! ## Lemmas and theorems: `OpenVEX.Filter` -/

theorem get_last_index {α : Type} (l : List α) (h : ¬ l.length = 0) :
    l.getLast? = some (l.get ⟨l.length - 1, by omega⟩) := by
  have hne : l ≠ [] := by
    intro e
    exact h (by rw [e]; rfl)
  rw [List.getLast?_eq_getLast l hne, List.getLast_eq_getElem]
  rfl

theorem predicate_eq (ps : PackageURL → String) (v : OpenVEX) (vuln : DetectedVulnerability)
    (i : Nat) (mfs : List ModifiedFinding) :
    OpenVEX.predicate ps v vuln i mfs =
      ((OpenVEX.record ps v vuln).isNone, mfs ++ (OpenVEX.record ps v vuln).toList) := by
  unfold OpenVEX.predicate OpenVEX.record OpenVEX.deciding
  cases hp : vuln.PkgIdentifier.PURL with
  | none => simp
  | some purl =>
    simp only
    by_cases h : (v.vex.Matches vuln.VulnerabilityID (ps purl) []).length = 0
    · have : v.vex.Matches vuln.VulnerabilityID (ps purl) [] = [] := List.length_eq_zero.mp h
      simp [this]
    · rw [get_last_index _ h]
      simp only [h, dite_false]
      split <;> simp

theorem lo_filter_eq (ps : PackageURL → String) (v : OpenVEX) (vs : List DetectedVulnerability) :
    ∀ (i : Nat) (mfs : List ModifiedFinding),
    lo.Filter (OpenVEX.predicate ps v) vs i mfs =
      (vs.filter (fun x => (OpenVEX.record ps v x).isNone),
        mfs ++ vs.filterMap (OpenVEX.record ps v)) := by
  induction vs with
  | nil => intro i mfs; simp [lo.Filter]
  | cons x xs ih =>
    intro i mfs
    simp only [lo.Filter, predicate_eq, ih]
    cases hr : OpenVEX.record ps v x <;> simp [List.filter_cons, List.filterMap_cons, hr]

theorem filter_vulns (ps : PackageURL → String) (v : OpenVEX) (r : Result) :
    (v.Filter ps r).Vulnerabilities =
      r.Vulnerabilities.filter (fun x => (OpenVEX.record ps v x).isNone) := by
  simp [OpenVEX.Filter, lo_filter_eq]

theorem filter_modified (ps : PackageURL → String) (v : OpenVEX) (r : Result) :
    (v.Filter ps r).ModifiedFindings =
      r.ModifiedFindings ++ r.Vulnerabilities.filterMap (OpenVEX.record ps v) := by
  simp [OpenVEX.Filter, lo_filter_eq]

theorem filter_appended (ps : PackageURL → String) (v : OpenVEX) (r : Result) :
    (v.Filter ps r).ModifiedFindings.drop r.ModifiedFindings.length =
      r.Vulnerabilities.filterMap (OpenVEX.record ps v) := by
  rw [filter_modified, List.drop_left]

theorem record_none_of_no_purl (ps : PackageURL → String) (v : OpenVEX)
    (vuln : DetectedVulnerability) (hp : vuln.PkgIdentifier.PURL = none) :
    OpenVEX.record ps v vuln = none := by
  simp [OpenVEX.record, OpenVEX.deciding, hp]

theorem record_eq_some_iff (ps : PackageURL → String) (v : OpenVEX)
    (vuln : DetectedVulnerability) (purl : PackageURL) (hp : vuln.PkgIdentifier.PURL = some purl)
    (mf : ModifiedFinding) :
    OpenVEX.record ps v vuln = some mf ↔
      ∃ h : v.vex.Matches vuln.VulnerabilityID (ps purl) [] ≠ [],
        (((v.vex.Matches vuln.VulnerabilityID (ps purl) []).getLast h).Status
            = openvex.StatusNotAffected ∨
          ((v.vex.Matches vuln.VulnerabilityID (ps purl) []).getLast h).Status
            = openvex.StatusFixed) ∧
        mf = NewModifiedFinding (Finding.vuln vuln)
          (findingStatus ((v.vex.Matches vuln.VulnerabilityID (ps purl) []).getLast h).Status)
          ((v.vex.Matches vuln.VulnerabilityID (ps purl) []).getLast h).Justification "OpenVEX" := by
  unfold OpenVEX.record OpenVEX.deciding
  simp only [hp]
  by_cases hne : v.vex.Matches vuln.VulnerabilityID (ps purl) [] = []
  · simp [hne]
  · rw [List.getLast?_eq_getLast _ hne]
    simp only [hne, ne_eq, not_false_eq_true, exists_true_left]
    split
    · rename_i hs
      constructor
      · intro e
        exact ⟨hs, (Option.some.inj e).symm⟩
      · rintro ⟨_, e⟩
        rw [e]
    · rename_i hs
      constructor
      · intro e
        cases e
      · rintro ⟨hs2, _⟩
        exact absurd hs2 hs

theorem record_isSome_iff (ps : PackageURL → String) (v : OpenVEX)
    (vuln : DetectedVulnerability) (purl : PackageURL) (hp : vuln.PkgIdentifier.PURL = some purl) :
    (OpenVEX.record ps v vuln).isSome = true ↔
      ∃ h : v.vex.Matches vuln.VulnerabilityID (ps purl) [] ≠ [],
        ((v.vex.Matches vuln.VulnerabilityID (ps purl) []).getLast h).Status
            = openvex.StatusNotAffected ∨
          ((v.vex.Matches vuln.VulnerabilityID (ps purl) []).getLast h).Status
            = openvex.StatusFixed := by
  rw [Option.isSome_iff_exists]
  constructor
  · rintro ⟨mf, hmf⟩
    obtain ⟨h, hs, _⟩ := (record_eq_some_iff ps v vuln purl hp mf).mp hmf
    exact ⟨h, hs⟩
  · rintro ⟨h, hs⟩
    exact ⟨_, (record_eq_some_iff ps v vuln purl hp _).mpr ⟨h, hs, rfl⟩⟩

theorem record_congr_last (ps : PackageURL → String) (v v2 : OpenVEX)
    (vuln : DetectedVulnerability) (purl : PackageURL) (hp : vuln.PkgIdentifier.PURL = some purl)
    (hl : (v2.vex.Matches vuln.VulnerabilityID (ps purl) []).getLast? =
      (v.vex.Matches vuln.VulnerabilityID (ps purl) []).getLast?) :
    OpenVEX.record ps v2 vuln = OpenVEX.record ps v vuln := by
  simp [OpenVEX.record, OpenVEX.deciding, hp, hl]

/-- C1: a vulnerability with a PURL is removed by `OpenVEX.Filter` exactly when
the list of matching statements is non-empty and its last statement has status
not_affected or fixed; an empty list keeps it; and a document whose list of
matching statements has the same last element decides the same way, so the
earlier statements do not change the outcome. -/
theorem openvex_filter_last_statement_decides (ps : PackageURL → String) (v : OpenVEX)
    (result : Result) (vuln : DetectedVulnerability) (purl : PackageURL)
    (hin : vuln ∈ result.Vulnerabilities) (hp : vuln.PkgIdentifier.PURL = some purl) :
    (vuln ∉ (v.Filter ps result).Vulnerabilities ↔
      ∃ h : v.vex.Matches vuln.VulnerabilityID (ps purl) [] ≠ [],
        ((v.vex.Matches vuln.VulnerabilityID (ps purl) []).getLast h).Status
            = openvex.StatusNotAffected ∨
          ((v.vex.Matches vuln.VulnerabilityID (ps purl) []).getLast h).Status
            = openvex.StatusFixed) ∧
    (v.vex.Matches vuln.VulnerabilityID (ps purl) [] = [] →
      vuln ∈ (v.Filter ps result).Vulnerabilities) ∧
    (∀ v2 : OpenVEX,
      (v2.vex.Matches vuln.VulnerabilityID (ps purl) []).getLast? =
        (v.vex.Matches vuln.VulnerabilityID (ps purl) []).getLast? →
      (vuln ∈ (v2.Filter ps result).Vulnerabilities ↔
        vuln ∈ (v.Filter ps result).Vulnerabilities)) := by
  have key : ∀ w : OpenVEX, vuln ∉ (w.Filter ps result).Vulnerabilities ↔
      (OpenVEX.record ps w vuln).isSome = true := by
    intro w
    rw [filter_vulns, List.mem_filter]
    simp [hin, Option.isSome_iff_ne_none]
  refine ⟨?_, ?_, ?_⟩
  · rw [key, record_isSome_iff ps v vuln purl hp]
  · intro hnil
    by_contra hout
    obtain ⟨h, _⟩ := (record_isSome_iff ps v vuln purl hp).mp ((key v).mp hout)
    exact h hnil
  · intro v2 hl
    rw [← not_iff_not, key, key, record_congr_last ps v v2 vuln purl hp hl]

/-- Example for C1: in the example document the last statement matching the
first vulnerability says not_affected, and the vulnerability is removed. -/
theorem openvex_filter_last_statement_decides_witness :
    log4shell ∈ vexResult.Vulnerabilities ∧
    log4shell.PkgIdentifier.PURL = some springBootPurl ∧
    log4shell ∉ (exampleOpenVEX.Filter examplePurlString vexResult).Vulnerabilities :=
  ⟨by decide, rfl,
    (openvex_filter_last_statement_decides examplePurlString exampleOpenVEX vexResult log4shell
      springBootPurl (by decide) rfl).1.mpr ⟨by decide, Or.inl (by decide)⟩⟩

/-- C2: a vulnerability without a PURL is kept by `OpenVEX.Filter`, with all
its occurrences, and none of the modified findings the call appends has it as
its finding. -/
theorem openvex_filter_keeps_missing_purl (ps : PackageURL → String) (v : OpenVEX)
    (result : Result) (vuln : DetectedVulnerability)
    (hin : vuln ∈ result.Vulnerabilities) (hp : vuln.PkgIdentifier.PURL = none) :
    vuln ∈ (v.Filter ps result).Vulnerabilities ∧
    (v.Filter ps result).Vulnerabilities.count vuln = result.Vulnerabilities.count vuln ∧
    ∀ mf ∈ (v.Filter ps result).ModifiedFindings.drop result.ModifiedFindings.length,
      mf.Finding ≠ Finding.vuln vuln := by
  have hrec := record_none_of_no_purl ps v vuln hp
  refine ⟨?_, ?_, ?_⟩
  · rw [filter_vulns, List.mem_filter]
    exact ⟨hin, by simp [hrec]⟩
  · rw [filter_vulns, List.count_filter]
    simp [hrec]
  · intro mf hmf
    rw [filter_appended, List.mem_filterMap] at hmf
    obtain ⟨w, _, hw⟩ := hmf
    intro heq
    cases hpw : w.PkgIdentifier.PURL with
    | none => simp [record_none_of_no_purl ps v w hpw] at hw
    | some purl =>
      obtain ⟨_, _, hmk⟩ := (record_eq_some_iff ps v w purl hpw mf).mp hw
      rw [hmk] at heq
      simp only [NewModifiedFinding, Finding.vuln.injEq] at heq
      rw [heq, hp] at hpw
      cases hpw

/-- Example for C2: the vulnerability without a PURL stays although the
document has a not_affected statement for its identifier. -/
theorem openvex_filter_keeps_missing_purl_witness :
    bareVuln ∈ vexResult.Vulnerabilities ∧
    bareVuln.PkgIdentifier.PURL = none ∧
    bareVuln ∈ (exampleOpenVEX.Filter examplePurlString vexResult).Vulnerabilities :=
  ⟨by decide, rfl,
    (openvex_filter_keeps_missing_purl examplePurlString exampleOpenVEX vexResult bareVuln
      (by decide) rfl).1⟩

theorem record_finding (ps : PackageURL → String) (v : OpenVEX) (vuln : DetectedVulnerability)
    (mf : ModifiedFinding) (h : OpenVEX.record ps v vuln = some mf) :
    mf.Finding = Finding.vuln vuln := by
  cases hp : vuln.PkgIdentifier.PURL with
  | none => simp [record_none_of_no_purl ps v vuln hp] at h
  | some purl =>
    obtain ⟨_, _, hmk⟩ := (record_eq_some_iff ps v vuln purl hp mf).mp h
    rw [hmk]
    rfl

theorem filter_count_split (ps : PackageURL → String) (v : OpenVEX) (x : DetectedVulnerability) :
    ∀ vs : List DetectedVulnerability,
      (vs.filter (fun y => (OpenVEX.record ps v y).isNone)).count x +
        (vs.filterMap (OpenVEX.record ps v)).countP (fun mf => decide (mf.Finding = Finding.vuln x))
        = vs.count x := by
  intro vs
  induction vs with
  | nil => simp
  | cons y ys ih =>
    cases hr : OpenVEX.record ps v y with
    | none =>
      simp only [List.filter_cons, hr, Option.isNone_none, if_true, List.filterMap_cons,
        List.count_cons]
      omega
    | some mf =>
      have hf := record_finding ps v y mf hr
      simp only [List.filter_cons, hr, Option.isNone_some, Bool.false_eq_true, if_false,
        List.filterMap_cons, List.countP_cons, List.count_cons, hf, Finding.vuln.injEq,
        beq_iff_eq]
      simp only [decide_eq_true_eq]
      omega

theorem filter_length_split (ps : PackageURL → String) (v : OpenVEX) :
    ∀ vs : List DetectedVulnerability,
      (vs.filter (fun y => (OpenVEX.record ps v y).isNone)).length +
        (vs.filterMap (OpenVEX.record ps v)).length = vs.length := by
  intro vs
  induction vs with
  | nil => simp
  | cons y ys ih =>
    cases hr : OpenVEX.record ps v y with
    | none =>
      simp only [List.filter_cons, hr, Option.isNone_none, if_true, List.filterMap_cons,
        List.length_cons]
      omega
    | some mf =>
      simp only [List.filter_cons, hr, Option.isNone_some, Bool.false_eq_true, if_false,
        List.filterMap_cons, List.length_cons]
      omega

/-- C3: every modified finding that `OpenVEX.Filter` appends belongs to a
removed vulnerability with a PURL whose list of matching statements is
non-empty, and it has type vulnerability, the status of the last matching
statement (not_affected for not_affected, fixed for fixed, nothing else), that
statement's justification as statement, "OpenVEX" as source and the
vulnerability itself, unchanged, as finding. -/
theorem openvex_filter_modified_finding_fields (ps : PackageURL → String) (v : OpenVEX)
    (result : Result) (mf : ModifiedFinding)
    (hmf : mf ∈ (v.Filter ps result).ModifiedFindings.drop result.ModifiedFindings.length) :
    ∃ (vuln : DetectedVulnerability) (purl : PackageURL)
      (h : v.vex.Matches vuln.VulnerabilityID (ps purl) [] ≠ []),
      vuln ∈ result.Vulnerabilities ∧
      vuln ∉ (v.Filter ps result).Vulnerabilities ∧
      vuln.PkgIdentifier.PURL = some purl ∧
      mf.Typ = FindingType.vulnerability ∧
      ((((v.vex.Matches vuln.VulnerabilityID (ps purl) []).getLast h).Status = "not_affected" ∧
          mf.Status = FindingStatus.not_affected) ∨
        (((v.vex.Matches vuln.VulnerabilityID (ps purl) []).getLast h).Status = "fixed" ∧
          mf.Status = FindingStatus.fixed)) ∧
      mf.Statement = ((v.vex.Matches vuln.VulnerabilityID (ps purl) []).getLast h).Justification ∧
      mf.Source = "OpenVEX" ∧
      mf.Finding = Finding.vuln vuln := by
  rw [filter_appended, List.mem_filterMap] at hmf
  obtain ⟨vuln, hin, hrec⟩ := hmf
  cases hp : vuln.PkgIdentifier.PURL with
  | none => simp [record_none_of_no_purl ps v vuln hp] at hrec
  | some purl =>
    obtain ⟨h, hs, hmk⟩ := (record_eq_some_iff ps v vuln purl hp mf).mp hrec
    refine ⟨vuln, purl, h, hin, ?_, hp, ?_, ?_, ?_, ?_, ?_⟩
    · rw [filter_vulns, List.mem_filter]
      simp [hrec]
    · rw [hmk]; rfl
    · rcases hs with hs | hs
      · left
        refine ⟨hs, ?_⟩
        rw [hmk]
        simp [NewModifiedFinding, findingStatus, hs]
      · right
        refine ⟨hs, ?_⟩
        rw [hmk]
        simp [NewModifiedFinding, findingStatus, hs, openvex.StatusFixed,
          openvex.StatusNotAffected]
    · rw [hmk]; rfl
    · rw [hmk]; rfl
    · rw [hmk]; rfl

/-- Example for C3: the record appended for the first example vulnerability. -/
theorem openvex_filter_modified_finding_fields_witness :
    NewModifiedFinding (Finding.vuln log4shell) FindingStatus.not_affected
        "vulnerable_code_not_in_execute_path" "OpenVEX"
      ∈ (exampleOpenVEX.Filter examplePurlString vexResult).ModifiedFindings.drop
        vexResult.ModifiedFindings.length ∧
    ∃ vuln : DetectedVulnerability, vuln ∈ vexResult.Vulnerabilities ∧
      Finding.vuln log4shell = Finding.vuln vuln := by
  refine ⟨by decide, ?_⟩
  obtain ⟨vuln, _, _, hin, _, _, _, _, _, _, hf⟩ :=
    openvex_filter_modified_finding_fields examplePurlString exampleOpenVEX vexResult
      (NewModifiedFinding (Finding.vuln log4shell) FindingStatus.not_affected
        "vulnerable_code_not_in_execute_path" "OpenVEX") (by decide)
  exact ⟨vuln, hin, hf⟩

/-- C4: `OpenVEX.Filter` leaves the earlier modified findings in place and
appends one modified finding per removed vulnerability and none per kept one:
for every vulnerability value its occurrences among the kept vulnerabilities
and among the findings of the appended records add up to its occurrences in
the input, and the lengths satisfy
`len(Vulnerabilities after) + (len(ModifiedFindings after) - len(ModifiedFindings before))
= len(Vulnerabilities before)`. -/
theorem openvex_filter_loss_tracking (ps : PackageURL → String) (v : OpenVEX)
    (result : Result) :
    (v.Filter ps result).ModifiedFindings.take result.ModifiedFindings.length
      = result.ModifiedFindings ∧
    (∀ x : DetectedVulnerability,
      (v.Filter ps result).Vulnerabilities.count x +
        ((v.Filter ps result).ModifiedFindings.drop result.ModifiedFindings.length).countP
          (fun mf => decide (mf.Finding = Finding.vuln x))
        = result.Vulnerabilities.count x) ∧
    (v.Filter ps result).Vulnerabilities.length +
        ((v.Filter ps result).ModifiedFindings.length - result.ModifiedFindings.length)
      = result.Vulnerabilities.length := by
  refine ⟨?_, ?_, ?_⟩
  · rw [filter_modified, List.take_left]
  · intro x
    rw [filter_appended, filter_vulns]
    exact filter_count_split ps v x result.Vulnerabilities
  · rw [filter_modified, filter_vulns, List.length_append, Nat.add_sub_cancel_left]
    exact filter_length_split ps v result.Vulnerabilities

/-! ## Lemmas: the phases of the report filter -/

theorem policyPass_ok {α : Type} (inj : α → Finding) (eval : Finding → Except String Bool)
    (source : String) :
    ∀ (xs : List α) (out : List α × List ModifiedFinding),
      policyPass inj eval source xs = Except.ok out →
      out.1.Sublist xs ∧ out.1.length + out.2.length = xs.length ∧
      ∀ mf ∈ out.2, ∃ x ∈ xs,
        mf = NewModifiedFinding (inj x) FindingStatus.ignored "Filtered by Rego" source := by
  intro xs
  induction xs with
  | nil =>
    intro out h
    simp only [policyPass, Except.ok.injEq] at h
    subst h
    simp
  | cons x xs ih =>
    intro out h
    simp only [policyPass] at h
    cases he : eval (inj x) with
    | error e => simp [he] at h
    | ok ignored =>
      simp only [he] at h
      cases hr : policyPass inj eval source xs with
      | error e => simp [hr] at h
      | ok rest =>
        simp only [hr] at h
        obtain ⟨hsub, hlen, hmf⟩ := ih rest hr
        cases ignored with
        | true =>
          simp only [if_true, Except.ok.injEq] at h
          subst h
          refine ⟨hsub.trans (List.sublist_cons_self x xs), ?_, ?_⟩
          · simp only [List.length_cons]; omega
          · intro mf hm
            rcases List.mem_cons.mp hm with hm | hm
            · exact ⟨x, List.mem_cons_self x xs, hm⟩
            · obtain ⟨y, hy, hy2⟩ := hmf mf hm
              exact ⟨y, List.mem_cons_of_mem x hy, hy2⟩
        | false =>
          simp only [Bool.false_eq_true, if_false, Except.ok.injEq] at h
          subst h
          refine ⟨hsub.cons₂ x, ?_, ?_⟩
          · simp only [List.length_cons]; omega
          · intro mf hm
            obtain ⟨y, hy, hy2⟩ := hmf mf hm
            exact ⟨y, List.mem_cons_of_mem x hy, hy2⟩

theorem ignoreKept_sublist {α : Type} (inj : α → Finding)
    (m : Finding → String → Option String) (target : String) (xs : List α) :
    (ignoreKept inj m target xs).Sublist xs :=
  List.filter_sublist xs

theorem ignore_length_split {α : Type} (inj : α → Finding)
    (m : Finding → String → Option String) (target file : String) (xs : List α) :
    (ignoreKept inj m target xs).length + (ignoreRecords inj m target file xs).length
      = xs.length := by
  induction xs with
  | nil => simp [ignoreKept, ignoreRecords]
  | cons x xs ih =>
    simp only [ignoreKept, ignoreRecords] at ih ⊢
    cases hm : m (inj x) target <;>
      simp only [List.filter_cons, List.filterMap_cons, hm, Option.isNone_none,
        Option.isNone_some, Option.map_none', Option.map_some', if_true, Bool.false_eq_true,
        if_false, List.length_cons] <;> omega

theorem ignoreRecords_mem {α : Type} (inj : α → Finding)
    (m : Finding → String → Option String) (target file : String) (xs : List α)
    (mf : ModifiedFinding) (h : mf ∈ ignoreRecords inj m target file xs) :
    ∃ x ∈ xs, ∃ statement, mf = NewModifiedFinding (inj x) FindingStatus.ignored statement file := by
  simp only [ignoreRecords, List.mem_filterMap, Option.map_eq_some'] at h
  obtain ⟨x, hx, st, _, hmf⟩ := h
  exact ⟨x, hx, st, hmf.symm⟩

theorem policyPhase_ok (d : Documents) (opt : FilterOption) (r s : Result)
    (h : policyPhase d opt r = Except.ok s) :
    (opt.PolicyFile = "" ∧ s = r) ∨
    (opt.PolicyFile ≠ "" ∧ ∃ pv pm ps pl,
      policyPass Finding.vuln d.policyEval (policySource opt.PolicyFile) r.Vulnerabilities
        = Except.ok pv ∧
      policyPass Finding.misconf d.policyEval (policySource opt.PolicyFile) r.Misconfigurations
        = Except.ok pm ∧
      policyPass Finding.secret d.policyEval (policySource opt.PolicyFile) r.Secrets
        = Except.ok ps ∧
      policyPass Finding.license d.policyEval (policySource opt.PolicyFile) r.Licenses
        = Except.ok pl ∧
      s = { r with
        Vulnerabilities := pv.1
        Misconfigurations := pm.1
        Secrets := ps.1
        Licenses := pl.1
        ModifiedFindings := r.ModifiedFindings ++ pv.2 ++ pm.2 ++ ps.2 ++ pl.2 }) := by
  unfold policyPhase at h
  by_cases hp : opt.PolicyFile = ""
  · left
    simp only [hp, if_true, Except.ok.injEq] at h
    exact ⟨hp, h.symm⟩
  · right
    simp only [hp, if_false] at h
    refine ⟨hp, ?_⟩
    cases hv : policyPass Finding.vuln d.policyEval (policySource opt.PolicyFile)
        r.Vulnerabilities with
    | error e => simp [hv] at h
    | ok pv =>
      cases hm : policyPass Finding.misconf d.policyEval (policySource opt.PolicyFile)
          r.Misconfigurations with
      | error e => simp [hv, hm] at h
      | ok pm =>
        cases hs : policyPass Finding.secret d.policyEval (policySource opt.PolicyFile)
            r.Secrets with
        | error e => simp [hv, hm, hs] at h
        | ok ps =>
          cases hl : policyPass Finding.license d.policyEval (policySource opt.PolicyFile)
              r.Licenses with
          | error e => simp [hv, hm, hs, hl] at h
          | ok pl =>
            simp only [hv, hm, hs, hl, Except.ok.injEq] at h
            exact ⟨pv, pm, ps, pl, rfl, rfl, rfl, rfl, h.symm⟩

theorem within_refl (a : Result) : Result.within a a :=
  ⟨List.Sublist.refl _, List.Sublist.refl _, List.Sublist.refl _, List.Sublist.refl _⟩

theorem within_trans {a b c : Result} (h1 : Result.within a b) (h2 : Result.within b c) :
    Result.within a c :=
  ⟨h1.1.trans h2.1, h1.2.1.trans h2.2.1, h1.2.2.1.trans h2.2.2.1, h1.2.2.2.trans h2.2.2.2⟩

theorem ignorePhase_within (d : Documents) (opt : FilterOption) (r : Result) :
    Result.within (ignorePhase d opt r) r := by
  unfold ignorePhase
  by_cases h : opt.IgnoreFile = ""
  · simp only [h, if_true]
    exact within_refl r
  · simp only [h, if_false]
    exact ⟨ignoreKept_sublist _ _ _ _, ignoreKept_sublist _ _ _ _, ignoreKept_sublist _ _ _ _,
      ignoreKept_sublist _ _ _ _⟩

theorem statusPhase_within (opt : FilterOption) (r : Result) :
    Result.within (statusPhase opt r) r :=
  ⟨List.filter_sublist _, List.Sublist.refl _, List.Sublist.refl _, List.Sublist.refl _⟩

theorem policyPhase_within (d : Documents) (opt : FilterOption) (r s : Result)
    (h : policyPhase d opt r = Except.ok s) : Result.within s r := by
  rcases policyPhase_ok d opt r s h with ⟨_, hs⟩ | ⟨_, pv, pm, ps, pl, hv, hm, hsec, hl, hs⟩
  · rw [hs]
    exact within_refl r
  · rw [hs]
    exact ⟨(policyPass_ok _ _ _ _ _ hv).1, (policyPass_ok _ _ _ _ _ hm).1,
      (policyPass_ok _ _ _ _ _ hsec).1, (policyPass_ok _ _ _ _ _ hl).1⟩

theorem suppress_within (d : Documents) (opt : FilterOption) (r s : Result)
    (h : suppress d opt r = Except.ok s) :
    Result.within s (severityPhase opt (vexPhase d opt r)) :=
  within_trans (policyPhase_within d opt _ s h)
    (within_trans (statusPhase_within opt _) (ignorePhase_within d opt _))

/-! ## Lemmas: string order and dedup -/

theorem strLess_iff (a b : String) : strLess a b = true ↔ a < b := by
  simp [strLess, String.lt_iff_toList_lt]

theorem string_not_lt_empty (s : String) : ¬ s < "" := by
  rw [String.lt_iff_toList_lt]
  simp

theorem string_empty_lt (s : String) (h : s ≠ "") : "" < s := by
  rw [String.lt_iff_toList_lt]
  have hne : s.toList ≠ [] := by
    intro e
    apply h
    rw [← String.toList_inj]
    simpa using e
  cases hs : s.toList with
  | nil => exact absurd hs hne
  | cons a l => exact List.nil_lt_cons a l

theorem shouldOverwrite_iff (old new : DetectedVulnerability) :
    shouldOverwrite old new = true ↔ old.FixedVersion < new.FixedVersion := by
  unfold shouldOverwrite
  by_cases ho : old.FixedVersion = ""
  · simp only [ho, if_true, decide_eq_true_eq]
    constructor
    · intro h
      exact string_empty_lt _ h
    · intro h e
      rw [e] at h
      exact string_not_lt_empty _ h
  · simp only [ho, if_false]
    by_cases hn : new.FixedVersion = ""
    · simp only [hn, if_true, Bool.false_eq_true, false_iff]
      exact string_not_lt_empty _
    · simp only [hn, if_false]
      exact strLess_iff _ _

theorem mem_uniqInsert (v w : DetectedVulnerability) :
    ∀ acc : List DetectedVulnerability, w ∈ uniqInsert v acc → w = v ∨ w ∈ acc := by
  intro acc
  induction acc with
  | nil =>
    intro h
    simp only [uniqInsert, List.mem_singleton] at h
    exact Or.inl h
  | cons old rest ih =>
    intro h
    simp only [uniqInsert] at h
    split at h
    · split at h
      · rcases List.mem_cons.mp h with h | h
        · exact Or.inl h
        · exact Or.inr (List.mem_cons_of_mem _ h)
      · exact Or.inr h
    · rcases List.mem_cons.mp h with h | h
      · exact Or.inr (h ▸ List.mem_cons_self _ _)
      · rcases ih h with h | h
        · exact Or.inl h
        · exact Or.inr (List.mem_cons_of_mem _ h)

theorem uniqInsert_keys (v : DetectedVulnerability) :
    ∀ acc : List DetectedVulnerability,
      (uniqInsert v acc).map dedupKey =
        if dedupKey v ∈ acc.map dedupKey then acc.map dedupKey
        else acc.map dedupKey ++ [dedupKey v] := by
  intro acc
  induction acc with
  | nil => simp [uniqInsert]
  | cons old rest ih =>
    simp only [uniqInsert]
    by_cases hk : dedupKey old = dedupKey v
    · simp only [hk, if_true]
      split <;> simp [hk]
    · have hk2 : ¬ dedupKey v = dedupKey old := fun e => hk e.symm
      simp only [hk, if_false, List.map_cons, ih, List.mem_cons, hk2, false_or]
      split <;> simp

theorem uniqInsert_nodup (v : DetectedVulnerability) (acc : List DetectedVulnerability)
    (h : (acc.map dedupKey).Nodup) : ((uniqInsert v acc).map dedupKey).Nodup := by
  rw [uniqInsert_keys]
  split
  · exact h
  · rename_i hn
    rw [List.nodup_append]
    refine ⟨h, List.nodup_singleton _, ?_⟩
    intro k hk hk2
    rw [List.mem_singleton] at hk2
    exact hn (hk2 ▸ hk)

theorem uniqInsert_keeps (v : DetectedVulnerability) :
    ∀ (acc : List DetectedVulnerability) (w : DetectedVulnerability), w ∈ acc →
      ∃ w2 ∈ uniqInsert v acc, dedupKey w2 = dedupKey w ∧ w.FixedVersion ≤ w2.FixedVersion := by
  intro acc
  induction acc with
  | nil => intro w hw; cases hw
  | cons old rest ih =>
    intro w hw
    simp only [uniqInsert]
    by_cases hk : dedupKey old = dedupKey v
    · simp only [hk, if_true]
      by_cases hov : shouldOverwrite old v = true
      · simp only [hov, if_true]
        rcases List.mem_cons.mp hw with hw | hw
        · subst hw
          exact ⟨v, List.mem_cons_self _ _, hk.symm,
            le_of_lt ((shouldOverwrite_iff _ v).mp hov)⟩
        · exact ⟨w, List.mem_cons_of_mem _ hw, rfl, le_refl _⟩
      · simp only [hov, if_false]
        exact ⟨w, hw, rfl, le_refl _⟩
    · simp only [hk, if_false]
      rcases List.mem_cons.mp hw with hw | hw
      · subst hw
        exact ⟨w, List.mem_cons_self _ _, rfl, le_refl _⟩
      · obtain ⟨w2, hw2, hk2, hle⟩ := ih w hw
        exact ⟨w2, List.mem_cons_of_mem _ hw2, hk2, hle⟩

theorem uniqInsert_represents (v : DetectedVulnerability) :
    ∀ acc : List DetectedVulnerability,
      ∃ w2 ∈ uniqInsert v acc, dedupKey w2 = dedupKey v ∧ v.FixedVersion ≤ w2.FixedVersion := by
  intro acc
  induction acc with
  | nil => exact ⟨v, by simp [uniqInsert], rfl, le_refl _⟩
  | cons old rest ih =>
    simp only [uniqInsert]
    by_cases hk : dedupKey old = dedupKey v
    · simp only [hk, if_true]
      by_cases hov : shouldOverwrite old v = true
      · simp only [hov, if_true]
        exact ⟨v, List.mem_cons_self _ _, rfl, le_refl _⟩
      · simp only [hov, if_false]
        refine ⟨old, List.mem_cons_self _ _, hk, ?_⟩
        rw [shouldOverwrite_iff] at hov
        exact not_lt.mp hov
    · simp only [hk, if_false]
      obtain ⟨w2, hw2, hk2, hle⟩ := ih
      exact ⟨w2, List.mem_cons_of_mem _ hw2, hk2, hle⟩

theorem dedup_fold (vs : List DetectedVulnerability) :
    ∀ acc : List DetectedVulnerability, (acc.map dedupKey).Nodup →
      ((vs.foldl (fun acc v => uniqInsert { v with Severity := normalizeSeverity v.Severity } acc)
          acc).map dedupKey).Nodup ∧
      (∀ w ∈ vs.foldl
          (fun acc v => uniqInsert { v with Severity := normalizeSeverity v.Severity } acc) acc,
        w ∈ acc ∨ ∃ v ∈ vs, w = { v with Severity := normalizeSeverity v.Severity }) ∧
      (∀ v, (v ∈ acc ∨ v ∈ vs) →
        ∃ w ∈ vs.foldl
            (fun acc v => uniqInsert { v with Severity := normalizeSeverity v.Severity } acc) acc,
          dedupKey w = dedupKey v ∧ v.FixedVersion ≤ w.FixedVersion) := by
  induction vs with
  | nil =>
    intro acc hnd
    refine ⟨hnd, fun w hw => Or.inl hw, ?_⟩
    intro v hv
    rcases hv with hv | hv
    · exact ⟨v, hv, rfl, le_refl _⟩
    · cases hv
  | cons x xs ih =>
    intro acc hnd
    simp only [List.foldl_cons]
    obtain ⟨h1, h2, h3⟩ :=
      ih (uniqInsert { x with Severity := normalizeSeverity x.Severity } acc)
        (uniqInsert_nodup _ acc hnd)
    refine ⟨h1, ?_, ?_⟩
    · intro w hw
      rcases h2 w hw with hw | ⟨v, hv, hvw⟩
      · rcases mem_uniqInsert _ w acc hw with hw | hw
        · exact Or.inr ⟨x, List.mem_cons_self _ _, hw⟩
        · exact Or.inl hw
      · exact Or.inr ⟨v, List.mem_cons_of_mem _ hv, hvw⟩
    · intro v hv
      have step : ∀ u, u ∈ uniqInsert { x with Severity := normalizeSeverity x.Severity } acc →
          dedupKey u = dedupKey v → v.FixedVersion ≤ u.FixedVersion →
          ∃ w ∈ xs.foldl
              (fun acc v => uniqInsert { v with Severity := normalizeSeverity v.Severity } acc)
              (uniqInsert { x with Severity := normalizeSeverity x.Severity } acc),
            dedupKey w = dedupKey v ∧ v.FixedVersion ≤ w.FixedVersion := by
        intro u hu hku hle
        obtain ⟨w, hw, hkw, hle2⟩ := h3 u (Or.inl hu)
        exact ⟨w, hw, hkw.trans hku, le_trans hle hle2⟩
      rcases hv with hv | hv
      · obtain ⟨u, hu, hku, hle⟩ := uniqInsert_keeps _ acc v hv
        exact step u hu hku hle
      · rcases List.mem_cons.mp hv with hv | hv
        · subst hv
          obtain ⟨u, hu, hku, hle⟩ :=
            uniqInsert_represents { v with Severity := normalizeSeverity v.Severity } acc
          exact step u hu hku hle
        · exact h3 v (Or.inr hv)

theorem dedup_spec (vs : List DetectedVulnerability) :
    ((dedup vs).map dedupKey).Nodup ∧
    (∀ w ∈ dedup vs, ∃ v ∈ vs, w = { v with Severity := normalizeSeverity v.Severity }) ∧
    (∀ v ∈ vs, ∃ w ∈ dedup vs, dedupKey w = dedupKey v ∧ v.FixedVersion ≤ w.FixedVersion) := by
  obtain ⟨h1, h2, h3⟩ := dedup_fold vs [] List.nodup_nil
  refine ⟨h1, ?_, ?_⟩
  · intro w hw
    rcases h2 w hw with hw | hw
    · cases hw
    · exact hw
  · intro v hv
    exact h3 v (Or.inr hv)

theorem vulnOrdered_iff_key (a b : DetectedVulnerability) :
    vulnOrdered a b ↔ vulnSortKey a ≤ vulnSortKey b := by
  simp only [vulnOrdered, vulnSortKey, Prod.Lex.le_iff, ofLex_toLex]

theorem vulnLess_iff_key (a b : DetectedVulnerability) :
    vulnLess a b = true ↔ vulnSortKey a < vulnSortKey b := by
  simp only [vulnLess, vulnSortKey, Prod.Lex.lt_iff, ofLex_toLex]
  by_cases h1 : a.PkgName = b.PkgName
  · by_cases h2 : severityPosition a.Severity = severityPosition b.Severity
    · by_cases h3 : a.VulnerabilityID = b.VulnerabilityID
      · by_cases h4 : a.PkgPath = b.PkgPath
        · simp [h1, h2, h3, h4, strLess_iff]
        · simp [h1, h2, h3, h4, strLess_iff]
      · simp [h1, h2, h3, strLess_iff]
    · simp [h1, h2]
  · simp [h1, strLess_iff]

theorem vulnLess_false_iff (a b : DetectedVulnerability) :
    vulnLess b a = false ↔ vulnOrdered a b := by
  rw [vulnOrdered_iff_key, ← not_lt, ← vulnLess_iff_key]
  simp

theorem sortBy_perm {α : Type} (less : α → α → Bool) (xs : List α) :
    (sortBy less xs).Perm xs :=
  List.perm_insertionSort _ xs

theorem mem_sortBy {α : Type} (less : α → α → Bool) (xs : List α) (x : α) :
    x ∈ sortBy less xs ↔ x ∈ xs :=
  (sortBy_perm less xs).mem_iff

theorem sortBy_vulnLess_sorted (xs : List DetectedVulnerability) :
    List.Pairwise vulnOrdered (sortBy vulnLess xs) := by
  have total : IsTotal DetectedVulnerability (fun a b => vulnLess b a = false) :=
    ⟨fun a b => by
      simp only [vulnLess_false_iff, vulnOrdered_iff_key]
      exact le_total _ _⟩
  have trans : IsTrans DetectedVulnerability (fun a b => vulnLess b a = false) :=
    ⟨fun a b c => by
      simp only [vulnLess_false_iff, vulnOrdered_iff_key]
      exact le_trans⟩
  have h := List.sorted_insertionSort (fun a b => vulnLess b a = false) xs
  unfold List.Sorted at h
  exact h.imp (fun hab => (vulnLess_false_iff _ _).mp hab)

/-! ## The model on the cases of `TestFilter` -/

/-- The model returns the expected report of the case "severities". -/
theorem testFilter_severities :
    Filter exampleDocuments severitiesOptions { Results := [severitiesInput] }
      = Except.ok { Results := [severitiesOutput] } := by decide

/-- The model returns the expected report of the case "filter by VEX". -/
theorem testFilter_filter_by_VEX :
    Filter vexDocuments vexOptions { Results := [vexInput] }
      = Except.ok { Results := [vexOutput] } := by decide

/-- The model returns the expected report of the case "ignore unfixed". -/
theorem testFilter_ignore_unfixed :
    Filter exampleDocuments unfixedOptions
        { Results := [{ vexInput with Target := "debian:11 (debian 11)" }] }
      = Except.ok { Results := [{ emptyResult with Target := "debian:11 (debian 11)" }] } := by
  decide

/-- The model returns the expected report of the case "ignore file". -/
theorem testFilter_ignore_file :
    Filter ignoreDocuments ignoreOptions ignoreReport = Except.ok ignoreWant := by decide

/-- The model returns the expected report of the case "policy file for
vulnerabilities". -/
theorem testFilter_policy_file_for_vulnerabilities :
    Filter vulnPolicyDocuments vulnPolicyOptions { Results := [{ emptyResult with
        Vulnerabilities := [vuln1, vuln2, vuln3] }] }
      = Except.ok { Results := [vulnPolicyOutput] } := by decide

/-- The model returns the expected report of the case "policy file for
misconfigurations". -/
theorem testFilter_policy_file_for_misconfigurations :
    Filter policyDocuments policyOptions { Results := [policyInput] }
      = Except.ok { Results := [policyOutput] } := by decide

/-- The model returns the expected result of the case "happy path with
duplicates, one with empty fixed version". -/
theorem testFilter_duplicates :
    Filter exampleDocuments duplicatesOptions { Results := [duplicatesResult] }
      = Except.ok { Results := [duplicatesWant] } := by decide

/-- The model returns the expected result of the case "happy path with
duplicates and different package paths". -/
theorem testFilter_package_paths :
    Filter exampleDocuments duplicatesOptions { Results := [pathsResult] }
      = Except.ok { Results := [pathsWant] } := by decide

/-! ## Lemmas: the pipeline -/

theorem FilterResult_ok (d : Documents) (opt : FilterOption) (r r2 : Result)
    (h : FilterResult d opt r = Except.ok r2) :
    ∃ s, suppress d opt r = Except.ok s ∧ r2 = finish opt r s := by
  unfold FilterResult at h
  cases hs : suppress d opt r with
  | error e => simp [hs] at h
  | ok s =>
    simp only [hs, Except.ok.injEq] at h
    exact ⟨s, rfl, h.symm⟩

theorem filterResults_ok (d : Documents) (opt : FilterOption) :
    ∀ (rs out : List Result), filterResults d opt rs = Except.ok out →
      List.Forall₂ (fun r r2 => FilterResult d opt r = Except.ok r2) rs out := by
  intro rs
  induction rs with
  | nil =>
    intro out h
    simp only [filterResults, Except.ok.injEq] at h
    subst h
    exact List.Forall₂.nil
  | cons r rs ih =>
    intro out h
    simp only [filterResults] at h
    cases h1 : FilterResult d opt r with
    | error e => simp [h1] at h
    | ok r1 =>
      cases h2 : filterResults d opt rs with
      | error e => simp [h1, h2] at h
      | ok rs1 =>
        simp only [h1, h2, Except.ok.injEq] at h
        subst h
        exact List.Forall₂.cons h1 (ih rs1 h2)

theorem Filter_ok (d : Documents) (opt : FilterOption) (report report2 : Report)
    (h : Filter d opt report = Except.ok report2) :
    List.Forall₂ (fun r r2 => FilterResult d opt r = Except.ok r2) report.Results
      report2.Results := by
  unfold Filter at h
  cases h1 : filterResults d opt report.Results with
  | error e => simp [h1] at h
  | ok rs =>
    simp only [h1, Except.ok.injEq] at h
    subst h
    exact filterResults_ok d opt _ _ h1

theorem forall₂_mem_right {α β : Type} {R : α → β → Prop} :
    ∀ {l1 : List α} {l2 : List β}, List.Forall₂ R l1 l2 → ∀ b ∈ l2, ∃ a ∈ l1, R a b := by
  intro l1 l2 h
  induction h with
  | nil => intro b hb; cases hb
  | cons hab _ ih =>
    intro b hb
    rcases List.mem_cons.mp hb with hb | hb
    · subst hb
      exact ⟨_, List.mem_cons_self _ _, hab⟩
    · obtain ⟨a, ha, hr⟩ := ih b hb
      exact ⟨a, List.mem_cons_of_mem _ ha, hr⟩

/-! ## The filter returns when the policy engine answers -/

theorem policyPass_returns {α : Type} (inj : α → Finding) (eval : Finding → Except String Bool)
    (source : String) (h : ∀ f, ∃ b, eval f = Except.ok b) :
    ∀ xs : List α, ∃ out, policyPass inj eval source xs = Except.ok out := by
  intro xs
  induction xs with
  | nil => exact ⟨_, rfl⟩
  | cons x xs ih =>
    obtain ⟨b, hb⟩ := h (inj x)
    obtain ⟨rest, hrest⟩ := ih
    cases b with
    | true =>
      simp only [policyPass, hb, hrest, if_true]
      exact ⟨_, rfl⟩
    | false =>
      simp only [policyPass, hb, hrest, Bool.false_eq_true, if_false]
      exact ⟨_, rfl⟩

theorem policyPhase_returns (d : Documents) (opt : FilterOption)
    (h : opt.PolicyFile = "" ∨ ∀ f, ∃ b, d.policyEval f = Except.ok b) (r : Result) :
    ∃ s, policyPhase d opt r = Except.ok s := by
  unfold policyPhase
  by_cases hp : opt.PolicyFile = ""
  · simp only [hp, if_true]
    exact ⟨_, rfl⟩
  · have he : ∀ f, ∃ b, d.policyEval f = Except.ok b := h.resolve_left hp
    obtain ⟨pv, hv⟩ := policyPass_returns Finding.vuln d.policyEval
      (policySource opt.PolicyFile) he r.Vulnerabilities
    obtain ⟨pm, hm⟩ := policyPass_returns Finding.misconf d.policyEval
      (policySource opt.PolicyFile) he r.Misconfigurations
    obtain ⟨ps, hs⟩ := policyPass_returns Finding.secret d.policyEval
      (policySource opt.PolicyFile) he r.Secrets
    obtain ⟨pl, hl⟩ := policyPass_returns Finding.license d.policyEval
      (policySource opt.PolicyFile) he r.Licenses
    simp only [hp, if_false, hv, hm, hs, hl]
    exact ⟨_, rfl⟩

/-- The filter returns a report whenever no policy is given or the policy
engine answers every query: the error result comes from the engine alone. -/
theorem Filter_returns (d : Documents) (opt : FilterOption)
    (h : opt.PolicyFile = "" ∨ ∀ f, ∃ b, d.policyEval f = Except.ok b) (report : Report) :
    ∃ report2, Filter d opt report = Except.ok report2 := by
  have hres : ∀ rs : List Result, ∃ out, filterResults d opt rs = Except.ok out := by
    intro rs
    induction rs with
    | nil => exact ⟨_, rfl⟩
    | cons r rs ih =>
      obtain ⟨s, hs⟩ := policyPhase_returns d opt h
        (statusPhase opt (ignorePhase d opt (severityPhase opt (vexPhase d opt r))))
      obtain ⟨out, hout⟩ := ih
      have hr : FilterResult d opt r = Except.ok (finish opt r s) := by
        simp only [FilterResult, suppress, hs]
      simp only [filterResults, hr, hout]
      exact ⟨_, rfl⟩
  obtain ⟨out, hout⟩ := hres report.Results
  simp only [Filter, hout]
  exact ⟨_, rfl⟩

/-! ## Theorems: the severity gate -/

theorem severity_name_ne_empty (sevs : List Severity) (s : String)
    (h : s ∈ sevs.map Severity.String) : s ≠ "" := by
  obtain ⟨x, _, hx⟩ := List.mem_map.mp h
  subst hx
  cases x <;> decide

theorem normalizeSeverity_of_ne (s : String) (h : s ≠ "") : normalizeSeverity s = s := by
  simp [normalizeSeverity, h]

theorem severityPhase_gate (opt : FilterOption) (r : Result) :
    (∀ v ∈ (severityPhase opt r).Vulnerabilities,
      v.Severity ∈ opt.Severities.map Severity.String) ∧
    (∀ m ∈ (severityPhase opt r).Misconfigurations,
      m.Severity ∈ opt.Severities.map Severity.String) ∧
    (∀ s ∈ (severityPhase opt r).Secrets,
      s.Severity ∈ opt.Severities.map Severity.String) ∧
    (∀ l ∈ (severityPhase opt r).Licenses,
      l.Severity ∈ opt.Severities.map Severity.String) := by
  refine ⟨?_, ?_, ?_, ?_⟩ <;>
  · intro x hx
    simp only [severityPhase, List.mem_filter, decide_eq_true_eq] at hx
    exact hx.2

theorem suppress_gate (d : Documents) (opt : FilterOption) (r s : Result)
    (h : suppress d opt r = Except.ok s) :
    (∀ v ∈ s.Vulnerabilities, v.Severity ∈ opt.Severities.map Severity.String) ∧
    (∀ m ∈ s.Misconfigurations, m.Severity ∈ opt.Severities.map Severity.String) ∧
    (∀ x ∈ s.Secrets, x.Severity ∈ opt.Severities.map Severity.String) ∧
    (∀ l ∈ s.Licenses, l.Severity ∈ opt.Severities.map Severity.String) := by
  obtain ⟨hv, hm, hs, hl⟩ := suppress_within d opt r s h
  obtain ⟨gv, gm, gs, gl⟩ := severityPhase_gate opt (vexPhase d opt r)
  exact ⟨fun v hx => gv v (hv.subset hx), fun m hx => gm m (hm.subset hx),
    fun x hx => gs x (hs.subset hx), fun l hx => gl l (hl.subset hx)⟩

/-- C5: after `Filter` returns, in every result every surviving vulnerability,
misconfiguration, secret and license has a severity that is the name of a
member of `options.Severities`. -/
theorem filter_severity_gate (d : Documents) (opt : FilterOption) (report report2 : Report)
    (h : Filter d opt report = Except.ok report2) :
    ∀ r2 ∈ report2.Results,
      (∀ v ∈ r2.Vulnerabilities, ∃ sev ∈ opt.Severities, v.Severity = sev.String) ∧
      (∀ m ∈ r2.Misconfigurations, ∃ sev ∈ opt.Severities, m.Severity = sev.String) ∧
      (∀ s ∈ r2.Secrets, ∃ sev ∈ opt.Severities, s.Severity = sev.String) ∧
      (∀ l ∈ r2.Licenses, ∃ sev ∈ opt.Severities, l.Severity = sev.String) := by
  intro r2 hr2
  obtain ⟨r, _, hr⟩ := forall₂_mem_right (Filter_ok d opt report report2 h) r2 hr2
  obtain ⟨s, hs, hfin⟩ := FilterResult_ok d opt r r2 hr
  obtain ⟨gv, gm, gs, gl⟩ := suppress_gate d opt r s hs
  have conv : ∀ x : String, x ∈ opt.Severities.map Severity.String →
      ∃ sev ∈ opt.Severities, x = sev.String := by
    intro x hx
    obtain ⟨sev, hsev, e⟩ := List.mem_map.mp hx
    exact ⟨sev, hsev, e.symm⟩
  subst hfin
  refine ⟨?_, ?_, ?_, ?_⟩
  · intro v hv
    have hv2 : v ∈ dedup s.Vulnerabilities := (mem_sortBy _ _ _).mp hv
    obtain ⟨v0, hv0, e⟩ := (dedup_spec s.Vulnerabilities).2.1 v hv2
    have hg := gv v0 hv0
    have : v.Severity = v0.Severity := by
      rw [e]
      exact normalizeSeverity_of_ne _ (severity_name_ne_empty _ _ hg)
    rw [this]
    exact conv _ hg
  · intro m hm
    have hm2 := (mem_sortBy _ _ _).mp hm
    have hm3 : m ∈ s.Misconfigurations := by
      simp only [summaryPhase, dedupPhase] at hm2
      split at hm2
      · exact hm2
      · exact (List.mem_filter.mp hm2).1
    exact conv _ (gm m hm3)
  · intro x hx
    exact conv _ (gs x ((mem_sortBy _ _ _).mp hx))
  · intro l hl
    exact conv _ (gl l ((mem_sortBy _ _ _).mp hl))

/-- Example for C5: the case "severities" of `TestFilter`: the filter returns
the expected result, whose findings all have severity CRITICAL or HIGH. -/
theorem filter_severity_gate_witness :
    Filter exampleDocuments severitiesOptions { Results := [severitiesInput] }
      = Except.ok { Results := [severitiesOutput] } ∧
    (∀ v ∈ severitiesOutput.Vulnerabilities,
      ∃ sev ∈ [Severity.Critical, Severity.High], v.Severity = sev.String) ∧
    (∀ m ∈ severitiesOutput.Misconfigurations,
      ∃ sev ∈ [Severity.Critical, Severity.High], m.Severity = sev.String) :=
  have h := filter_severity_gate exampleDocuments severitiesOptions
    { Results := [severitiesInput] } { Results := [severitiesOutput] } (by decide)
    severitiesOutput (List.mem_cons_self _ _)
  ⟨by decide, h.1, h.2.1⟩

/-! ## Theorems: dedup and order -/

theorem finish_vulnerabilities (opt : FilterOption) (r s : Result) :
    (finish opt r s).Vulnerabilities = sortBy vulnLess (dedup s.Vulnerabilities) := rfl

theorem finish_keys_nodup (opt : FilterOption) (r s : Result) :
    ((finish opt r s).Vulnerabilities.map dedupKey).Nodup := by
  rw [finish_vulnerabilities]
  exact (((sortBy_perm vulnLess (dedup s.Vulnerabilities)).map dedupKey).nodup_iff).mpr
    (dedup_spec s.Vulnerabilities).1

theorem finish_key_inj (opt : FilterOption) (r s : Result) (w1 w2 : DetectedVulnerability)
    (h1 : w1 ∈ (finish opt r s).Vulnerabilities) (h2 : w2 ∈ (finish opt r s).Vulnerabilities)
    (hk : dedupKey w1 = dedupKey w2) : w1 = w2 :=
  List.inj_on_of_nodup_map (finish_keys_nodup opt r s) h1 h2 hk

theorem finish_represents (opt : FilterOption) (r s : Result) (v : DetectedVulnerability)
    (hv : v ∈ s.Vulnerabilities) :
    ∃ w ∈ (finish opt r s).Vulnerabilities,
      dedupKey w = dedupKey v ∧ v.FixedVersion ≤ w.FixedVersion := by
  obtain ⟨w, hw, hk, hle⟩ := (dedup_spec s.Vulnerabilities).2.2 v hv
  exact ⟨w, (mem_sortBy _ _ _).mpr hw, hk, hle⟩

theorem finish_origin (opt : FilterOption) (r s : Result) (w : DetectedVulnerability)
    (hw : w ∈ (finish opt r s).Vulnerabilities) :
    ∃ v ∈ s.Vulnerabilities, w = { v with Severity := normalizeSeverity v.Severity } :=
  (dedup_spec s.Vulnerabilities).2.1 w ((mem_sortBy _ _ _).mp hw)

/-- C6: when the filter returns for a result, the surviving vulnerabilities
have pairwise distinct keys `(VulnerabilityID, PkgName, PkgPath,
InstalledVersion)`; every vulnerability that reached the dedup (survived the
suppression phases) has exactly one survivor with its key; every survivor is
one of the records that reached the dedup, severity normalised; and two
records that differ in a component of the key, for instance in `PkgPath` only,
keep two different representatives. -/
theorem filter_dedup_one_per_key (d : Documents) (opt : FilterOption) (r r2 : Result)
    (h : FilterResult d opt r = Except.ok r2) :
    ∃ s, suppress d opt r = Except.ok s ∧
      (r2.Vulnerabilities.map dedupKey).Nodup ∧
      (∀ v ∈ s.Vulnerabilities, ∃! w, w ∈ r2.Vulnerabilities ∧ dedupKey w = dedupKey v) ∧
      (∀ w ∈ r2.Vulnerabilities, ∃ v ∈ s.Vulnerabilities,
        w = { v with Severity := normalizeSeverity v.Severity }) ∧
      (∀ v1 ∈ s.Vulnerabilities, ∀ v2 ∈ s.Vulnerabilities,
        (v1.VulnerabilityID ≠ v2.VulnerabilityID ∨ v1.PkgName ≠ v2.PkgName ∨
          v1.PkgPath ≠ v2.PkgPath ∨ v1.InstalledVersion ≠ v2.InstalledVersion) →
        ∃ w1 ∈ r2.Vulnerabilities, ∃ w2 ∈ r2.Vulnerabilities,
          w1 ≠ w2 ∧ dedupKey w1 = dedupKey v1 ∧ dedupKey w2 = dedupKey v2) := by
  obtain ⟨s, hs, hfin⟩ := FilterResult_ok d opt r r2 h
  subst hfin
  refine ⟨s, hs, finish_keys_nodup opt r s, ?_, finish_origin opt r s, ?_⟩
  · intro v hv
    obtain ⟨w, hw, hk, _⟩ := finish_represents opt r s v hv
    refine ⟨w, ⟨hw, hk⟩, ?_⟩
    rintro w2 ⟨hw2, hk2⟩
    exact finish_key_inj opt r s w2 w hw2 hw (hk2.trans hk.symm)
  · intro v1 hv1 v2 hv2 hne
    obtain ⟨w1, hw1, hk1, _⟩ := finish_represents opt r s v1 hv1
    obtain ⟨w2, hw2, hk2, _⟩ := finish_represents opt r s v2 hv2
    refine ⟨w1, hw1, w2, hw2, ?_, hk1, hk2⟩
    intro e
    have hk : dedupKey v1 = dedupKey v2 := by rw [← hk1, ← hk2, e]
    simp only [dedupKey, Prod.mk.injEq] at hk
    rcases hne with hne | hne | hne | hne
    · exact hne hk.1
    · exact hne hk.2.1
    · exact hne hk.2.2.1
    · exact hne hk.2.2.2

/-- Example for C6: the case "happy path with duplicates and different package
paths" of `TestFilter`. -/
theorem filter_dedup_one_per_key_witness :
    FilterResult exampleDocuments duplicatesOptions pathsResult = Except.ok pathsWant ∧
    (pathsWant.Vulnerabilities.map dedupKey).Nodup := by
  refine ⟨by decide, ?_⟩
  obtain ⟨_, _, hnd, _⟩ :=
    filter_dedup_one_per_key exampleDocuments duplicatesOptions pathsResult pathsWant (by decide)
  exact hnd

/-- C7: when the filter returns for a result, every surviving vulnerability
carries the fixed version of a record of its group (the records with its key
that reached the dedup), and that fixed version is the greatest of the group in
the lexicographic order of strings; so if any record of the group has a
non-empty fixed version, the survivor has one too, whatever the input order. -/
theorem filter_dedup_greatest_fixed_version (d : Documents) (opt : FilterOption)
    (r r2 : Result) (h : FilterResult d opt r = Except.ok r2) :
    ∃ s, suppress d opt r = Except.ok s ∧
      ∀ w ∈ r2.Vulnerabilities,
        (∃ v ∈ s.Vulnerabilities, dedupKey v = dedupKey w ∧ v.FixedVersion = w.FixedVersion) ∧
        ∀ v ∈ s.Vulnerabilities, dedupKey v = dedupKey w →
          v.FixedVersion ≤ w.FixedVersion ∧ (v.FixedVersion ≠ "" → w.FixedVersion ≠ "") := by
  obtain ⟨s, hs, hfin⟩ := FilterResult_ok d opt r r2 h
  subst hfin
  refine ⟨s, hs, ?_⟩
  intro w hw
  constructor
  · obtain ⟨v, hv, e⟩ := finish_origin opt r s w hw
    subst e
    exact ⟨v, hv, rfl, rfl⟩
  · intro v hv hk
    obtain ⟨w2, hw2, hk2, hle⟩ := finish_represents opt r s v hv
    have e : w2 = w := finish_key_inj opt r s w2 w hw2 hw (hk2.trans hk)
    rw [e] at hle
    refine ⟨hle, ?_⟩
    intro hne hw0
    rw [hw0] at hle
    exact string_not_lt_empty _ (lt_of_lt_of_le (string_empty_lt _ hne) hle)

/-- Example for C7: the case "happy path with duplicates, one with empty fixed
version" of `TestFilter`: the result is the expected one, and the theorem
applies to it. -/
theorem filter_dedup_greatest_fixed_version_witness :
    FilterResult exampleDocuments duplicatesOptions duplicatesResult
      = Except.ok duplicatesWant ∧
    ∃ s, suppress exampleDocuments duplicatesOptions duplicatesResult = Except.ok s ∧
      ∀ w ∈ duplicatesWant.Vulnerabilities, ∀ v ∈ s.Vulnerabilities,
        dedupKey v = dedupKey w → v.FixedVersion ≤ w.FixedVersion := by
  refine ⟨by decide, ?_⟩
  obtain ⟨s, hs, hmax⟩ :=
    filter_dedup_greatest_fixed_version exampleDocuments duplicatesOptions duplicatesResult
      duplicatesWant (by decide)
  exact ⟨s, hs, fun w hw v hv hk => ((hmax w hw).2 v hv hk).1⟩

/-- Counterexample to C8 as stated: on the input of the case "happy path with
duplicates, one with empty fixed version" the filter returns the list that
`TestFilter` expects, in which `bar`/UNKNOWN stands before `baz`/HIGH, so the
list is not sorted by severity first. -/
theorem filter_not_sorted_by_severity_first :
    Filter exampleDocuments duplicatesOptions { Results := [duplicatesResult] }
      = Except.ok { Results := [duplicatesWant] } ∧
    ¬ List.Pairwise specVulnOrdered duplicatesWant.Vulnerabilities := by
  refine ⟨by decide, ?_⟩
  intro hp
  have h35 : specVulnOrdered
      (exampleVuln "CVE-2018-0002" "bar" "" "1.2.3" "" "UNKNOWN" none)
      (exampleVuln "CVE-2018-0001" "baz" "" "1.2.3" "" "HIGH" none) := by
    simp only [duplicatesWant, emptyResult, List.pairwise_cons] at hp
    exact hp.2.2.1 _ (by simp)
  have e1 : severityPosition
      (exampleVuln "CVE-2018-0002" "bar" "" "1.2.3" "" "UNKNOWN" none).Severity = 4 := by decide
  have e2 : severityPosition
      (exampleVuln "CVE-2018-0001" "baz" "" "1.2.3" "" "HIGH" none).Severity = 1 := by decide
  unfold specVulnOrdered at h35
  rw [e1, e2] at h35
  omega

/-- C8 as amended: after `Filter` returns, the surviving vulnerabilities of
every result are sorted by package name ascending first, then by severity
descending (CRITICAL, HIGH, MEDIUM, LOW, UNKNOWN), then vulnerability ID
ascending, then package path ascending, then installed version ascending: of
any two vulnerabilities of the list the earlier one is before or level with
the later one in this lexicographic order. -/
theorem filter_vulnerabilities_sorted (d : Documents) (opt : FilterOption)
    (report report2 : Report) (h : Filter d opt report = Except.ok report2) :
    ∀ r2 ∈ report2.Results,
      List.Pairwise (fun a b =>
        a.PkgName < b.PkgName ∨ (a.PkgName = b.PkgName ∧
          (severityPosition a.Severity < severityPosition b.Severity ∨
            (severityPosition a.Severity = severityPosition b.Severity ∧
              (a.VulnerabilityID < b.VulnerabilityID ∨
                (a.VulnerabilityID = b.VulnerabilityID ∧
                  (a.PkgPath < b.PkgPath ∨
                    (a.PkgPath = b.PkgPath ∧
                      a.InstalledVersion ≤ b.InstalledVersion))))))))
        r2.Vulnerabilities := by
  intro r2 hr2
  obtain ⟨r, _, hr⟩ := forall₂_mem_right (Filter_ok d opt report report2 h) r2 hr2
  obtain ⟨s, _, hfin⟩ := FilterResult_ok d opt r r2 hr
  subst hfin
  exact sortBy_vulnLess_sorted (dedup s.Vulnerabilities)

/-- Example for the amended C8: the expected list of the case "happy path with
duplicates, one with empty fixed version" is in the amended order. -/
theorem filter_vulnerabilities_sorted_witness :
    Filter exampleDocuments duplicatesOptions { Results := [duplicatesResult] }
      = Except.ok { Results := [duplicatesWant] } ∧
    List.Pairwise vulnOrdered duplicatesWant.Vulnerabilities :=
  ⟨by decide,
    filter_vulnerabilities_sorted exampleDocuments duplicatesOptions
      { Results := [duplicatesResult] } { Results := [duplicatesWant] } (by decide)
      duplicatesWant (List.mem_cons_self _ _)⟩

/-! ## Lemmas: counting misconfigurations and their records -/

theorem misconfRecords_append (a b : List ModifiedFinding) :
    misconfRecords (a ++ b) = misconfRecords a + misconfRecords b := by
  simp [misconfRecords, List.countP_append]

theorem misconfRecords_of_kind {α : Type} (inj : α → Finding) (l : List ModifiedFinding)
    (h : ∀ mf ∈ l, ∃ x, mf.Typ = (inj x).findingType) :
    (∀ x, (inj x).findingType = FindingType.misconfiguration) → misconfRecords l = l.length := by
  intro hk
  unfold misconfRecords
  rw [List.countP_eq_length]
  intro mf hmf
  obtain ⟨x, hx⟩ := h mf hmf
  simp [hx, hk x]

theorem misconfRecords_of_other {α : Type} (inj : α → Finding) (l : List ModifiedFinding)
    (h : ∀ mf ∈ l, ∃ x, mf.Typ = (inj x).findingType) :
    (∀ x, (inj x).findingType ≠ FindingType.misconfiguration) → misconfRecords l = 0 := by
  intro hk
  unfold misconfRecords
  rw [List.countP_eq_zero]
  intro mf hmf
  obtain ⟨x, hx⟩ := h mf hmf
  simp [hx, hk x]

theorem ignoreRecords_kind {α : Type} (inj : α → Finding)
    (m : Finding → String → Option String) (target file : String) (xs : List α) :
    ∀ mf ∈ ignoreRecords inj m target file xs, ∃ x, mf.Typ = (inj x).findingType := by
  intro mf hmf
  obtain ⟨x, _, st, e⟩ := ignoreRecords_mem inj m target file xs mf hmf
  exact ⟨x, by rw [e]; rfl⟩

theorem policyPass_kind {α : Type} (inj : α → Finding) (eval : Finding → Except String Bool)
    (source : String) (xs : List α) (out : List α × List ModifiedFinding)
    (h : policyPass inj eval source xs = Except.ok out) :
    ∀ mf ∈ out.2, ∃ x, mf.Typ = (inj x).findingType := by
  intro mf hmf
  obtain ⟨x, _, e⟩ := (policyPass_ok inj eval source xs out h).2.2 mf hmf
  exact ⟨x, by rw [e]; rfl⟩

/-- The weight that the suppression phases after the severity gate preserve:
the misconfigurations still present plus the records of type misconfiguration. -/
theorem ignorePhase_weight (d : Documents) (opt : FilterOption) (r : Result) :
    (ignorePhase d opt r).Misconfigurations.length
        + misconfRecords (ignorePhase d opt r).ModifiedFindings
      = r.Misconfigurations.length + misconfRecords r.ModifiedFindings := by
  unfold ignorePhase
  by_cases h : opt.IgnoreFile = ""
  · simp only [h, if_true]
  · simp only [h, if_false, misconfRecords_append]
    rw [misconfRecords_of_other Finding.vuln _ (ignoreRecords_kind _ _ _ _ _)
        (fun x => by simp [Finding.findingType]),
      misconfRecords_of_kind Finding.misconf _ (ignoreRecords_kind _ _ _ _ _)
        (fun x => by simp [Finding.findingType]),
      misconfRecords_of_other Finding.secret _ (ignoreRecords_kind _ _ _ _ _)
        (fun x => by simp [Finding.findingType]),
      misconfRecords_of_other Finding.license _ (ignoreRecords_kind _ _ _ _ _)
        (fun x => by simp [Finding.findingType])]
    have := ignore_length_split Finding.misconf d.ignoreMatch r.Target opt.IgnoreFile
      r.Misconfigurations
    omega

theorem policyPhase_weight (d : Documents) (opt : FilterOption) (r s : Result)
    (h : policyPhase d opt r = Except.ok s) :
    s.Misconfigurations.length + misconfRecords s.ModifiedFindings
      = r.Misconfigurations.length + misconfRecords r.ModifiedFindings := by
  rcases policyPhase_ok d opt r s h with ⟨_, hs⟩ | ⟨_, pv, pm, ps, pl, hv, hm, hsec, hl, hs⟩
  · rw [hs]
  · rw [hs]
    simp only [misconfRecords_append]
    rw [misconfRecords_of_other Finding.vuln _ (policyPass_kind _ _ _ _ _ hv)
        (fun x => by simp [Finding.findingType]),
      misconfRecords_of_kind Finding.misconf _ (policyPass_kind _ _ _ _ _ hm)
        (fun x => by simp [Finding.findingType]),
      misconfRecords_of_other Finding.secret _ (policyPass_kind _ _ _ _ _ hsec)
        (fun x => by simp [Finding.findingType]),
      misconfRecords_of_other Finding.license _ (policyPass_kind _ _ _ _ _ hl)
        (fun x => by simp [Finding.findingType])]
    have := (policyPass_ok _ _ _ _ _ hm).2.1
    omega

theorem record_typ (ps : PackageURL → String) (v : OpenVEX) (vuln : DetectedVulnerability)
    (mf : ModifiedFinding) (h : OpenVEX.record ps v vuln = some mf) :
    mf.Typ = FindingType.vulnerability := by
  cases hp : vuln.PkgIdentifier.PURL with
  | none => simp [record_none_of_no_purl ps v vuln hp] at h
  | some purl =>
    obtain ⟨_, _, hmk⟩ := (record_eq_some_iff ps v vuln purl hp mf).mp h
    rw [hmk]
    rfl

theorem vexPhase_misconfigurations (d : Documents) (opt : FilterOption) (r : Result) :
    (vexPhase d opt r).Misconfigurations = r.Misconfigurations ∧
    misconfRecords (vexPhase d opt r).ModifiedFindings = misconfRecords r.ModifiedFindings := by
  unfold vexPhase
  by_cases h : opt.VEXPath = ""
  · simp only [h, if_true, and_self]
  · simp only [h, if_false]
    refine ⟨rfl, ?_⟩
    rw [filter_modified, misconfRecords_append]
    have : misconfRecords (r.Vulnerabilities.filterMap (OpenVEX.record d.purlString d.vex)) = 0 := by
      unfold misconfRecords
      rw [List.countP_eq_zero]
      intro mf hmf
      obtain ⟨x, _, hx⟩ := List.mem_filterMap.mp hmf
      simp [record_typ _ _ _ _ hx]
    omega

theorem severityPhase_misconfigurations (opt : FilterOption) (r : Result) :
    (severityPhase opt r).Misconfigurations.length = countGated opt.Severities r.Misconfigurations ∧
    (severityPhase opt r).ModifiedFindings = r.ModifiedFindings ∧
    ∀ m ∈ (severityPhase opt r).Misconfigurations, ∃ m0 ∈ r.Misconfigurations,
      m.Status = m0.Status := by
  refine ⟨?_, rfl, ?_⟩
  · simp only [severityPhase, countGated]
    rw [← List.countP_eq_length_filter, List.countP_map]
    rfl
  · intro m hm
    simp only [severityPhase, List.mem_filter, List.mem_map] at hm
    obtain ⟨⟨m0, hm0, e⟩, _⟩ := hm
    exact ⟨m0, hm0, by rw [← e]⟩

theorem suppress_weight (d : Documents) (opt : FilterOption) (r s : Result)
    (h : suppress d opt r = Except.ok s) :
    s.Misconfigurations.length + misconfRecords s.ModifiedFindings
      = countGated opt.Severities r.Misconfigurations + misconfRecords r.ModifiedFindings := by
  unfold suppress at h
  rw [policyPhase_weight d opt _ s h]
  have h1 : (statusPhase opt (ignorePhase d opt (severityPhase opt (vexPhase d opt r)))).Misconfigurations
      = (ignorePhase d opt (severityPhase opt (vexPhase d opt r))).Misconfigurations := rfl
  have h2 : (statusPhase opt (ignorePhase d opt (severityPhase opt (vexPhase d opt r)))).ModifiedFindings
      = (ignorePhase d opt (severityPhase opt (vexPhase d opt r))).ModifiedFindings := rfl
  rw [h1, h2, ignorePhase_weight]
  obtain ⟨g1, g2, _⟩ := severityPhase_misconfigurations opt (vexPhase d opt r)
  obtain ⟨v1, v2⟩ := vexPhase_misconfigurations d opt r
  rw [g1, g2, v1, v2]

theorem suppress_status (d : Documents) (opt : FilterOption) (r s : Result)
    (h : suppress d opt r = Except.ok s) :
    ∀ m ∈ s.Misconfigurations, ∃ m0 ∈ r.Misconfigurations, m.Status = m0.Status := by
  intro m hm
  have hw := (suppress_within d opt r s h).2.1
  obtain ⟨m0, hm0, e⟩ :=
    (severityPhase_misconfigurations opt (vexPhase d opt r)).2.2 m (hw.subset hm)
  rw [(vexPhase_misconfigurations d opt r).1] at hm0
  exact ⟨m0, hm0, e⟩

theorem finish_summary (opt : FilterOption) (r s : Result) (h : r.Misconfigurations ≠ []) :
    (finish opt r s).MisconfSummary = some (summarize s.Misconfigurations s.ModifiedFindings) := by
  cases hr : r.Misconfigurations with
  | nil => exact absurd hr h
  | cons m ms => simp [finish, orderPhase, summaryPhase, dedupPhase, hr]

theorem finish_misconfigurations (opt : FilterOption) (r s : Result) :
    (finish opt r s).Misconfigurations =
      sortBy misconfLess (if opt.IncludeNonFailures then s.Misconfigurations
        else s.Misconfigurations.filter fun m => decide (m.Status = MisconfStatus.failure)) :=
  rfl

theorem countStatus_sortBy (status : MisconfStatus) (ms : List DetectedMisconfiguration) :
    countStatus status (sortBy misconfLess ms) = countStatus status ms :=
  (sortBy_perm misconfLess ms).countP_eq _

theorem countStatus_failures_only (status : MisconfStatus) (ms : List DetectedMisconfiguration) :
    countStatus status (ms.filter fun m => decide (m.Status = MisconfStatus.failure)) =
      if status = MisconfStatus.failure then countStatus status ms else 0 := by
  unfold countStatus
  rw [List.countP_filter]
  split
  · rename_i hs
    subst hs
    congr 1
    funext m
    simp
  · rename_i hs
    rw [List.countP_eq_zero]
    intro m _
    simp only [Bool.and_eq_true, decide_eq_true_eq, not_and]
    intro h1 h2
    exact hs (h1.symm.trans h2)

theorem countStatus_total (ms : List DetectedMisconfiguration) :
    countStatus MisconfStatus.failure ms + countStatus MisconfStatus.passed ms
      + countStatus MisconfStatus.exception ms = ms.length := by
  induction ms with
  | nil => rfl
  | cons m ms ih =>
    simp only [countStatus, List.countP_cons, List.length_cons] at ih ⊢
    cases hm : m.Status <;> simp <;> omega

/-- Counterexample to C9 as stated: on the input of the case "policy file for
misconfigurations" the filter returns the result that `TestFilter` expects,
whose summary has `Successes = 1` while the returned list of misconfigurations
holds no passed one. -/
theorem filter_successes_not_counted_in_returned_list :
    Filter policyDocuments policyOptions { Results := [policyInput] }
      = Except.ok { Results := [policyOutput] } ∧
    policyInput.Misconfigurations ≠ [] ∧
    ∃ summary, policyOutput.MisconfSummary = some summary ∧
      summary.Successes = 1 ∧
      countStatus MisconfStatus.passed policyOutput.Misconfigurations = 0 :=
  ⟨by decide, by decide, _, rfl, rfl, by decide⟩

/-- C9 as amended: after `Filter` returns, every result that had
misconfigurations has a summary in which `Failures` is the number of
misconfigurations of the returned list with status failure, `Exceptions` is the
number of modified findings of type misconfiguration, and `Successes` is the
number of passed misconfigurations that survived the suppression phases,
counted before the non-failures leave the returned list: it is the number of
passed misconfigurations of the returned list when `IncludeNonFailures` is set,
and otherwise the returned list holds no passed misconfiguration at all. -/
theorem filter_summary_recomputed (d : Documents) (opt : FilterOption)
    (report report2 : Report) (h : Filter d opt report = Except.ok report2) :
    List.Forall₂ (fun r r2 => r.Misconfigurations ≠ [] →
      ∃ s summary, suppress d opt r = Except.ok s ∧ r2.MisconfSummary = some summary ∧
        summary.Failures = countStatus MisconfStatus.failure r2.Misconfigurations ∧
        summary.Exceptions = misconfRecords r2.ModifiedFindings ∧
        summary.Successes = countStatus MisconfStatus.passed s.Misconfigurations ∧
        (opt.IncludeNonFailures = true →
          summary.Successes = countStatus MisconfStatus.passed r2.Misconfigurations) ∧
        (opt.IncludeNonFailures = false →
          countStatus MisconfStatus.passed r2.Misconfigurations = 0))
      report.Results report2.Results := by
  refine (Filter_ok d opt report report2 h).imp ?_
  intro r r2 hr hne
  obtain ⟨s, hs, hfin⟩ := FilterResult_ok d opt r r2 hr
  subst hfin
  refine ⟨s, _, hs, finish_summary opt r s hne, ?_, rfl, rfl, ?_, ?_⟩
  · rw [finish_misconfigurations, countStatus_sortBy]
    cases hi : opt.IncludeNonFailures
    · simp only [Bool.false_eq_true, if_false]
      rw [countStatus_failures_only]
      simp [summarize, countStatus]
    · simp [summarize, countStatus]
  · intro hi
    rw [finish_misconfigurations, countStatus_sortBy]
    simp [hi, summarize, countStatus]
  · intro hi
    rw [finish_misconfigurations, countStatus_sortBy]
    simp only [hi, Bool.false_eq_true, if_false]
    rw [countStatus_failures_only]
    simp

/-- Example for the amended C9: the case "policy file for misconfigurations":
the expected summary `{1, 1, 1}` has one failure in the returned list and one
record of type misconfiguration. -/
theorem filter_summary_recomputed_witness :
    Filter policyDocuments policyOptions { Results := [policyInput] }
      = Except.ok { Results := [policyOutput] } ∧
    policyInput.Misconfigurations ≠ [] ∧
    ∃ summary, policyOutput.MisconfSummary = some summary ∧
      summary.Failures = countStatus MisconfStatus.failure policyOutput.Misconfigurations ∧
      summary.Exceptions = misconfRecords policyOutput.ModifiedFindings ∧
      countStatus MisconfStatus.passed policyOutput.Misconfigurations = 0 := by
  have hF := filter_summary_recomputed policyDocuments policyOptions
    { Results := [policyInput] } { Results := [policyOutput] } (by decide)
  obtain ⟨_, summary, _, h1, h2, h3, _, _, h6⟩ := (List.forall₂_cons.mp hF).1 (by decide)
  exact ⟨by decide, by decide, summary, h1, h2, h3, h6 rfl⟩

theorem suppress_summary (d : Documents) (opt : FilterOption) (r s : Result)
    (h : suppress d opt r = Except.ok s) : s.MisconfSummary = r.MisconfSummary := by
  unfold suppress at h
  have hv : (vexPhase d opt r).MisconfSummary = r.MisconfSummary := by
    unfold vexPhase
    split <;> rfl
  have hi : (ignorePhase d opt (severityPhase opt (vexPhase d opt r))).MisconfSummary
      = (severityPhase opt (vexPhase d opt r)).MisconfSummary := by
    unfold ignorePhase
    split <;> rfl
  have hp : (statusPhase opt (ignorePhase d opt (severityPhase opt (vexPhase d opt r)))).MisconfSummary
      = r.MisconfSummary := by
    show (ignorePhase d opt (severityPhase opt (vexPhase d opt r))).MisconfSummary = _
    rw [hi]
    exact hv
  rcases policyPhase_ok d opt _ s h with ⟨_, hs⟩ | ⟨_, pv, pm, ps, pl, _, _, _, _, hs⟩
  · rw [hs]
    exact hp
  · rw [hs]
    exact hp

theorem finish_summary_kept (opt : FilterOption) (r s : Result) (h : r.Misconfigurations = []) :
    (finish opt r s).MisconfSummary = s.MisconfSummary := by
  simp [finish, orderPhase, summaryPhase, dedupPhase, h]

/-- Counterexample to C10 as stated: on the input of the case "severities" the
filter returns the result that `TestFilter` expects; two misconfigurations
entered the filter, and the three counters of the summary add up to one: the
passed misconfiguration of severity LOW, dropped by the severity gate, is not
counted as a success. -/
theorem filter_summary_skips_gated_misconfigurations :
    Filter exampleDocuments severitiesOptions { Results := [severitiesInput] }
      = Except.ok { Results := [severitiesOutput] } ∧
    severitiesInput.Misconfigurations.length = 2 ∧
    ∃ summary, severitiesOutput.MisconfSummary = some summary ∧
      summary.Failures + summary.Successes + summary.Exceptions = 1 :=
  ⟨by decide, rfl, _, rfl, rfl⟩

/-- Two inputs of the model beside the severity gate: a misconfiguration of
status exception that passes the gate is counted in no counter (section 4.8
counts failures, passed ones and records), and `Exceptions` counts every
modified finding of type misconfiguration, also one the result held before the
call. -/
theorem summary_terms_beside_the_gate :
    Filter exampleDocuments severitiesOptions
        { Results := [{ emptyResult with
            Misconfigurations := [{ misconf1 with Status := MisconfStatus.exception }] }] }
      = Except.ok { Results := [{ emptyResult with
          MisconfSummary := some { Successes := 0, Failures := 0, Exceptions := 0 } }] } ∧
    Filter exampleDocuments severitiesOptions
        { Results := [{ emptyResult with
            Misconfigurations := [misconf1]
            ModifiedFindings := [ignoredRecord (Finding.misconf misconf3)] }] }
      = Except.ok { Results := [{ emptyResult with
          Misconfigurations := [misconf1]
          MisconfSummary := some { Successes := 0, Failures := 1, Exceptions := 1 }
          ModifiedFindings := [ignoredRecord (Finding.misconf misconf3)] }] } :=
  ⟨by decide, by decide⟩

/-- C10 as amended: after `Filter` returns, for every result that had
misconfigurations the sum `Failures + Successes + Exceptions`, together with
the number of misconfigurations of status exception that survived the
suppression phases (no counter counts them; with `IncludeNonFailures` they are
those of the returned list), equals the number of misconfigurations that pass
the severity gate (normalised severity in `options.Severities`) plus the number
of modified findings of type misconfiguration the result held before the call.
Those the gate drops, passed ones included, are counted nowhere. So when no
misconfiguration of the input has the status exception and the result held no
such record, the sum is the number of misconfigurations that pass the gate. A
result without misconfigurations keeps the summary it had. -/
theorem filter_summary_total (d : Documents) (opt : FilterOption)
    (report report2 : Report) (h : Filter d opt report = Except.ok report2) :
    List.Forall₂ (fun r r2 =>
      (r.Misconfigurations = [] → r2.MisconfSummary = r.MisconfSummary) ∧
      (r.Misconfigurations ≠ [] →
        ∃ s summary, suppress d opt r = Except.ok s ∧ r2.MisconfSummary = some summary ∧
          summary.Failures + summary.Successes + summary.Exceptions
              + countStatus MisconfStatus.exception s.Misconfigurations
            = countGated opt.Severities r.Misconfigurations
              + misconfRecords r.ModifiedFindings ∧
          (opt.IncludeNonFailures = true →
            countStatus MisconfStatus.exception s.Misconfigurations
              = countStatus MisconfStatus.exception r2.Misconfigurations) ∧
          ((∀ m ∈ r.Misconfigurations, m.Status ≠ MisconfStatus.exception) →
            (∀ f ∈ r.ModifiedFindings, f.Typ ≠ FindingType.misconfiguration) →
            summary.Failures + summary.Successes + summary.Exceptions
              = countGated opt.Severities r.Misconfigurations)))
      report.Results report2.Results := by
  refine (Filter_ok d opt report report2 h).imp ?_
  intro r r2 hr
  obtain ⟨s, hs, hfin⟩ := FilterResult_ok d opt r r2 hr
  subst hfin
  constructor
  · intro hnil
    rw [finish_summary_kept opt r s hnil]
    exact suppress_summary d opt r s hs
  · intro hne
    have hw := suppress_weight d opt r s hs
    have ht := countStatus_total s.Misconfigurations
    have hsum : (summarize s.Misconfigurations s.ModifiedFindings).Failures
          + (summarize s.Misconfigurations s.ModifiedFindings).Successes
          + (summarize s.Misconfigurations s.ModifiedFindings).Exceptions
          + countStatus MisconfStatus.exception s.Misconfigurations
        = countGated opt.Severities r.Misconfigurations
          + misconfRecords r.ModifiedFindings := by
      simp only [summarize]
      simp only [countStatus, misconfRecords] at ht hw ⊢
      omega
    refine ⟨s, _, hs, finish_summary opt r s hne, hsum, ?_, ?_⟩
    · intro hi
      rw [finish_misconfigurations, countStatus_sortBy]
      simp [hi]
    · intro hst hmf
      have h0 : countStatus MisconfStatus.exception s.Misconfigurations = 0 := by
        unfold countStatus
        rw [List.countP_eq_zero]
        intro m hm
        obtain ⟨m0, hm0, e⟩ := suppress_status d opt r s hs m hm
        simp only [decide_eq_true_eq]
        rw [e]
        exact hst m0 hm0
      have h1 : misconfRecords r.ModifiedFindings = 0 := by
        unfold misconfRecords
        rw [List.countP_eq_zero]
        intro f hf
        simp only [decide_eq_true_eq]
        exact hmf f hf
      omega

/-- Example for the amended C10: the case "severities": of the two
misconfigurations one passes the gate, none has the status exception, the
result held no record, and the counters add up to one. -/
theorem filter_summary_total_witness :
    Filter exampleDocuments severitiesOptions { Results := [severitiesInput] }
      = Except.ok { Results := [severitiesOutput] } ∧
    severitiesInput.Misconfigurations ≠ [] ∧
    countGated [Severity.Critical, Severity.High] severitiesInput.Misconfigurations = 1 ∧
    ∃ summary, severitiesOutput.MisconfSummary = some summary ∧
      summary.Failures + summary.Successes + summary.Exceptions
        = countGated [Severity.Critical, Severity.High] severitiesInput.Misconfigurations := by
  have hF := filter_summary_total exampleDocuments severitiesOptions
    { Results := [severitiesInput] } { Results := [severitiesOutput] } (by decide)
  obtain ⟨_, summary, _, h1, _, _, h4⟩ := (List.forall₂_cons.mp hF).1.2 (by decide)
  exact ⟨by decide, by decide, by decide, summary, h1, h4 (by decide) (by decide)⟩

/-! ## Theorems: `OpenVEX.Filter`, continued -/

theorem record_isNone_congr (ps : PackageURL → String) (v : OpenVEX)
    (v1 v2 : DetectedVulnerability) (hid : v1.VulnerabilityID = v2.VulnerabilityID)
    (hp : v1.PkgIdentifier.PURL.map ps = v2.PkgIdentifier.PURL.map ps) :
    (OpenVEX.record ps v v1).isNone = (OpenVEX.record ps v v2).isNone := by
  unfold OpenVEX.record OpenVEX.deciding
  cases h1 : v1.PkgIdentifier.PURL with
  | none =>
    cases h2 : v2.PkgIdentifier.PURL with
    | none => rfl
    | some p2 => simp [h1, h2] at hp
  | some p1 =>
    cases h2 : v2.PkgIdentifier.PURL with
    | none => simp [h1, h2] at hp
    | some p2 =>
      simp only [h1, h2, Option.map_some', Option.some.injEq] at hp
      simp only [hid, hp]
      cases (v.vex.Matches v2.VulnerabilityID (ps p2) []).getLast? with
      | none => rfl
      | some stmt =>
        simp only
        split <;> rfl

theorem mem_filter_iff_record (ps : PackageURL → String) (v : OpenVEX) (result : Result)
    (x : DetectedVulnerability) (hx : x ∈ result.Vulnerabilities) :
    x ∈ (v.Filter ps result).Vulnerabilities ↔ OpenVEX.record ps v x = none := by
  rw [filter_vulns, List.mem_filter]
  simp [hx]

theorem filterMap_record_findings (ps : PackageURL → String) (v : OpenVEX) :
    ∀ vs : List DetectedVulnerability,
      (vs.filterMap (OpenVEX.record ps v)).map (fun mf => mf.Finding) =
        (vs.filter (fun x => (OpenVEX.record ps v x).isSome)).map Finding.vuln := by
  intro vs
  induction vs with
  | nil => rfl
  | cons x xs ih =>
    cases hr : OpenVEX.record ps v x with
    | none => simp [List.filterMap_cons, List.filter_cons, hr, ih]
    | some mf =>
      simp [List.filterMap_cons, List.filter_cons, hr, ih, record_finding ps v x mf hr]

/-- C14: for a result that enters `OpenVEX.Filter` without modified findings,
no vulnerability kept by the call is the finding of a modified finding of the
result after the call. -/
theorem openvex_filter_kept_not_modified (ps : PackageURL → String) (v : OpenVEX)
    (result : Result) (hempty : result.ModifiedFindings = []) :
    ∀ x ∈ (v.Filter ps result).Vulnerabilities,
      ∀ mf ∈ (v.Filter ps result).ModifiedFindings, mf.Finding ≠ Finding.vuln x := by
  intro x hx mf hmf heq
  rw [filter_modified, hempty, List.nil_append, List.mem_filterMap] at hmf
  obtain ⟨w, _, hw⟩ := hmf
  have hf := record_finding ps v w mf hw
  rw [heq, Finding.vuln.injEq] at hf
  subst hf
  rw [filter_vulns, List.mem_filter] at hx
  simp [hw] at hx

/-- Example for C14: after the filter on the example result, the record of the
removed vulnerability is the only modified finding, and it names none of the
two vulnerabilities kept. -/
theorem openvex_filter_kept_not_modified_witness :
    vexResult.ModifiedFindings = [] ∧
    (exampleOpenVEX.Filter examplePurlString vexResult).Vulnerabilities = [otherVuln, bareVuln] ∧
    ∀ mf ∈ (exampleOpenVEX.Filter examplePurlString vexResult).ModifiedFindings,
      mf.Finding ≠ Finding.vuln otherVuln ∧ mf.Finding ≠ Finding.vuln bareVuln :=
  ⟨rfl, by decide, fun mf hmf =>
    ⟨openvex_filter_kept_not_modified examplePurlString exampleOpenVEX vexResult rfl otherVuln
        (by decide) mf hmf,
      openvex_filter_kept_not_modified examplePurlString exampleOpenVEX vexResult rfl bareVuln
        (by decide) mf hmf⟩⟩

/-- C16: `OpenVEX.Filter` partitions the input vulnerabilities in order: the
vulnerabilities after the call are the input ones that were kept, in their
order; the findings of the appended modified findings are the input ones that
were removed, in their order; so nothing is there that was not in the input. -/
theorem openvex_filter_partitions (ps : PackageURL → String) (v : OpenVEX) (result : Result) :
    (v.Filter ps result).Vulnerabilities.Sublist result.Vulnerabilities ∧
    (v.Filter ps result).Vulnerabilities =
      result.Vulnerabilities.filter
        (fun x => decide (x ∈ (v.Filter ps result).Vulnerabilities)) ∧
    ((v.Filter ps result).ModifiedFindings.drop result.ModifiedFindings.length).map
        (fun mf => mf.Finding) =
      (result.Vulnerabilities.filter
        (fun x => decide (x ∉ (v.Filter ps result).Vulnerabilities))).map Finding.vuln := by
  refine ⟨?_, ?_, ?_⟩
  · rw [filter_vulns]
    exact List.filter_sublist _
  · conv_lhs => rw [filter_vulns]
    apply List.filter_congr
    intro x hx
    have h := mem_filter_iff_record ps v result x hx
    cases hr : OpenVEX.record ps v x with
    | none => simp [h.mpr hr]
    | some mf =>
      have : x ∉ (v.Filter ps result).Vulnerabilities := fun hin => by
        rw [h.mp hin] at hr
        cases hr
      simp [this]
  · rw [filter_appended, filterMap_record_findings]
    congr 1
    apply List.filter_congr
    intro x hx
    have h := mem_filter_iff_record ps v result x hx
    cases hr : OpenVEX.record ps v x with
    | none => simp [h.mpr hr]
    | some mf =>
      have : x ∉ (v.Filter ps result).Vulnerabilities := fun hin => by
        rw [h.mp hin] at hr
        cases hr
      simp [this]

/-- C17: `findingStatus` maps not_affected, fixed and under_investigation to
the finding status of the same name and every other string, such as affected
or an unrecognised one, to unknown; it never returns affected (nor ignored). -/
theorem findingStatus_total (status : openvex.Status) :
    findingStatus openvex.StatusNotAffected = FindingStatus.not_affected ∧
    findingStatus openvex.StatusFixed = FindingStatus.fixed ∧
    findingStatus openvex.StatusUnderInvestigation = FindingStatus.under_investigation ∧
    findingStatus openvex.StatusAffected = FindingStatus.unknown ∧
    (status ≠ "not_affected" → status ≠ "fixed" → status ≠ "under_investigation" →
      findingStatus status = FindingStatus.unknown) ∧
    (findingStatus status = FindingStatus.not_affected ↔ status = "not_affected") ∧
    (findingStatus status = FindingStatus.fixed ↔ status = "fixed") ∧
    (findingStatus status = FindingStatus.under_investigation ↔
      status = "under_investigation") ∧
    findingStatus status ≠ FindingStatus.affected ∧
    findingStatus status ≠ FindingStatus.ignored := by
  refine ⟨by decide, by decide, by decide, by decide, ?_, ?_, ?_, ?_, ?_, ?_⟩ <;>
    simp only [findingStatus, openvex.StatusNotAffected, openvex.StatusFixed,
      openvex.StatusUnderInvestigation]
  · intro h1 h2 h3
    simp [h1, h2, h3]
  all_goals
    by_cases h1 : status = "not_affected"
    · subst h1; decide
    · by_cases h2 : status = "fixed"
      · subst h2; decide
      · by_cases h3 : status = "under_investigation"
        · subst h3; decide
        · simp [h1, h2, h3]

/-- Example for C17: an unrecognised status is mapped to unknown. -/
theorem findingStatus_total_witness :
    ("withdrawn" : String) ≠ "not_affected" ∧ ("withdrawn" : String) ≠ "fixed" ∧
    ("withdrawn" : String) ≠ "under_investigation" ∧
    findingStatus "withdrawn" = FindingStatus.unknown :=
  ⟨by decide, by decide, by decide,
    (findingStatus_total "withdrawn").2.2.2.2.1 (by decide) (by decide) (by decide)⟩

/-- C18: `OpenVEX.Filter` changes only `Vulnerabilities` and
`ModifiedFindings`: the result after the call is the result before it with
these two fields replaced, the modified findings present before the call are
the first entries of the list after it, unchanged, and `Target`, `Class`,
`Misconfigurations`, `Secrets`, `Licenses` and `MisconfSummary` are unchanged. -/
theorem openvex_filter_frame (ps : PackageURL → String) (v : OpenVEX) (result : Result) :
    v.Filter ps result =
      { result with
        Vulnerabilities := (v.Filter ps result).Vulnerabilities
        ModifiedFindings := (v.Filter ps result).ModifiedFindings } ∧
    (∃ appended, (v.Filter ps result).ModifiedFindings = result.ModifiedFindings ++ appended) ∧
    (v.Filter ps result).ModifiedFindings.take result.ModifiedFindings.length
      = result.ModifiedFindings ∧
    (v.Filter ps result).Target = result.Target ∧
    (v.Filter ps result).Class = result.Class ∧
    (v.Filter ps result).Misconfigurations = result.Misconfigurations ∧
    (v.Filter ps result).Secrets = result.Secrets ∧
    (v.Filter ps result).Licenses = result.Licenses ∧
    (v.Filter ps result).MisconfSummary = result.MisconfSummary := by
  refine ⟨rfl, ⟨_, filter_modified ps v result⟩, ?_, rfl, rfl, rfl, rfl, rfl, rfl⟩
  rw [filter_modified, List.take_left]

/-- C19: two vulnerabilities with the same `VulnerabilityID` and the same
string form of the PURL (or both without a PURL) are both kept or both removed
by `OpenVEX.Filter` with the same document, in whatever results and at whatever
positions they stand and whatever their other fields are. -/
theorem openvex_filter_decision_depends_on_id_and_purl (ps : PackageURL → String)
    (v : OpenVEX) (result1 result2 : Result) (v1 v2 : DetectedVulnerability)
    (h1 : v1 ∈ result1.Vulnerabilities) (h2 : v2 ∈ result2.Vulnerabilities)
    (hid : v1.VulnerabilityID = v2.VulnerabilityID)
    (hp : v1.PkgIdentifier.PURL.map ps = v2.PkgIdentifier.PURL.map ps) :
    v1 ∈ (v.Filter ps result1).Vulnerabilities ↔ v2 ∈ (v.Filter ps result2).Vulnerabilities := by
  rw [mem_filter_iff_record ps v result1 v1 h1, mem_filter_iff_record ps v result2 v2 h2,
    ← Option.isNone_iff_eq_none, ← Option.isNone_iff_eq_none,
    record_isNone_congr ps v v1 v2 hid hp]

/-- Example for C19: a vulnerability that shares ID and PURL with the first
example vulnerability and differs in severity, fixed version, package path,
BOM-ref and position is removed like it. -/
theorem openvex_filter_decision_depends_on_id_and_purl_witness :
    log4shell ∈ vexResult.Vulnerabilities ∧
    log4shellVariant ∈ [bareVuln, otherVuln, log4shellVariant] ∧
    log4shell.VulnerabilityID = log4shellVariant.VulnerabilityID ∧
    log4shell.PkgIdentifier.PURL.map examplePurlString
      = log4shellVariant.PkgIdentifier.PURL.map examplePurlString ∧
    log4shell ≠ log4shellVariant ∧
    log4shell ∉ (exampleOpenVEX.Filter examplePurlString vexResult).Vulnerabilities ∧
    log4shellVariant ∉ (exampleOpenVEX.Filter examplePurlString
      { emptyResult with Vulnerabilities := [bareVuln, otherVuln, log4shellVariant] }).Vulnerabilities :=
  ⟨by decide, by decide, rfl, rfl, by decide, by decide, fun h =>
    (by decide : log4shell ∉ (exampleOpenVEX.Filter examplePurlString vexResult).Vulnerabilities)
      ((openvex_filter_decision_depends_on_id_and_purl examplePurlString exampleOpenVEX vexResult
        { emptyResult with Vulnerabilities := [bareVuln, otherVuln, log4shellVariant] }
        log4shell log4shellVariant (by decide) (by decide) rfl rfl).mpr h)⟩

/-! ## Theorems: the SAM simple tables -/

theorem foldl_append_singleton {α β : Type} (f : α → β) :
    ∀ (xs : List α) (acc : List β),
      xs.foldl (fun tables r => tables ++ [f r]) acc = acc ++ xs.map f := by
  intro xs
  induction xs with
  | nil => intro acc; simp
  | cons x xs ih =>
    intro acc
    simp only [List.foldl_cons, ih, List.map_cons, List.append_assoc, List.singleton_append]

/-- C20: without an `SSESpecification` property `getSSESpecification` returns
`Enabled = false` and `KMSMasterKeyID = ""`, both default values carrying the
metadata of the resource, under the metadata of the resource; with the
property it returns the property's `SSEEnabled` and `KMSMasterKeyID` values
under the metadata of the property; and `getSimpleTables` returns one table
per resource the query for `AWS::Serverless::SimpleTable` returns, in the
order of the query, built from that resource. -/
theorem sam_tables_defaults (cfFile : parser2.FileContext) (r : parser2.Resource) :
    ((r.GetProperty "SSESpecification").IsNotNil = false →
      (sam.getSSESpecification r).Enabled = defsecTypes.BoolDefault false r.Metadata ∧
      (sam.getSSESpecification r).Enabled.value = false ∧
      (sam.getSSESpecification r).Enabled.metadata = r.Metadata ∧
      (sam.getSSESpecification r).KMSMasterKeyID = defsecTypes.StringDefault "" r.Metadata ∧
      (sam.getSSESpecification r).KMSMasterKeyID.value = "" ∧
      (sam.getSSESpecification r).KMSMasterKeyID.metadata = r.Metadata ∧
      (sam.getSSESpecification r).Metadata = r.Metadata) ∧
    ((r.GetProperty "SSESpecification").IsNotNil = true →
      (sam.getSSESpecification r).Enabled
        = (r.GetProperty "SSESpecification").GetBoolProperty "SSEEnabled" ∧
      (sam.getSSESpecification r).KMSMasterKeyID
        = (r.GetProperty "SSESpecification").GetStringProperty "KMSMasterKeyID" ∧
      (sam.getSSESpecification r).Metadata = (r.GetProperty "SSESpecification").Metadata) ∧
    sam.getSimpleTables cfFile =
      (cfFile.GetResourcesByType ["AWS::Serverless::SimpleTable"]).map (fun res =>
        { Metadata := res.Metadata
          TableName := res.GetStringProperty "TableName"
          SSESpecification := sam.getSSESpecification res }) ∧
    (sam.getSimpleTables cfFile).length =
      (cfFile.GetResourcesByType ["AWS::Serverless::SimpleTable"]).length := by
  have hmap : sam.getSimpleTables cfFile =
      (cfFile.GetResourcesByType ["AWS::Serverless::SimpleTable"]).map (fun res =>
        { Metadata := res.Metadata
          TableName := res.GetStringProperty "TableName"
          SSESpecification := sam.getSSESpecification res }) := by
    unfold sam.getSimpleTables
    simp only [foldl_append_singleton, List.nil_append]
  refine ⟨?_, ?_, hmap, ?_⟩
  · intro h
    simp [sam.getSSESpecification, h, defsecTypes.BoolDefault, defsecTypes.StringDefault]
  · intro h
    simp [sam.getSSESpecification, h]
  · rw [hmap, List.length_map]

/-- Example for C20: the table without `SSESpecification` gets encryption
disabled under its own metadata, the other one the values of its property, and
the file yields the two tables in order. -/
theorem sam_tables_defaults_witness :
    (plainTable.GetProperty "SSESpecification").IsNotNil = false ∧
    (encryptedTable.GetProperty "SSESpecification").IsNotNil = true ∧
    (sam.getSSESpecification plainTable).Enabled.value = false ∧
    (sam.getSSESpecification plainTable).Metadata = plainTable.Metadata ∧
    (sam.getSSESpecification encryptedTable).Enabled.value = true ∧
    (sam.getSSESpecification encryptedTable).KMSMasterKeyID.value = "alias/key" ∧
    (sam.getSimpleTables tablesFile).map (fun t => t.Metadata.Reference) = ["Table1", "Table2"] :=
  ⟨rfl, rfl,
    ((sam_tables_defaults tablesFile plainTable).1 rfl).2.1,
    ((sam_tables_defaults tablesFile plainTable).1 rfl).2.2.2.2.2.2,
    by rw [((sam_tables_defaults tablesFile encryptedTable).2.1 rfl).1]; rfl,
    by rw [((sam_tables_defaults tablesFile encryptedTable).2.1 rfl).2.1]; rfl,
    by rw [(sam_tables_defaults tablesFile plainTable).2.2.1]; rfl⟩

/-! ## Theorems: the policy filter -/

theorem policyPass_filter {α : Type} (inj : α → Finding) (eval : Finding → Except String Bool)
    (source : String) :
    ∀ (xs : List α) (out : List α × List ModifiedFinding),
      policyPass inj eval source xs = Except.ok out →
      out.1 = xs.filter (fun x => decide (eval (inj x) = Except.ok false)) ∧
      out.2 = (xs.filter (fun x => decide (eval (inj x) = Except.ok true))).map
        (fun x => policyRecord source (inj x)) ∧
      ∀ x ∈ xs, eval (inj x) = Except.ok false ∨ eval (inj x) = Except.ok true := by
  intro xs
  induction xs with
  | nil =>
    intro out h
    simp only [policyPass, Except.ok.injEq] at h
    subst h
    simp
  | cons x xs ih =>
    intro out h
    simp only [policyPass] at h
    cases he : eval (inj x) with
    | error e => simp [he] at h
    | ok ignored =>
      simp only [he] at h
      cases hr : policyPass inj eval source xs with
      | error e => simp [hr] at h
      | ok rest =>
        simp only [hr] at h
        obtain ⟨h1, h2, h3⟩ := ih rest hr
        cases ignored with
        | true =>
          simp only [if_true, Except.ok.injEq] at h
          subst h
          refine ⟨?_, ?_, ?_⟩
          · simp [List.filter_cons, he, h1]
          · simp [List.filter_cons, he, h2, policyRecord]
          · intro y hy
            rcases List.mem_cons.mp hy with hy | hy
            · subst hy
              exact Or.inr he
            · exact h3 y hy
        | false =>
          simp only [Bool.false_eq_true, if_false, Except.ok.injEq] at h
          subst h
          refine ⟨?_, ?_, ?_⟩
          · simp [List.filter_cons, he, h1]
          · simp [List.filter_cons, he, h2]
          · intro y hy
            rcases List.mem_cons.mp hy with hy | hy
            · subst hy
              exact Or.inl he
            · exact h3 y hy

theorem flatIgnoreMatch_misconf (ids : List String) (m : DetectedMisconfiguration)
    (target : String) :
    (flatIgnoreMatch ids (Finding.misconf m) target = some "" ↔ m.ID ∈ ids ∨ m.AVDID ∈ ids) ∧
    (flatIgnoreMatch ids (Finding.misconf m) target = none ↔ m.ID ∉ ids ∧ m.AVDID ∉ ids) := by
  unfold flatIgnoreMatch
  simp only [flatIdentifiers, List.any_cons, List.any_nil, Bool.or_false]
  by_cases h1 : m.ID ∈ ids <;> by_cases h2 : m.AVDID ∈ ids <;> simp [h1, h2]

theorem policyPhase_keeps_modified (d : Documents) (opt : FilterOption) (p s : Result)
    (h : policyPhase d opt p = Except.ok s) :
    ∃ appended, s.ModifiedFindings = p.ModifiedFindings ++ appended := by
  rcases policyPhase_ok d opt p s h with ⟨_, hs⟩ | ⟨_, pv, pm, ps, pl, _, _, _, _, hs⟩
  · exact ⟨[], by rw [hs, List.append_nil]⟩
  · exact ⟨pv.2 ++ pm.2 ++ ps.2 ++ pl.2, by rw [hs]; simp only [List.append_assoc]⟩

theorem mem_severityPhase_misconfigurations (opt : FilterOption) (r : Result)
    (m : DetectedMisconfiguration) (hm : m ∈ r.Misconfigurations)
    (hs : normalizeSeverity m.Severity ∈ opt.Severities.map Severity.String) :
    { m with Severity := normalizeSeverity m.Severity } ∈
      (severityPhase opt r).Misconfigurations := by
  simp only [severityPhase]
  exact List.mem_filter.mpr ⟨List.mem_map.mpr ⟨m, hm, rfl⟩, decide_eq_true hs⟩

/-- Counterexample to C11 as stated: in the case "ignore file" the flat file
holds the line `ID300` and no line `AVD-ID300`; `misconf3` has the ID `ID300`
and the AVD ID `AVD-ID300`, which is not missing; and the filter returns the
report `TestFilter` expects, in which `misconf3` is gone from the
misconfigurations and recorded as ignored. -/
theorem filter_flat_rule_matches_plain_id :
    Filter ignoreDocuments ignoreOptions ignoreReport = Except.ok ignoreWant ∧
    ignoreDocuments.ignoreMatch = flatIgnoreMatch trivyignore ∧
    "ID300" ∈ trivyignore ∧ "AVD-ID300" ∉ trivyignore ∧
    misconf3.ID = "ID300" ∧ misconf3.AVDID = "AVD-ID300" ∧
    specMisconfIdentifier misconf3 ∉ trivyignore ∧
    (∃ r ∈ ignoreReport.Results, misconf3 ∈ r.Misconfigurations) ∧
    (∀ r2 ∈ ignoreWant.Results, misconf3 ∉ r2.Misconfigurations) ∧
    (∃ r2 ∈ ignoreWant.Results,
      ignoredRecord (Finding.misconf misconf3) ∈ r2.ModifiedFindings) :=
  ⟨by decide, rfl, by decide, by decide, rfl, rfl, by decide, by decide, by decide, by decide⟩

/-- C11 as amended: with a flat ignore file, a misconfiguration that reaches
the ignore phase is dropped by it iff a line of the file equals its ID or its
AVD ID; when the filter returns, no surviving misconfiguration has its ID or
its AVD ID in the file, and every misconfiguration of the input that passes
the severity gate and has its ID or its AVD ID in the file is recorded as
ignored with the ignore file as source. So the line `ID300` suppresses a
misconfiguration with ID `ID300` and AVD ID `AVD-ID300`. -/
theorem filter_flat_ignore_misconfiguration (d : Documents) (opt : FilterOption)
    (ids : List String) (r r2 : Result) (hd : d.ignoreMatch = flatIgnoreMatch ids)
    (hi : opt.IgnoreFile ≠ "") (h : FilterResult d opt r = Except.ok r2) :
    (∀ m ∈ (severityPhase opt (vexPhase d opt r)).Misconfigurations,
      (m ∉ (ignorePhase d opt (severityPhase opt (vexPhase d opt r))).Misconfigurations ↔
        m.ID ∈ ids ∨ m.AVDID ∈ ids)) ∧
    (∀ m ∈ r2.Misconfigurations, m.ID ∉ ids ∧ m.AVDID ∉ ids) ∧
    (∀ m ∈ r.Misconfigurations,
      normalizeSeverity m.Severity ∈ opt.Severities.map Severity.String →
      (m.ID ∈ ids ∨ m.AVDID ∈ ids) →
      NewModifiedFinding (Finding.misconf { m with Severity := normalizeSeverity m.Severity })
          FindingStatus.ignored "" opt.IgnoreFile ∈ r2.ModifiedFindings ∧
      { m with Severity := normalizeSeverity m.Severity } ∉ r2.Misconfigurations) := by
  obtain ⟨s, hs, hfin⟩ := FilterResult_ok d opt r r2 h
  subst hfin
  have hkept : ∀ m, m ∈ (ignorePhase d opt (severityPhase opt (vexPhase d opt r))).Misconfigurations ↔
      m ∈ (severityPhase opt (vexPhase d opt r)).Misconfigurations ∧ m.ID ∉ ids ∧ m.AVDID ∉ ids := by
    intro m
    simp only [ignorePhase, hi, if_false, ignoreKept, List.mem_filter, hd,
      Option.isNone_iff_eq_none]
    rw [(flatIgnoreMatch_misconf ids m _).2]
  have hsurv : ∀ m ∈ (finish opt r s).Misconfigurations, m.ID ∉ ids ∧ m.AVDID ∉ ids := by
    intro m hm
    have hm2 := (mem_sortBy _ _ _).mp hm
    have hm3 : m ∈ s.Misconfigurations := by
      simp only [summaryPhase, dedupPhase] at hm2
      split at hm2
      · exact hm2
      · exact (List.mem_filter.mp hm2).1
    unfold suppress at hs
    have hw := (within_trans (policyPhase_within d opt _ s hs) (statusPhase_within opt _)).2.1
    exact ((hkept m).mp (hw.subset hm3)).2
  refine ⟨?_, hsurv, ?_⟩
  · intro m hm
    rw [hkept]
    constructor
    · intro hn
      by_contra hc
      rw [not_or] at hc
      exact hn ⟨hm, hc⟩
    · rintro hor ⟨_, h1, h2⟩
      rcases hor with hor | hor
      · exact h1 hor
      · exact h2 hor
  · intro m hm hsev hor
    constructor
    · have hm1 : { m with Severity := normalizeSeverity m.Severity } ∈
          (severityPhase opt (vexPhase d opt r)).Misconfigurations :=
        mem_severityPhase_misconfigurations opt _ m
          (by rw [(vexPhase_misconfigurations d opt r).1]; exact hm) hsev
      have hrec : NewModifiedFinding
            (Finding.misconf { m with Severity := normalizeSeverity m.Severity })
            FindingStatus.ignored "" opt.IgnoreFile ∈
          (ignorePhase d opt (severityPhase opt (vexPhase d opt r))).ModifiedFindings := by
        simp only [ignorePhase, hi, if_false, List.mem_append]
        refine Or.inl (Or.inl (Or.inr ?_))
        simp only [ignoreRecords, List.mem_filterMap, Option.map_eq_some']
        refine ⟨_, hm1, "", ?_, rfl⟩
        rw [hd]
        exact (flatIgnoreMatch_misconf ids _ _).1.mpr hor
      unfold suppress at hs
      obtain ⟨appended, happ⟩ := policyPhase_keeps_modified d opt _ s hs
      show _ ∈ s.ModifiedFindings
      rw [happ]
      exact List.mem_append_left _ hrec
    · intro hin
      obtain ⟨h1, h2⟩ := hsurv _ hin
      rcases hor with hor | hor
      · exact h1 hor
      · exact h2 hor

/-- Example for the amended C11: the second result of the case "ignore file". -/
theorem filter_flat_ignore_misconfiguration_witness :
    ignoreDocuments.ignoreMatch = flatIgnoreMatch trivyignore ∧
    ignoreOptions.IgnoreFile ≠ "" ∧
    FilterResult ignoreDocuments ignoreOptions
        { emptyResult with
          Target := "deployment.yaml"
          Class := "config"
          Misconfigurations := [misconf1, misconf2, misconf3] }
      = Except.ok
        { emptyResult with
          Target := "deployment.yaml"
          Class := "config"
          MisconfSummary := some { Successes := 1, Failures := 0, Exceptions := 1 }
          ModifiedFindings := [ignoredRecord (Finding.misconf misconf3)] } ∧
    NewModifiedFinding (Finding.misconf misconf3) FindingStatus.ignored "" "testdata/.trivyignore"
      ∈ [ignoredRecord (Finding.misconf misconf3)] :=
  ⟨rfl, by decide, by decide,
    ((filter_flat_ignore_misconfiguration ignoreDocuments ignoreOptions trivyignore
      { emptyResult with
        Target := "deployment.yaml"
        Class := "config"
        Misconfigurations := [misconf1, misconf2, misconf3] }
      { emptyResult with
        Target := "deployment.yaml"
        Class := "config"
        MisconfSummary := some { Successes := 1, Failures := 0, Exceptions := 1 }
        ModifiedFindings := [ignoredRecord (Finding.misconf misconf3)] }
      rfl (by decide) (by decide)).2.2 misconf3 (by decide) (by decide) (by decide)).1⟩

/-! ## Theorems: severity normalisation -/

theorem mem_severityPhase_vulnerabilities (opt : FilterOption) (r : Result)
    (x : DetectedVulnerability) :
    x ∈ (severityPhase opt r).Vulnerabilities ↔
      (∃ x0 ∈ r.Vulnerabilities, x = { x0 with Severity := normalizeSeverity x0.Severity }) ∧
      x.Severity ∈ opt.Severities.map Severity.String := by
  simp only [severityPhase]
  rw [List.mem_filter, List.mem_map, decide_eq_true_eq]
  constructor
  · rintro ⟨⟨x0, hx0, e⟩, hs⟩
    exact ⟨⟨x0, hx0, e.symm⟩, hs⟩
  · rintro ⟨⟨x0, hx0, e⟩, hs⟩
    exact ⟨⟨x0, hx0, e.symm⟩, hs⟩

theorem openvex_filter_eq (ps : PackageURL → String) (v : OpenVEX) (r : Result) :
    v.Filter ps r =
      { r with
        Vulnerabilities := r.Vulnerabilities.filter (fun x => (OpenVEX.record ps v x).isNone)
        ModifiedFindings :=
          r.ModifiedFindings ++ r.Vulnerabilities.filterMap (OpenVEX.record ps v) } := by
  simp [OpenVEX.Filter, lo_filter_eq]

theorem filterMap_record_nil (ps : PackageURL → String) (v : OpenVEX)
    (vs : List DetectedVulnerability) (h : ∀ x ∈ vs, OpenVEX.record ps v x = none) :
    vs.filterMap (OpenVEX.record ps v) = [] := by
  induction vs with
  | nil => rfl
  | cons x xs ih =>
    rw [List.filterMap_cons, h x (List.mem_cons_self _ _)]
    exact ih (fun y hy => h y (List.mem_cons_of_mem _ hy))

theorem openvex_filter_fixed (ps : PackageURL → String) (v : OpenVEX) (r : Result)
    (h : ∀ x ∈ r.Vulnerabilities, OpenVEX.record ps v x = none) : v.Filter ps r = r := by
  rw [openvex_filter_eq, filterMap_record_nil ps v _ h, List.append_nil,
    List.filter_eq_self.mpr (fun x hx => by simp [h x hx])]

theorem openvex_filter_idempotent (ps : PackageURL → String) (v : OpenVEX) (r : Result) :
    v.Filter ps (v.Filter ps r) = v.Filter ps r := by
  apply openvex_filter_fixed
  intro x hx
  rw [filter_vulns, List.mem_filter] at hx
  simpa using hx.2

theorem map_filter_fixed {α : Type} (f : α → α) (p : α → Bool) (l : List α)
    (h : ∀ x ∈ l, f x = x ∧ p x = true) : (l.map f).filter p = l := by
  induction l with
  | nil => rfl
  | cons x xs ih =>
    obtain ⟨h1, h2⟩ := h x (List.mem_cons_self _ _)
    rw [List.map_cons, h1, List.filter_cons, h2, if_pos rfl,
      ih (fun y hy => h y (List.mem_cons_of_mem _ hy))]

theorem ignore_fixed {α : Type} (inj : α → Finding) (m : Finding → String → Option String)
    (target file : String) (xs : List α) (h : ∀ x ∈ xs, m (inj x) target = none) :
    ignoreKept inj m target xs = xs ∧ ignoreRecords inj m target file xs = [] := by
  constructor
  · exact List.filter_eq_self.mpr (fun x hx => by simp [h x hx])
  · unfold ignoreRecords
    induction xs with
    | nil => rfl
    | cons x xs ih =>
      rw [List.filterMap_cons, h x (List.mem_cons_self _ _)]
      exact ih (fun y hy => h y (List.mem_cons_of_mem _ hy))

theorem policyPass_fixed {α : Type} (inj : α → Finding) (eval : Finding → Except String Bool)
    (source : String) (xs : List α) (h : ∀ x ∈ xs, eval (inj x) = Except.ok false) :
    policyPass inj eval source xs = Except.ok (xs, []) := by
  induction xs with
  | nil => rfl
  | cons x xs ih =>
    simp only [policyPass, h x (List.mem_cons_self _ _),
      ih (fun y hy => h y (List.mem_cons_of_mem _ hy)), Bool.false_eq_true, if_false]

theorem vexPhase_target (d : Documents) (opt : FilterOption) (r : Result) :
    (vexPhase d opt r).Target = r.Target := by
  unfold vexPhase
  split <;> rfl

theorem ignorePhase_target (d : Documents) (opt : FilterOption) (r : Result) :
    (ignorePhase d opt r).Target = r.Target := by
  unfold ignorePhase
  split <;> rfl

theorem policyPhase_target (d : Documents) (opt : FilterOption) (p s : Result)
    (h : policyPhase d opt p = Except.ok s) : s.Target = p.Target := by
  rcases policyPhase_ok d opt p s h with ⟨_, hs⟩ | ⟨_, pv, pm, ps, pl, _, _, _, _, hs⟩ <;>
    rw [hs]

theorem suppress_target (d : Documents) (opt : FilterOption) (r s : Result)
    (h : suppress d opt r = Except.ok s) : s.Target = r.Target := by
  unfold suppress at h
  rw [policyPhase_target d opt _ s h]
  show (ignorePhase d opt (severityPhase opt (vexPhase d opt r))).Target = r.Target
  rw [ignorePhase_target]
  exact vexPhase_target d opt r

theorem ignorePhase_unmatched (d : Documents) (opt : FilterOption) (p : Result) :
    (∀ x ∈ (ignorePhase d opt p).Vulnerabilities,
      opt.IgnoreFile = "" ∨ d.ignoreMatch (Finding.vuln x) p.Target = none) ∧
    (∀ x ∈ (ignorePhase d opt p).Misconfigurations,
      opt.IgnoreFile = "" ∨ d.ignoreMatch (Finding.misconf x) p.Target = none) ∧
    (∀ x ∈ (ignorePhase d opt p).Secrets,
      opt.IgnoreFile = "" ∨ d.ignoreMatch (Finding.secret x) p.Target = none) ∧
    (∀ x ∈ (ignorePhase d opt p).Licenses,
      opt.IgnoreFile = "" ∨ d.ignoreMatch (Finding.license x) p.Target = none) := by
  by_cases hi : opt.IgnoreFile = ""
  · exact ⟨fun _ _ => Or.inl hi, fun _ _ => Or.inl hi, fun _ _ => Or.inl hi,
      fun _ _ => Or.inl hi⟩
  · refine ⟨?_, ?_, ?_, ?_⟩ <;>
    · intro x hx
      simp only [ignorePhase, hi, if_false, ignoreKept, List.mem_filter,
        Option.isNone_iff_eq_none] at hx
      exact Or.inr hx.2

theorem policyPhase_unanswered (d : Documents) (opt : FilterOption) (p s : Result)
    (h : policyPhase d opt p = Except.ok s) :
    (∀ x ∈ s.Vulnerabilities,
      opt.PolicyFile = "" ∨ d.policyEval (Finding.vuln x) = Except.ok false) ∧
    (∀ x ∈ s.Misconfigurations,
      opt.PolicyFile = "" ∨ d.policyEval (Finding.misconf x) = Except.ok false) ∧
    (∀ x ∈ s.Secrets,
      opt.PolicyFile = "" ∨ d.policyEval (Finding.secret x) = Except.ok false) ∧
    (∀ x ∈ s.Licenses,
      opt.PolicyFile = "" ∨ d.policyEval (Finding.license x) = Except.ok false) := by
  rcases policyPhase_ok d opt p s h with ⟨he, _⟩ | ⟨_, pv, pm, ps, pl, hv, hm, hsec, hl, hs⟩
  · exact ⟨fun _ _ => Or.inl he, fun _ _ => Or.inl he, fun _ _ => Or.inl he,
      fun _ _ => Or.inl he⟩
  · rw [hs]
    refine ⟨?_, ?_, ?_, ?_⟩
    · intro x hx
      have hx2 : x ∈ pv.1 := hx
      rw [(policyPass_filter _ _ _ _ _ hv).1, List.mem_filter] at hx2
      exact Or.inr (by simpa using hx2.2)
    · intro x hx
      have hx2 : x ∈ pm.1 := hx
      rw [(policyPass_filter _ _ _ _ _ hm).1, List.mem_filter] at hx2
      exact Or.inr (by simpa using hx2.2)
    · intro x hx
      have hx2 : x ∈ ps.1 := hx
      rw [(policyPass_filter _ _ _ _ _ hsec).1, List.mem_filter] at hx2
      exact Or.inr (by simpa using hx2.2)
    · intro x hx
      have hx2 : x ∈ pl.1 := hx
      rw [(policyPass_filter _ _ _ _ _ hl).1, List.mem_filter] at hx2
      exact Or.inr (by simpa using hx2.2)

theorem suppress_settled (d : Documents) (opt : FilterOption) (r s : Result)
    (h : suppress d opt r = Except.ok s) : s.settled d opt := by
  have htarget := suppress_target d opt r s h
  obtain ⟨gv, gm, gs, gl⟩ := suppress_gate d opt r s h
  have h0 := h
  unfold suppress at h0
  obtain ⟨pv, pm, ps, pl⟩ := policyPhase_unanswered d opt _ s h0
  obtain ⟨wv, wm, ws, wl⟩ := within_trans (policyPhase_within d opt _ s h0)
    (statusPhase_within opt _)
  obtain ⟨iv, im, is, il⟩ := ignorePhase_unmatched d opt (severityPhase opt (vexPhase d opt r))
  have ht2 : (severityPhase opt (vexPhase d opt r)).Target = s.Target := by
    rw [htarget]
    exact vexPhase_target d opt r
  rw [ht2] at iv im is il
  refine ⟨?_, ?_, ?_, ?_⟩
  · intro x hx
    refine ⟨?_, ?_, gv x hx, iv x (wv.subset hx), pv x hx⟩
    · by_cases hvex : opt.VEXPath = ""
      · exact Or.inl hvex
      · right
        have hx2 := (suppress_within d opt r s h).1.subset hx
        obtain ⟨⟨x0, hx0, e⟩, _⟩ := (mem_severityPhase_vulnerabilities opt _ x).mp hx2
        simp only [vexPhase, hvex, if_false] at hx0
        rw [filter_vulns, List.mem_filter] at hx0
        have hnone : (OpenVEX.record d.purlString d.vex x0).isNone = true := hx0.2
        have hc := record_isNone_congr d.purlString d.vex x x0 (by rw [e]) (by rw [e])
        rw [hnone] at hc
        exact Option.isNone_iff_eq_none.mp hc
    · have hx2 := (policyPhase_within d opt _ s h0).1.subset hx
      simp only [statusPhase, List.mem_filter, decide_eq_true_eq] at hx2
      exact hx2.2
  · intro x hx
    exact ⟨gm x hx, im x (wm.subset hx), pm x hx⟩
  · intro x hx
    exact ⟨gs x hx, is x (ws.subset hx), ps x hx⟩
  · intro x hx
    exact ⟨gl x hx, il x (wl.subset hx), pl x hx⟩

theorem vexPhase_fixed (d : Documents) (opt : FilterOption) (t : Result)
    (h : t.settled d opt) : vexPhase d opt t = t := by
  unfold vexPhase
  by_cases hv : opt.VEXPath = ""
  · simp only [hv, if_true]
  · simp only [hv, if_false]
    exact openvex_filter_fixed _ _ t (fun x hx => (h.1 x hx).1.resolve_left hv)

theorem severity_name_fixed (sevs : List Severity) (s : String)
    (h : s ∈ sevs.map Severity.String) : normalizeSeverity s = s :=
  normalizeSeverity_of_ne s (severity_name_ne_empty sevs s h)

theorem severityPhase_fixed (d : Documents) (opt : FilterOption) (t : Result)
    (h : t.settled d opt) : severityPhase opt t = t := by
  obtain ⟨hv, hm, hs, hl⟩ := h
  have e1 : (t.Vulnerabilities.map fun v =>
        { v with Severity := normalizeSeverity v.Severity }).filter
      (fun v => decide (v.Severity ∈ opt.Severities.map Severity.String)) = t.Vulnerabilities :=
    map_filter_fixed _ _ _ (fun x hx => by
      have hg := (hv x hx).2.2.1
      exact ⟨by rw [severity_name_fixed _ _ hg], decide_eq_true hg⟩)
  have e2 : (t.Misconfigurations.map fun m =>
        { m with Severity := normalizeSeverity m.Severity }).filter
      (fun m => decide (m.Severity ∈ opt.Severities.map Severity.String))
      = t.Misconfigurations :=
    map_filter_fixed _ _ _ (fun x hx => by
      have hg := (hm x hx).1
      exact ⟨by rw [severity_name_fixed _ _ hg], decide_eq_true hg⟩)
  have e3 : (t.Secrets.map fun s =>
        { s with Severity := normalizeSeverity s.Severity }).filter
      (fun s => decide (s.Severity ∈ opt.Severities.map Severity.String)) = t.Secrets :=
    map_filter_fixed _ _ _ (fun x hx => by
      have hg := (hs x hx).1
      exact ⟨by rw [severity_name_fixed _ _ hg], decide_eq_true hg⟩)
  have e4 : (t.Licenses.map fun l =>
        { l with Severity := normalizeSeverity l.Severity }).filter
      (fun l => decide (l.Severity ∈ opt.Severities.map Severity.String)) = t.Licenses :=
    map_filter_fixed _ _ _ (fun x hx => by
      have hg := (hl x hx).1
      exact ⟨by rw [severity_name_fixed _ _ hg], decide_eq_true hg⟩)
  simp only [severityPhase, e1, e2, e3, e4]

theorem ignorePhase_fixed (d : Documents) (opt : FilterOption) (t : Result)
    (h : t.settled d opt) : ignorePhase d opt t = t := by
  unfold ignorePhase
  by_cases hi : opt.IgnoreFile = ""
  · simp only [hi, if_true]
  · simp only [hi, if_false]
    obtain ⟨hv, hm, hs, hl⟩ := h
    obtain ⟨a1, a2⟩ := ignore_fixed Finding.vuln d.ignoreMatch t.Target opt.IgnoreFile
      t.Vulnerabilities (fun x hx => (hv x hx).2.2.2.1.resolve_left hi)
    obtain ⟨b1, b2⟩ := ignore_fixed Finding.misconf d.ignoreMatch t.Target opt.IgnoreFile
      t.Misconfigurations (fun x hx => (hm x hx).2.1.resolve_left hi)
    obtain ⟨c1, c2⟩ := ignore_fixed Finding.secret d.ignoreMatch t.Target opt.IgnoreFile
      t.Secrets (fun x hx => (hs x hx).2.1.resolve_left hi)
    obtain ⟨e1, e2⟩ := ignore_fixed Finding.license d.ignoreMatch t.Target opt.IgnoreFile
      t.Licenses (fun x hx => (hl x hx).2.1.resolve_left hi)
    simp only [a1, a2, b1, b2, c1, c2, e1, e2, List.append_nil]

theorem statusPhase_fixed (d : Documents) (opt : FilterOption) (t : Result)
    (h : t.settled d opt) : statusPhase opt t = t := by
  have e : t.Vulnerabilities.filter (fun v => decide (v.Status ∉ opt.IgnoreStatuses))
      = t.Vulnerabilities :=
    List.filter_eq_self.mpr (fun x hx => decide_eq_true (h.1 x hx).2.1)
  simp only [statusPhase, e]

theorem policyPhase_fixed (d : Documents) (opt : FilterOption) (t : Result)
    (h : t.settled d opt) : policyPhase d opt t = Except.ok t := by
  unfold policyPhase
  by_cases hp : opt.PolicyFile = ""
  · simp only [hp, if_true]
  · obtain ⟨hv, hm, hs, hl⟩ := h
    simp only [hp, if_false,
      policyPass_fixed Finding.vuln d.policyEval _ t.Vulnerabilities
        (fun x hx => (hv x hx).2.2.2.2.resolve_left hp),
      policyPass_fixed Finding.misconf d.policyEval _ t.Misconfigurations
        (fun x hx => (hm x hx).2.2.resolve_left hp),
      policyPass_fixed Finding.secret d.policyEval _ t.Secrets
        (fun x hx => (hs x hx).2.2.resolve_left hp),
      policyPass_fixed Finding.license d.policyEval _ t.Licenses
        (fun x hx => (hl x hx).2.2.resolve_left hp), List.append_nil]

theorem suppress_fixed (d : Documents) (opt : FilterOption) (t : Result)
    (h : t.settled d opt) : suppress d opt t = Except.ok t := by
  unfold suppress
  rw [vexPhase_fixed d opt t h, severityPhase_fixed d opt t h, ignorePhase_fixed d opt t h,
    statusPhase_fixed d opt t h, policyPhase_fixed d opt t h]

theorem misconfLess_iff_key (a b : DetectedMisconfiguration) :
    misconfLess a b = true ↔ misconfSortKey a < misconfSortKey b := by
  simp only [misconfLess, misconfSortKey, Prod.Lex.lt_iff, ofLex_toLex]
  by_cases h1 : severityPosition a.Severity = severityPosition b.Severity
  · by_cases h2 : a.Typ = b.Typ
    · simp [h1, h2, strLess_iff]
    · simp [h1, h2, strLess_iff]
  · simp [h1]

theorem secretLess_iff_key (a b : DetectedSecret) :
    secretLess a b = true ↔ secretSortKey a < secretSortKey b := by
  simp only [secretLess, secretSortKey, Prod.Lex.lt_iff, ofLex_toLex]
  by_cases h1 : a.RuleID = b.RuleID
  · simp [h1]
  · simp [h1, strLess_iff]

theorem licenseLess_iff_key (a b : DetectedLicense) :
    licenseLess a b = true ↔ licenseSortKey a < licenseSortKey b := by
  simp only [licenseLess, licenseSortKey, Prod.Lex.lt_iff, ofLex_toLex]
  by_cases h1 : severityPosition a.Severity = severityPosition b.Severity
  · by_cases h2 : a.Category = b.Category
    · by_cases h3 : a.FilePath = b.FilePath
      · simp [h1, h2, h3, strLess_iff]
      · simp [h1, h2, h3, strLess_iff]
    · simp [h1, h2, strLess_iff]
  · simp [h1]

theorem sortBy_idempotent {α β : Type} [LinearOrder β] (less : α → α → Bool) (key : α → β)
    (hkey : ∀ a b, less a b = true ↔ key a < key b) (l : List α) :
    sortBy less (sortBy less l) = sortBy less l := by
  have hle : ∀ a b, less b a = false ↔ key a ≤ key b := by
    intro a b
    rw [← not_lt, ← hkey]
    simp
  have total : IsTotal α (fun a b => less b a = false) :=
    ⟨fun a b => by
      simp only [hle]
      exact le_total _ _⟩
  have trans : IsTrans α (fun a b => less b a = false) :=
    ⟨fun a b c => by
      simp only [hle]
      exact le_trans⟩
  exact List.Sorted.insertionSort_eq
    (List.sorted_insertionSort (fun a b => less b a = false) l)

theorem normalize_twice (v : DetectedVulnerability) :
    ({ ({ v with Severity := normalizeSeverity v.Severity } : DetectedVulnerability) with
        Severity := normalizeSeverity
          ({ v with Severity := normalizeSeverity v.Severity } : DetectedVulnerability).Severity }
      : DetectedVulnerability)
      = { v with Severity := normalizeSeverity v.Severity } := by
  have : normalizeSeverity (normalizeSeverity v.Severity) = normalizeSeverity v.Severity := by
    unfold normalizeSeverity
    split
    · decide
    · rename_i h
      simp [h]
  simp [this]

theorem uniqInsert_new (v : DetectedVulnerability) :
    ∀ acc : List DetectedVulnerability, dedupKey v ∉ acc.map dedupKey →
      uniqInsert v acc = acc ++ [v] := by
  intro acc
  induction acc with
  | nil => intro _; rfl
  | cons old rest ih =>
    intro hn
    simp only [List.map_cons, List.mem_cons, not_or] at hn
    have hk : ¬ dedupKey old = dedupKey v := fun e => hn.1 e.symm
    simp only [uniqInsert, hk, if_false, ih hn.2, List.cons_append]

theorem dedup_fold_fixed (vs : List DetectedVulnerability) :
    ∀ acc : List DetectedVulnerability, ((acc ++ vs).map dedupKey).Nodup →
      (∀ x ∈ vs, ({ x with Severity := normalizeSeverity x.Severity } : DetectedVulnerability)
        = x) →
      vs.foldl (fun acc v => uniqInsert { v with Severity := normalizeSeverity v.Severity } acc)
        acc = acc ++ vs := by
  induction vs with
  | nil => intro acc _ _; simp
  | cons x xs ih =>
    intro acc hnd hnorm
    simp only [List.foldl_cons]
    rw [hnorm x (List.mem_cons_self _ _)]
    have hx : dedupKey x ∉ acc.map dedupKey := by
      intro hin
      rw [List.map_append, List.map_cons, List.nodup_append] at hnd
      exact hnd.2.2 hin (List.mem_cons_self _ _)
    rw [uniqInsert_new x acc hx]
    have hnd2 : (((acc ++ [x]) ++ xs).map dedupKey).Nodup := by
      rw [List.append_assoc, List.singleton_append]
      exact hnd
    rw [ih (acc ++ [x]) hnd2 (fun y hy => hnorm y (List.mem_cons_of_mem _ hy)),
      List.append_assoc, List.singleton_append]

theorem dedup_fixed (vs : List DetectedVulnerability) (hnd : (vs.map dedupKey).Nodup)
    (hnorm : ∀ x ∈ vs,
      ({ x with Severity := normalizeSeverity x.Severity } : DetectedVulnerability) = x) :
    dedup vs = vs := by
  unfold dedup
  rw [dedup_fold_fixed vs [] (by simpa using hnd) hnorm, List.nil_append]

theorem finish_vulnerabilities_normal (opt : FilterOption) (r s : Result) :
    ∀ x ∈ (finish opt r s).Vulnerabilities,
      ({ x with Severity := normalizeSeverity x.Severity } : DetectedVulnerability) = x := by
  intro x hx
  obtain ⟨v, _, e⟩ := finish_origin opt r s x hx
  rw [e]
  exact normalize_twice v

theorem finish_of_fixed (opt : FilterOption) (t0 t : Result)
    (hV : sortBy vulnLess (dedup t.Vulnerabilities) = t.Vulnerabilities)
    (hM : sortBy misconfLess (if opt.IncludeNonFailures then t.Misconfigurations
        else t.Misconfigurations.filter fun m => decide (m.Status = MisconfStatus.failure))
      = t.Misconfigurations)
    (hS : sortBy secretLess t.Secrets = t.Secrets)
    (hL : sortBy licenseLess t.Licenses = t.Licenses) :
    finish opt t0 t =
      { t with
        MisconfSummary :=
          if (!t0.Misconfigurations.isEmpty) then
            some (summarize t.Misconfigurations t.ModifiedFindings)
          else t.MisconfSummary } := by
  simp only [finish, orderPhase, summaryPhase, dedupPhase]
  rw [hV, hM, hS, hL]

theorem finish_twice (opt : FilterOption) (r s : Result) :
    finish opt (finish opt r s) (finish opt r s) = recount (finish opt r s) := by
  unfold recount
  apply finish_of_fixed
  · rw [dedup_fixed _ (finish_keys_nodup opt r s) (finish_vulnerabilities_normal opt r s),
      finish_vulnerabilities]
    exact sortBy_idempotent vulnLess vulnSortKey vulnLess_iff_key _
  · rw [finish_misconfigurations]
    cases hi : opt.IncludeNonFailures
    · simp only [Bool.false_eq_true, if_false]
      rw [List.filter_eq_self.mpr (fun m hm => by
        have hm2 := (mem_sortBy _ _ _).mp hm
        exact (List.mem_filter.mp hm2).2)]
      exact sortBy_idempotent misconfLess misconfSortKey misconfLess_iff_key _
    · simp only [if_true]
      exact sortBy_idempotent misconfLess misconfSortKey misconfLess_iff_key _
  · exact sortBy_idempotent secretLess secretSortKey secretLess_iff_key _
  · exact sortBy_idempotent licenseLess licenseSortKey licenseLess_iff_key _

theorem finish_settled (d : Documents) (opt : FilterOption) (r s : Result)
    (h : s.settled d opt) : (finish opt r s).settled d opt := by
  obtain ⟨hv, hm, hs, hl⟩ := h
  have htarget : (finish opt r s).Target = s.Target := rfl
  refine ⟨?_, ?_, ?_, ?_⟩
  · intro x hx
    obtain ⟨v, hv1, e⟩ := finish_origin opt r s x hx
    have hg := (hv v hv1).2.2.1
    have : x = v := by
      rw [e, severity_name_fixed _ _ hg]
    rw [this, htarget]
    exact hv v hv1
  · intro m hm1
    have hm2 := (mem_sortBy _ _ _).mp hm1
    have hm3 : m ∈ s.Misconfigurations := by
      simp only [summaryPhase, dedupPhase] at hm2
      split at hm2
      · exact hm2
      · exact (List.mem_filter.mp hm2).1
    rw [htarget]
    exact hm m hm3
  · intro x hx
    rw [htarget]
    exact hs x ((mem_sortBy _ _ _).mp hx)
  · intro x hx
    rw [htarget]
    exact hl x ((mem_sortBy _ _ _).mp hx)

theorem FilterResult_twice (d : Documents) (opt : FilterOption) (r r2 : Result)
    (h : FilterResult d opt r = Except.ok r2) :
    FilterResult d opt r2 = Except.ok (recount r2) := by
  obtain ⟨s, hs, hfin⟩ := FilterResult_ok d opt r r2 h
  subst hfin
  have hset := finish_settled d opt r s (suppress_settled d opt r s hs)
  simp only [FilterResult, suppress_fixed d opt _ hset, finish_twice]

theorem filterResults_twice (d : Documents) (opt : FilterOption) :
    ∀ rs out : List Result,
      List.Forall₂ (fun r r2 => FilterResult d opt r = Except.ok r2) rs out →
      filterResults d opt out = Except.ok (out.map recount) := by
  intro rs out h
  induction h with
  | nil => rfl
  | cons hab _ ih =>
    simp only [filterResults, FilterResult_twice d opt _ _ hab, ih, List.map_cons]

theorem finish_failures (opt : FilterOption) (r s : Result) :
    countStatus MisconfStatus.failure (finish opt r s).Misconfigurations
      = countStatus MisconfStatus.failure s.Misconfigurations := by
  rw [finish_misconfigurations, countStatus_sortBy]
  cases hi : opt.IncludeNonFailures
  · simp only [Bool.false_eq_true, if_false]
    rw [countStatus_failures_only]
    simp
  · simp

/-- Counterexample to C13 as stated: on the report that the filter returns in
the case "policy file for misconfigurations" (the one `TestFilter` expects), a
second run of the filter with the same options and documents returns another
report: the passed misconfiguration counted in `Successes` by the first run is
no longer in the list, so the summary `{1, 1, 1}` is not reproduced. -/
theorem filter_not_idempotent :
    Filter policyDocuments policyOptions { Results := [policyInput] }
      = Except.ok { Results := [policyOutput] } ∧
    Filter policyDocuments policyOptions { Results := [policyOutput] }
      ≠ Except.ok { Results := [policyOutput] } ∧
    ∃ report3, Filter policyDocuments policyOptions { Results := [policyOutput] }
        = Except.ok report3 ∧
      ∀ r3 ∈ report3.Results, ∀ summary, r3.MisconfSummary = some summary →
        summary.Successes = 0 := by
  refine ⟨by decide, by decide, { Results := [recount policyOutput] }, by decide, ?_⟩
  intro r3 hr3 summary hsum
  rw [List.mem_singleton.mp hr3] at hsum
  have : summary = summarize policyOutput.Misconfigurations policyOutput.ModifiedFindings :=
    (Option.some.inj hsum).symm
  rw [this]
  decide

/-- C13 as amended: a second run of `Filter` on the report a first run returned
succeeds and returns the same results except for the summaries: in every
result `Target`, `Class`, the four finding lists and `ModifiedFindings` are
unchanged; a result without misconfigurations is unchanged; for a result with
misconfigurations the summary is recomputed from the returned list, so
`Failures` is what it was and `Successes` is the number of passed
misconfigurations of the list, which is 0 unless `IncludeNonFailures` is set.
The OpenVEX step by itself is idempotent: `OpenVEX.Filter` with the same
document on an already filtered result leaves `Vulnerabilities` unchanged and
appends no modified finding. -/
theorem filter_second_run (d : Documents) (opt : FilterOption) (report report2 : Report)
    (h : Filter d opt report = Except.ok report2) :
    Filter d opt report2 = Except.ok { Results := report2.Results.map recount } ∧
    (∀ r2 ∈ report2.Results,
      (recount r2).Target = r2.Target ∧ (recount r2).Class = r2.Class ∧
      (recount r2).Vulnerabilities = r2.Vulnerabilities ∧
      (recount r2).Misconfigurations = r2.Misconfigurations ∧
      (recount r2).Secrets = r2.Secrets ∧ (recount r2).Licenses = r2.Licenses ∧
      (recount r2).ModifiedFindings = r2.ModifiedFindings ∧
      (r2.Misconfigurations = [] → recount r2 = r2) ∧
      (r2.Misconfigurations ≠ [] →
        ∃ summary3, (recount r2).MisconfSummary = some summary3 ∧
          summary3.Successes = countStatus MisconfStatus.passed r2.Misconfigurations ∧
          (opt.IncludeNonFailures = false → summary3.Successes = 0) ∧
          summary3.Failures = countStatus MisconfStatus.failure r2.Misconfigurations ∧
          ∀ summary2, r2.MisconfSummary = some summary2 →
            summary3.Failures = summary2.Failures)) ∧
    (∀ (ps : PackageURL → String) (v : OpenVEX) (result : Result),
      v.Filter ps (v.Filter ps result) = v.Filter ps result ∧
      (v.Filter ps (v.Filter ps result)).Vulnerabilities = (v.Filter ps result).Vulnerabilities ∧
      (v.Filter ps (v.Filter ps result)).ModifiedFindings
        = (v.Filter ps result).ModifiedFindings) := by
  have hF := Filter_ok d opt report report2 h
  refine ⟨?_, ?_, ?_⟩
  · simp only [Filter, filterResults_twice d opt _ _ hF]
  · intro r2 hr2
    refine ⟨rfl, rfl, rfl, rfl, rfl, rfl, rfl, ?_, ?_⟩
    · intro hnil
      cases r2 with
      | mk t c v m s l ms mf =>
        simp only at hnil
        subst hnil
        rfl
    · intro hne
      obtain ⟨r, _, hr⟩ := forall₂_mem_right hF r2 hr2
      obtain ⟨s, hs, hfin⟩ := FilterResult_ok d opt r r2 hr
      have hsum3 : (recount r2).MisconfSummary
          = some (summarize r2.Misconfigurations r2.ModifiedFindings) := by
        cases hm : r2.Misconfigurations with
        | nil => exact absurd hm hne
        | cons m ms => simp [recount, hm]
      refine ⟨_, hsum3, rfl, ?_, rfl, ?_⟩
      · intro hi
        show countStatus MisconfStatus.passed r2.Misconfigurations = 0
        rw [hfin, finish_misconfigurations, countStatus_sortBy]
        simp only [hi, Bool.false_eq_true, if_false]
        rw [countStatus_failures_only]
        simp
      · intro summary2 hsum2
        have hrne : r.Misconfigurations ≠ [] := by
          intro hnil
          cases hm : r2.Misconfigurations with
          | nil => exact hne hm
          | cons m ms =>
            have hmem : m ∈ r2.Misconfigurations := by rw [hm]; exact List.mem_cons_self _ _
            rw [hfin] at hmem
            have hm2 := (mem_sortBy _ _ _).mp hmem
            have hm3 : m ∈ s.Misconfigurations := by
              simp only [summaryPhase, dedupPhase] at hm2
              split at hm2
              · exact hm2
              · exact (List.mem_filter.mp hm2).1
            obtain ⟨m0, hm0, _⟩ := suppress_status d opt r s hs m hm3
            rw [hnil] at hm0
            cases hm0
        rw [hfin, finish_summary opt r s hrne] at hsum2
        have e2 : summary2 = summarize s.Misconfigurations s.ModifiedFindings :=
          (Option.some.inj hsum2).symm
        rw [e2]
        show countStatus MisconfStatus.failure r2.Misconfigurations
          = countStatus MisconfStatus.failure s.Misconfigurations
        rw [hfin, finish_failures]
  · intro ps v result
    have e := openvex_filter_idempotent ps v result
    exact ⟨e, by rw [e], by rw [e]⟩

/-- Example for the amended C13: the second run on the expected report of the
case "policy file for misconfigurations" keeps the list and the record and
recounts the summary to `{0, 1, 1}`. -/
theorem filter_second_run_witness :
    Filter policyDocuments policyOptions { Results := [policyInput] }
      = Except.ok { Results := [policyOutput] } ∧
    Filter policyDocuments policyOptions { Results := [policyOutput] }
      = Except.ok { Results := [{ policyOutput with
          MisconfSummary := some { Successes := 0, Failures := 1, Exceptions := 1 } }] } := by
  refine ⟨by decide, ?_⟩
  rw [(filter_second_run policyDocuments policyOptions { Results := [policyInput] }
    { Results := [policyOutput] } (by decide)).1]
  decide

end Trivy
